import Mathlib

/-!
# BlogClient: the reconciliation engine, embedded in Lean

A shallow embedding of the parts of the BlogClient sources that decide how the
local SQLite store and the remote WordPress service are reconciled:

* `src/src/models/Post.cpp`, `Category.cpp`, `Tag.cpp`  (value types),
* `src/src/database/DatabaseManager.cpp`               (the local store),
* `src/src/api/WordPressAPI.cpp`                       (requests and response handlers),
* `src/BlogClient.cpp`                                 (the slots that drive a sync).

Modelling conventions.

* The SQLite database is an explicit value of type `Database`; every member
  function of `DatabaseManager` becomes a function that takes the database and
  returns the new one together with the C++ return value and the updated
  reference argument.
* A `QSqlQuery` succeeds unless the connection is closed (`isOpen = false`, the
  state after a failed `initialize` or after `close`) or the statement violates
  a `UNIQUE` / `PRIMARY KEY` constraint of `createTables`.  Foreign keys are
  declared by `createTables` but never switched on (`PRAGMA foreign_keys` is
  not issued anywhere), so they are inert, as in SQLite.
* `QString` is `String`: a null `QString` (a default-constructed one, or
  `toString()` of a JSON value that is not a string) is represented by the
  empty text.  SQLite tells the two apart only through `NOT NULL` on
  `posts.title` and on the name of a term, so a write of the model never fails
  on `NOT NULL`; a theorem that needs a call of `savePost` to succeed takes
  that as a hypothesis.
* C++ `int` and SQLite `INTEGER` are `Int`: the program does no arithmetic on
  them, and keys are taken to fit in an `int`.
* A valid `QDateTime` is a number that stands for the value as a whole (date,
  time and time zone); `none` is the invalid date-time.  The column
  `publish_date` holds NULL for the invalid date-time and else the text the
  driver binds, `toString(Qt::ISODateWithMs)`; `ORDER BY publish_date`
  compares these texts.  That text and the instant of a date-time are library
  functions, given as a `Calendar`.
* A member that issues `SELECT` statements only (`getAllPosts`, `getPostById`,
  the joins) returns its C++ result alone: the database is the same afterwards.
* `Category` and `Tag` are the same class up to renaming, and so are the two
  term tables, the two relation tables and the code that works on them; the
  embedding writes that code once, over `Term` and `TermTable`, and
  instantiates it twice under the source names.
* Widgets, message boxes and logging are left out.  A signal emitted by
  `WordPressAPI` is a value of type `Signal`; the `connect` calls of the
  `BlogClient` constructor become the function `BlogClient.deliver`.
-/

set_option autoImplicit false

/-! ## Value types (`src/src/models`) -/

/-- A `QDateTime`: `none` is the invalid date-time, `some t` a valid one, the
number `t` standing for the value as a whole. -/
abbrev QDateTime := Option Int

namespace Post

/-- The enum `Post::Status`; `Draft` is 0 and `Published` is 1. -/
inductive Status where
  | Draft
  | Published
deriving DecidableEq, Repr

/-- The integer an enumerator is bound as in a query. -/
def Status.toInt : Status → Int
  | Status.Draft => 0
  | Status.Published => 1

/-- The cast `static_cast<Post::Status>(n)` of a stored integer; the program
only ever stores 0 and 1. -/
def Status.ofInt (n : Int) : Status :=
  if n = 1 then Status.Published else Status.Draft

end Post

/-- The class `Post` (its private members, named after their accessors). -/
structure Post where
  id : Int
  remoteId : Int
  featureMediaId : Int
  title : String
  content : String
  excerpt : String
  publishDate : QDateTime
  author : String
  status : Post.Status
  categories : List String
  tags : List String
  featuredImageUrl : String
deriving DecidableEq, Repr

namespace Post

/-- The default constructor `Post::Post()`; `now` is `QDateTime::currentDateTime()`. -/
def default (now : QDateTime) : Post :=
  { id := -1, remoteId := -1, featureMediaId := -1, title := "", content := "",
    excerpt := "", publishDate := now, author := "", status := Status.Draft,
    categories := [], tags := [], featuredImageUrl := "" }

/-- The seven-argument constructor of `Post`. -/
def new (id : Int) (title content excerpt : String) (publishDate : QDateTime)
    (author : String) (status : Status) : Post :=
  { id := id, remoteId := -1, featureMediaId := -1, title := title, content := content,
    excerpt := excerpt, publishDate := publishDate, author := author, status := status,
    categories := [], tags := [], featuredImageUrl := "" }

/-- The member `Post::hasRemoteId`. -/
def hasRemoteId (p : Post) : Bool := decide (p.remoteId > 0)

def setId (p : Post) (id : Int) : Post := { p with id := id }

def setRemoteId (p : Post) (remoteId : Int) : Post := { p with remoteId := remoteId }

def setStatus (p : Post) (status : Status) : Post := { p with status := status }

def setFeaturedImageUrl (p : Post) (url : String) : Post := { p with featuredImageUrl := url }

def setCategories (p : Post) (categories : List String) : Post :=
  { p with categories := categories }

def setTags (p : Post) (tags : List String) : Post := { p with tags := tags }

/-- The member `Post::addCategory`: appends unless already contained. -/
def addCategory (p : Post) (category : String) : Post :=
  if category ∈ p.categories then p else { p with categories := p.categories ++ [category] }

/-- The member `Post::addTag`: appends unless already contained. -/
def addTag (p : Post) (tag : String) : Post :=
  if tag ∈ p.tags then p else { p with tags := p.tags ++ [tag] }

end Post

/-- The classes `Category` and `Tag`: an id and a name. -/
structure Term where
  id : Int
  name : String
deriving DecidableEq, Repr

abbrev Category := Term

abbrev Tag := Term

/-! ## The store (`src/src/database/DatabaseManager.cpp`) -/

/-- A row of the table `posts` of `createTables`. -/
structure PostRow where
  id : Int
  remote_id : Int
  title : String
  content : String
  excerpt : String
  publish_date : QDateTime
  author : String
  status : Int
  featured_image_url : String
deriving DecidableEq, Repr

/-- A table `categories` or `tags`: `id INTEGER PRIMARY KEY AUTOINCREMENT,
name TEXT NOT NULL UNIQUE`.  `seq` is the table's entry in `sqlite_sequence`. -/
structure TermTable where
  rows : List Term
  seq : Int
deriving DecidableEq, Repr

/-- The database file: the connection state and the five tables. -/
structure Database where
  isOpen : Bool
  posts : List PostRow
  posts_seq : Int
  categories : TermTable
  tags : TermTable
  post_categories : List (Int × Int)
  post_tags : List (Int × Int)
deriving DecidableEq, Repr

/-- The key SQLite gives to a row inserted into an `AUTOINCREMENT` table: one
more than the largest key the table holds or has ever held (`seq`, which
SQLite keeps non-negative). -/
def nextRowid (ids : List Int) (seq : Int) : Int :=
  max seq (ids.foldl max 0) + 1

namespace TermTable

/-- The query `SELECT id FROM t WHERE name = :name`, with `exec() && next()`. -/
def selectIdByName (isOpen : Bool) (t : TermTable) (name : String) : Option Int :=
  if isOpen then (t.rows.find? (fun r => r.name = name)).map (fun r => r.id) else none

/-- The query `SELECT name FROM t WHERE id = :id`, with `exec() && next()`. -/
def selectNameById (isOpen : Bool) (t : TermTable) (id : Int) : Option String :=
  if isOpen then (t.rows.find? (fun r => r.id = id)).map (fun r => r.name) else none

/-- The statement `INSERT INTO t (name) VALUES (:name)`; the result carries
`lastInsertId()`.  It fails on a closed connection or a `UNIQUE` violation. -/
def insert (isOpen : Bool) (t : TermTable) (name : String) : Option (TermTable × Int) :=
  if isOpen = true ∧ name ∉ t.rows.map (fun r => r.name) then
    let k := nextRowid (t.rows.map (fun r => r.id)) t.seq
    some ({ rows := t.rows ++ [{ id := k, name := name }], seq := k }, k)
  else none

/-- The statement `UPDATE t SET name = :name WHERE id = :id`.  It fails on a
closed connection, or when a row is matched and another row has the name. -/
def updateName (isOpen : Bool) (t : TermTable) (id : Int) (name : String) : Option TermTable :=
  if isOpen = true ∧
      ¬ ((∃ r ∈ t.rows, r.id = id) ∧ (∃ r ∈ t.rows, r.id ≠ id ∧ r.name = name)) then
    some { t with rows := t.rows.map (fun r => if r.id = id then { r with name := name } else r) }
  else none

/-- The body shared by `DatabaseManager::saveCategory` and `DatabaseManager::saveTag`. -/
def save (isOpen : Bool) (t : TermTable) (term : Term) : Bool × TermTable × Term :=
  let existing : Option Int :=
    if term.id = -1 ∧ term.name ≠ "" then selectIdByName isOpen t term.name else none
  match existing with
  | some existingId => (true, t, { term with id := existingId })
  | none =>
    if term.id = -1 then
      match insert isOpen t term.name with
      | none => (false, t, term)
      | some (t1, lastInsertId) => (true, t1, { term with id := lastInsertId })
    else
      match updateName isOpen t term.id term.name with
      | none => (false, t, term)
      | some t1 => (true, t1, term)

end TermTable

/-- The statement `INSERT OR IGNORE INTO rel (post_id, term_id) VALUES (..)` of
`addCategoryToPost` and `addTagToPost`. -/
def addTermToPost (isOpen : Bool) (rel : List (Int × Int)) (postId termId : Int) :
    Bool × List (Int × Int) :=
  if isOpen then
    (true, if (postId, termId) ∈ rel then rel else rel ++ [(postId, termId)])
  else (false, rel)

/-- One iteration of the loop over names in `savePost`: look the name up, create
the term when it is missing, and relate it to the post. -/
def attachTerm (isOpen : Bool) (postId : Int) (s : TermTable × List (Int × Int))
    (name : String) : TermTable × List (Int × Int) :=
  match TermTable.selectIdByName isOpen s.1 name with
  | some termId => (s.1, (addTermToPost isOpen s.2 postId termId).2)
  | none =>
    match TermTable.save isOpen s.1 { id := -1, name := name } with
    | (true, t1, term) => (t1, (addTermToPost isOpen s.2 postId term.id).2)
    | (false, t1, _) => (t1, s.2)

/-- The block of `savePost` that replaces the relations of one kind: delete the
rows of the post, then run the loop. -/
def replaceTerms (isOpen : Bool) (t : TermTable) (rel : List (Int × Int)) (postId : Int)
    (names : List String) : TermTable × List (Int × Int) :=
  let deleted := if isOpen then rel.filter (fun r => r.1 ≠ postId) else rel
  names.foldl (attachTerm isOpen postId) (t, deleted)

/-- The join `SELECT c.id, c.name FROM t c JOIN rel pc ON c.id = pc.term_id
WHERE pc.post_id = :post_id` of `getCategoriesForPost` and `getTagsForPost`. -/
def termsForPost (isOpen : Bool) (t : TermTable) (rel : List (Int × Int)) (postId : Int) :
    List Term :=
  if isOpen then
    (rel.filter (fun r => r.1 = postId)).flatMap (fun r => t.rows.filter (fun c => c.id = r.2))
  else []

namespace DatabaseManager

/-- The member `DatabaseManager::saveCategory`: the return value, the database
afterwards and the category afterwards (it is passed by reference). -/
def saveCategory (db : Database) (category : Category) : Bool × Database × Category :=
  let r := TermTable.save db.isOpen db.categories category
  (r.1, { db with categories := r.2.1 }, r.2.2)

/-- The member `DatabaseManager::saveTag`, the same code on the table `tags`. -/
def saveTag (db : Database) (tag : Tag) : Bool × Database × Tag :=
  let r := TermTable.save db.isOpen db.tags tag
  (r.1, { db with tags := r.2.1 }, r.2.2)

/-- The member `DatabaseManager::addCategoryToPost`. -/
def addCategoryToPost (db : Database) (postId categoryId : Int) : Bool × Database :=
  let r := addTermToPost db.isOpen db.post_categories postId categoryId
  (r.1, { db with post_categories := r.2 })

/-- The member `DatabaseManager::addTagToPost`. -/
def addTagToPost (db : Database) (postId tagId : Int) : Bool × Database :=
  let r := addTermToPost db.isOpen db.post_tags postId tagId
  (r.1, { db with post_tags := r.2 })

/-- The member `DatabaseManager::getCategoriesForPost`; SQL fixes no order for
the rows of the join. -/
def getCategoriesForPost (db : Database) (postId : Int) : List Category :=
  termsForPost db.isOpen db.categories db.post_categories postId

/-- The member `DatabaseManager::getTagsForPost`. -/
def getTagsForPost (db : Database) (postId : Int) : List Tag :=
  termsForPost db.isOpen db.tags db.post_tags postId

/-- The row the bound values of `savePost` describe, under key `id`. -/
def rowOfPost (id : Int) (post : Post) : PostRow :=
  { id := id, remote_id := post.remoteId, title := post.title, content := post.content,
    excerpt := post.excerpt, publish_date := post.publishDate, author := post.author,
    status := post.status.toInt, featured_image_url := post.featuredImageUrl }

/-- The query `SELECT id FROM posts WHERE id = :id`, with `exec() && next()`. -/
def postExists (db : Database) (id : Int) : Bool :=
  db.isOpen && db.posts.any (fun r => decide (r.id = id))

/-- The statement `UPDATE posts SET .. WHERE id = :id` of `savePost`.  It fails on
a closed connection.  SQLite rejects it also when the title bound is a null
`QString` (`title TEXT NOT NULL`); the embedding does not tell the null text
from the empty one, so no theorem derives the success of a write from the
state of the connection. -/
def updatePostRow (db : Database) (post : Post) : Option Database :=
  if db.isOpen then
    some { db with posts := db.posts.map (fun r => if r.id = post.id then rowOfPost r.id post else r) }
  else none

/-- The statement `INSERT INTO posts (title, ..) VALUES (..)` of `savePost`; the
result carries `lastInsertId()`.  It fails on a closed connection; for a null
title see `updatePostRow`. -/
def insertPostRow (db : Database) (post : Post) : Option (Database × Int) :=
  if db.isOpen then
    let k := nextRowid (db.posts.map (fun r => r.id)) db.posts_seq
    some ({ db with posts := db.posts ++ [rowOfPost k post], posts_seq := k }, k)
  else none

/-- The two blocks of `savePost` that follow the write of the row: the category
relations, then the tag relations. -/
def saveRelations (db : Database) (post : Post) : Database :=
  let db1 : Database :=
    if post.categories ≠ [] then
      let r := replaceTerms db.isOpen db.categories db.post_categories post.id post.categories
      { db with categories := r.1, post_categories := r.2 }
    else db
  if post.tags ≠ [] then
    let r := replaceTerms db1.isOpen db1.tags db1.post_tags post.id post.tags
    { db1 with tags := r.1, post_tags := r.2 }
  else db1

/-- The member `DatabaseManager::savePost`: the return value, the database
afterwards and the post afterwards (it is passed by reference).  The second
component of `executed` is `lastInsertId()`, which is read only after an
insert. -/
def savePost (db : Database) (post : Post) : Bool × Database × Post :=
  let executed : Option (Database × Int) :=
    if post.id > 0 then
      if postExists db post.id then (updatePostRow db post).map (fun d => (d, db.posts_seq))
      else insertPostRow db post
    else insertPostRow db post
  match executed with
  | none => (false, db, post)
  | some (db1, lastInsertId) =>
    let post1 := if post.id = -1 then post.setId lastInsertId else post
    (true, saveRelations db1 post1, post1)

/-- The member `DatabaseManager::deletePost`. -/
def deletePost (db : Database) (postId : Int) : Bool × Database :=
  if db.isOpen then (true, { db with posts := db.posts.filter (fun r => r.id ≠ postId) })
  else (false, db)

end DatabaseManager

/-- What Qt computes from a valid `QDateTime` and the list of posts depends on:
`toMSecsSinceEpoch()`, its instant, and `toString(Qt::ISODateWithMs)`, the text
the SQLite driver binds for it as the value of the column `publish_date`. -/
structure Calendar where
  toMSecsSinceEpoch : Int → Int
  toStringISODateWithMs : Int → String

/-- The comparison SQLite makes of two stored texts (collation `BINARY`):
character by character, a text being above its proper prefixes.
`textNotBelow s t` says that `s` is not below `t`. -/
def textNotBelow : List Char → List Char → Bool
  | _, [] => true
  | [], _ :: _ => false
  | a :: s, b :: t =>
    if b.toNat < a.toNat then true
    else if a.toNat < b.toNat then false
    else textNotBelow s t

/-- The order of `ORDER BY publish_date DESC` on two values of the column.  The
column holds the text the driver bound for a valid date and NULL for the
invalid one, and SQLite puts NULL below every text.  `a` may come before `b`
when `a` is not below `b`. -/
def storedDateNotBelow (calendar : Calendar) (a b : QDateTime) : Bool :=
  match a, b with
  | _, none => true
  | none, some _ => false
  | some x, some y =>
    textNotBelow (calendar.toStringISODateWithMs x).data (calendar.toStringISODateWithMs y).data

namespace DatabaseManager

/-- The rows of `SELECT .. FROM posts [WHERE status = 1] ORDER BY publish_date
DESC`, the query of `getAllPosts`.  SQL fixes no order among rows of equal
stored date; the rows are taken in the order a stable sort gives them. -/
def selectPosts (calendar : Calendar) (db : Database) (publishedOnly : Bool) : List PostRow :=
  List.insertionSort
    (fun a b => storedDateNotBelow calendar a.publish_date b.publish_date = true)
    (if publishedOnly then db.posts.filter (fun r => r.status = 1) else db.posts)

/-- The body of the loop of `getAllPosts` for one row of the result.  The query
does not select `remote_id`, so the post keeps the remote id -1 the constructor
gives it. -/
def postOfListedRow (db : Database) (r : PostRow) : Post :=
  let post := (Post.new r.id r.title r.content r.excerpt r.publish_date r.author
    (Post.Status.ofInt r.status)).setFeaturedImageUrl r.featured_image_url
  let post1 := post.setCategories ((getCategoriesForPost db r.id).map (fun c => c.name))
  post1.setTags ((getTagsForPost db r.id).map (fun t => t.name))

/-- The member `DatabaseManager::getAllPosts`.  It issues `SELECT` statements
only, so the database is the same afterwards. -/
def getAllPosts (calendar : Calendar) (db : Database) (publishedOnly : Bool) : List Post :=
  if db.isOpen then (selectPosts calendar db publishedOnly).map (postOfListedRow db) else []

/-- The member `DatabaseManager::getPostById`; `now` is the value of
`QDateTime::currentDateTime()` the default constructor of `Post` reads.  It
issues `SELECT` statements only, so the database is the same afterwards. -/
def getPostById (now : QDateTime) (db : Database) (postId : Int) : Post :=
  let row : Option PostRow :=
    if db.isOpen then db.posts.find? (fun r => decide (r.id = postId)) else none
  match row with
  | none => Post.default now
  | some r =>
    let post := ((Post.new r.id r.title r.content r.excerpt r.publish_date r.author
      (Post.Status.ofInt r.status)).setFeaturedImageUrl r.featured_image_url).setRemoteId
        r.remote_id
    let post1 := (getCategoriesForPost db r.id).foldl (fun p c => p.addCategory c.name) post
    (getTagsForPost db r.id).foldl (fun p t => p.addTag t.name) post1

end DatabaseManager

/-! ## JSON values (`QJsonValue`, `QJsonObject`, `QJsonDocument`) -/

/-- A `QJsonValue`.  `double n` is a number whose value is the integer `n`,
`fraction` a number whose value is not integral, `undefined` what a lookup of
a missing key returns. -/
inductive QJsonValue where
  | null
  | bool (b : Bool)
  | double (n : Int)
  | fraction
  | string (s : String)
  | array (a : List QJsonValue)
  | object (o : List (String × QJsonValue))
  | undefined

abbrev QJsonArray := List QJsonValue

abbrev QJsonObject := List (String × QJsonValue)

namespace QJsonValue

/-- The member `QJsonValue::toInt()`: the value of a number that is integral and
fits an `int`, and 0 otherwise. -/
def toInt : QJsonValue → Int
  | double n => if -2147483648 ≤ n ∧ n ≤ 2147483647 then n else 0
  | _ => 0

/-- The member `QJsonValue::toString()`: the text of a string, else the empty text. -/
def toString : QJsonValue → String
  | string s => s
  | _ => ""

def isObject : QJsonValue → Bool
  | object _ => true
  | _ => false

def isArray : QJsonValue → Bool
  | array _ => true
  | _ => false

/-- The member `QJsonValue::toObject()`: the empty object for a non-object. -/
def toObject : QJsonValue → QJsonObject
  | object o => o
  | _ => []

/-- The member `QJsonValue::toArray()`: the empty array for a non-array. -/
def toArray : QJsonValue → QJsonArray
  | array a => a
  | _ => []

end QJsonValue

namespace QJsonObject

/-- The member `QJsonObject::contains`. -/
def contains (o : QJsonObject) (key : String) : Bool :=
  o.any (fun kv => decide (kv.1 = key))

/-- The read access `o[key]`: `undefined` for a missing key. -/
def value (o : QJsonObject) (key : String) : QJsonValue :=
  match o.find? (fun kv => decide (kv.1 = key)) with
  | some kv => kv.2
  | none => QJsonValue.undefined

/-- The write access `o[key] = v`: replaces the value of an existing key. -/
def insert (o : QJsonObject) (key : String) (v : QJsonValue) : QJsonObject :=
  if o.contains key then o.map (fun kv => if kv.1 = key then (key, v) else kv)
  else o ++ [(key, v)]

end QJsonObject

/-- The outcome of `QJsonDocument::fromJson(data, &parseError)`: a parse error
with its `errorString()`, or a document, which is an array or an object. -/
inductive QJsonDocument where
  | parseError (errorString : String)
  | array (a : QJsonArray)
  | object (o : QJsonObject)

/-! ## The transport adapter (`src/src/api/WordPressAPI.cpp`) -/

namespace QString

/-- The member `QString::endsWith`. -/
def endsWith (s t : String) : Bool := decide (t.data <:+ s.data)

/-- The member `QString::contains` for a text argument. -/
def contains (s t : String) : Bool := decide (t.data <:+: s.data)

/-- The static `QString::number(int)`. -/
def number (n : Int) : String := toString n

end QString

/-- The sixty-four digits of Base64. -/
def base64Digits : List Char :=
  "ABCDEFGHIJKLMNOPQRSTUVWXYZabcdefghijklmnopqrstuvwxyz0123456789+/".data

def base64Digit (n : Nat) : Char := base64Digits.getD n 'A'

/-- The member `QByteArray::toBase64()` on a list of bytes: standard alphabet,
padded with `=`. -/
def toBase64 : List Nat → List Char
  | [] => []
  | [a] => [base64Digit (a / 4), base64Digit (a % 4 * 16), '=', '=']
  | [a, b] =>
    [base64Digit (a / 4), base64Digit (a % 4 * 16 + b / 16), base64Digit (b % 16 * 4), '=']
  | a :: b :: c :: rest =>
    [base64Digit (a / 4), base64Digit (a % 4 * 16 + b / 16),
      base64Digit (b % 16 * 4 + c / 64), base64Digit (c % 64)] ++ toBase64 rest

/-- The member `QString::toUtf8()`, as a list of byte values. -/
def toUtf8 (s : String) : List Nat :=
  (s.data.flatMap String.utf8EncodeChar).map (fun b => b.toNat)

/-- The HTTP verb of a request, after the `QNetworkAccessManager` member used. -/
inductive HttpMethod where
  | GET
  | POST
  | PUT
  | DELETE
deriving DecidableEq, Repr

/-- The private slot of `WordPressAPI` connected to `QNetworkReply::finished`. -/
inductive FinishedSlot where
  | onPostsReceived
  | onPostCreated
  | onPostUpdated
  | onPostDeleted
  | onCategoriesReceived
  | onTagsReceived
deriving DecidableEq, Repr

/-- A request handed to the `QNetworkAccessManager`. -/
structure QNetworkRequest where
  method : HttpMethod
  url : String
  authorization : Option String
  body : Option QJsonObject
  finished : FinishedSlot

/-- What a request-issuing member of `WordPressAPI` does: it emits `error` and
returns, or it hands a request to the network manager. -/
inductive Issued where
  | error (errorMessage : String)
  | sent (request : QNetworkRequest)

/-- The signals of `WordPressAPI` that carry a result. -/
inductive Signal where
  | postsReceived (posts : List Post)
  | postCreated (post : Post)
  | postUpdated (post : Post)
  | postDeleted (postId : Int)
  | categoriesReceived (categories : List Category)
  | tagsReceived (tags : List Tag)
  | mediaUploaded (url : String) (mediaId : Int)
  | error (errorMessage : String)
deriving DecidableEq, Repr

/-- What a finished `QNetworkReply` gives its handler: the HTTP status code
attribute and `QJsonDocument::fromJson(reply->readAll(), &parseError)`. -/
structure QNetworkReply where
  statusCode : Int
  document : QJsonDocument

/-- The two library functions of `QDateTime` the handlers call. -/
structure Clock where
  currentDateTime : QDateTime
  fromStringISODate : String → QDateTime

/-- The members `m_apiUrl`, `m_username`, `m_password` of `WordPressAPI`. -/
structure WordPressAPI where
  m_apiUrl : String
  m_username : String
  m_password : String
deriving DecidableEq, Repr

namespace WordPressAPI

/-- The member `WordPressAPI::setApiUrl`. -/
def setApiUrl (api : WordPressAPI) (url : String) : WordPressAPI :=
  let u0 := url
  let u1 := if ¬ QString.endsWith u0 "/" then u0 ++ "/" else u0
  let u2 :=
    if ¬ QString.contains u1 "wp-json" then
      (if QString.endsWith u1 "/" then u1 ++ "wp-json/" else u1 ++ "/wp-json/")
    else u1
  let u3 :=
    if ¬ QString.contains u2 "wp/v2" then
      (if QString.endsWith u2 "/" then u2 ++ "wp/v2/" else u2 ++ "/wp/v2/")
    else u2
  { api with m_apiUrl := u3 }

/-- The member `WordPressAPI::setCredentials`. -/
def setCredentials (api : WordPressAPI) (username password : String) : WordPressAPI :=
  { api with m_username := username, m_password := password }

/-- The member `WordPressAPI::createAuthHeader`; the empty text is the empty
`QByteArray`. -/
def createAuthHeader (api : WordPressAPI) : String :=
  if api.m_username = "" ∨ api.m_password = "" then ""
  else
    let concatenated := api.m_username ++ ":" ++ api.m_password
    "Basic " ++ String.mk (toBase64 (toUtf8 concatenated))

/-- The loop of `createPost` and `updatePost` that turns names into the array of
the ids found by `SELECT id FROM t WHERE name = :name`. -/
def termIdsArray (isOpen : Bool) (t : TermTable) (names : List String) : QJsonArray :=
  names.filterMap (fun name =>
    (TermTable.selectIdByName isOpen t name).map (fun id => QJsonValue.double id))

/-- The part of the body `createPost` and `updatePost` build alike: title,
content, excerpt, status, categories, tags. -/
def postObject (db : Database) (post : Post) : QJsonObject :=
  let o0 : QJsonObject := []
  let o1 := o0.insert "title" (QJsonValue.object [("raw", QJsonValue.string post.title)])
  let o2 := o1.insert "content" (QJsonValue.object [("raw", QJsonValue.string post.content)])
  let o3 := o2.insert "excerpt" (QJsonValue.object [("raw", QJsonValue.string post.excerpt)])
  let o4 := o3.insert "status"
    (QJsonValue.string (if post.status = Post.Status.Published then "publish" else "draft"))
  let o5 :=
    if post.categories ≠ [] then
      let categoriesArray := termIdsArray db.isOpen db.categories post.categories
      if ¬ categoriesArray.isEmpty then o4.insert "categories" (QJsonValue.array categoriesArray)
      else o4
    else o4
  if post.tags ≠ [] then
    let tagsArray := termIdsArray db.isOpen db.tags post.tags
    if ¬ tagsArray.isEmpty then o5.insert "tags" (QJsonValue.array tagsArray) else o5
  else o5

/-- The member `WordPressAPI::createPost`. -/
def createPost (api : WordPressAPI) (db : Database) (post : Post) : Issued :=
  if api.m_apiUrl = "" then Issued.error "API URL 没有设置"
  else
    let url := api.m_apiUrl ++ "posts"
    let authHeader := api.createAuthHeader
    if authHeader = "" then Issued.error "认证信息未设置，无法发布文章"
    else
      let o := postObject db post
      let o1 :=
        if post.featureMediaId > 0 then
          o.insert "featured_media" (QJsonValue.double post.featureMediaId)
        else o
      Issued.sent { method := HttpMethod.POST, url := url, authorization := some authHeader,
                    body := some o1, finished := FinishedSlot.onPostCreated }

/-- The member `WordPressAPI::updatePost`. -/
def updatePost (api : WordPressAPI) (db : Database) (post : Post) : Issued :=
  if api.m_apiUrl = "" ∨ ¬ post.hasRemoteId then
    Issued.error "API URL 没有设置或无效的远程文章ID"
  else
    let url := api.m_apiUrl ++ "posts/" ++ QString.number post.remoteId
    let authHeader := api.createAuthHeader
    if authHeader = "" then Issued.error "认证信息未设置，无法更新文章"
    else
      Issued.sent { method := HttpMethod.PUT, url := url, authorization := some authHeader,
                    body := some (postObject db post),
                    finished := FinishedSlot.onPostUpdated }

/-- The header `Authorization` of the members that set it only when
`createAuthHeader` is not empty. -/
def optionalAuthorization (api : WordPressAPI) : Option String :=
  if api.createAuthHeader ≠ "" then some api.createAuthHeader else none

/-- The member `WordPressAPI::fetchPosts`.  The query items set on the `QUrl`
are written at the end of the text of the url. -/
def fetchPosts (api : WordPressAPI) : Issued :=
  if api.m_apiUrl = "" then Issued.error "API URL 没有设置"
  else
    let e0 := api.m_apiUrl
    let e1 := if ¬ QString.endsWith e0 "/" then e0 ++ "/" else e0
    let apiEndpoint := if ¬ QString.contains e1 "posts" then e1 ++ "posts" else e1
    Issued.sent { method := HttpMethod.GET, url := apiEndpoint ++ "?per_page=100&page=1",
                  authorization := api.optionalAuthorization, body := none,
                  finished := FinishedSlot.onPostsReceived }

/-- The member `WordPressAPI::deletePost`. -/
def deletePost (api : WordPressAPI) (postId : Int) : Issued :=
  if api.m_apiUrl = "" ∨ postId = -1 then Issued.error "API URL 没有设置或无效的文章ID"
  else
    Issued.sent { method := HttpMethod.DELETE,
                  url := api.m_apiUrl ++ "posts/" ++ QString.number postId ++ "?force=true",
                  authorization := api.optionalAuthorization, body := none,
                  finished := FinishedSlot.onPostDeleted }

/-- The member `WordPressAPI::fetchCategories`. -/
def fetchCategories (api : WordPressAPI) : Issued :=
  if api.m_apiUrl = "" then Issued.error "API URL 没有设置"
  else
    Issued.sent { method := HttpMethod.GET, url := api.m_apiUrl ++ "categories" ++ "?per_page=100",
                  authorization := api.optionalAuthorization, body := none,
                  finished := FinishedSlot.onCategoriesReceived }

/-- The member `WordPressAPI::fetchTags`. -/
def fetchTags (api : WordPressAPI) : Issued :=
  if api.m_apiUrl = "" then Issued.error "API URL 没有设置"
  else
    Issued.sent { method := HttpMethod.GET, url := api.m_apiUrl ++ "tags" ++ "?per_page=100",
                  authorization := api.optionalAuthorization, body := none,
                  finished := FinishedSlot.onTagsReceived }

end WordPressAPI

namespace WordPressAPI

/-- The loop of the response handlers over a `categories` / `tags` array: every
id found by `SELECT name FROM t WHERE id = :id` adds its name to the list the
way `Post::addCategory` / `Post::addTag` do. -/
def namesOfIds (isOpen : Bool) (t : TermTable) (ids : QJsonArray) : List String :=
  ids.foldl (fun names v =>
    match TermTable.selectNameById isOpen t v.toInt with
    | some name => if name ∈ names then names else names ++ [name]
    | none => names) []

/-- The text of an HTTP failure: the fixed text `failed`, the status code and,
when the body is an object with a `message`, that message. -/
def httpErrorMessage (failed : String) (reply : QNetworkReply) : String :=
  let errorMsg := failed ++ QString.number reply.statusCode
  match reply.document with
  | QJsonDocument.object obj =>
    if obj.contains "message" then
      errorMsg ++ "\n错误信息: " ++ (obj.value "message").toString
    else errorMsg
  | _ => errorMsg

/-- The lines of `onPostCreated` and `onPostUpdated` that build the `Post` from
the response object (they are the same in both). -/
def postOfResponse (clock : Clock) (db : Database) (jsonObj : QJsonObject) : Post :=
  let remoteId := (jsonObj.value "id").toInt
  let title :=
    if jsonObj.contains "title" && (jsonObj.value "title").isObject then
      ((jsonObj.value "title").toObject.value "rendered").toString
    else "未知标题"
  let content :=
    if jsonObj.contains "content" && (jsonObj.value "content").isObject then
      ((jsonObj.value "content").toObject.value "rendered").toString
    else ""
  let excerpt :=
    if jsonObj.contains "excerpt" && (jsonObj.value "excerpt").isObject then
      ((jsonObj.value "excerpt").toObject.value "rendered").toString
    else ""
  let publishDate :=
    if jsonObj.contains "date" then clock.fromStringISODate (jsonObj.value "date").toString
    else clock.currentDateTime
  let author := (jsonObj.value "author").toString
  let status :=
    if (jsonObj.value "status").toString = "publish" then Post.Status.Published
    else Post.Status.Draft
  let post := (Post.new (-1) title content excerpt publishDate author status).setRemoteId remoteId
  let post1 :=
    if jsonObj.contains "categories" && (jsonObj.value "categories").isArray then
      { post with categories :=
          namesOfIds db.isOpen db.categories (jsonObj.value "categories").toArray }
    else post
  if jsonObj.contains "tags" && (jsonObj.value "tags").isArray then
    { post1 with tags := namesOfIds db.isOpen db.tags (jsonObj.value "tags").toArray }
  else post1

/-- The body shared by the slots `onPostCreated` and `onPostUpdated`: `failed` is
the text of the HTTP failure and `success` the signal emitted for the post.
`reply` is `none` when `sender()` is not a `QNetworkReply`. -/
def onPostReply (failed : String) (success : Post → Signal) (clock : Clock) (db : Database)
    (reply : Option QNetworkReply) : Signal :=
  match reply with
  | none => Signal.error "无效的网络回复对象"
  | some r =>
    if r.statusCode < 200 ∨ r.statusCode ≥ 300 then
      Signal.error (httpErrorMessage failed r)
    else
      match r.document with
      | QJsonDocument.parseError errorString => Signal.error ("JSON解析错误: " ++ errorString)
      | QJsonDocument.array _ => Signal.error "无效的响应格式，预期是文章对象"
      | QJsonDocument.object jsonObj => success (postOfResponse clock db jsonObj)

/-- The private slot `WordPressAPI::onPostCreated`. -/
def onPostCreated (clock : Clock) (db : Database) (reply : Option QNetworkReply) : Signal :=
  onPostReply "创建文章失败，HTTP错误: " Signal.postCreated clock db reply

/-- The private slot `WordPressAPI::onPostUpdated`. -/
def onPostUpdated (clock : Clock) (db : Database) (reply : Option QNetworkReply) : Signal :=
  onPostReply "更新文章失败，HTTP错误: " Signal.postUpdated clock db reply

/-- One iteration of the loops of `parsePosts` over a `categories` / `tags`
array: the name found for the id, or the placeholder `label` followed by the
id, handed to `saveCategory` / `saveTag` together with the id. -/
def nameOfRemoteId (label : String) (isOpen : Bool) (s : TermTable × List String)
    (v : QJsonValue) : TermTable × List String :=
  let termId := v.toInt
  let r : TermTable × String :=
    match TermTable.selectNameById isOpen s.1 termId with
    | some name => (s.1, name)
    | none =>
      let name := label ++ QString.number termId
      ((TermTable.save isOpen s.1 { id := termId, name := name }).2.1, name)
  (r.1, if r.2 ∈ s.2 then s.2 else s.2 ++ [r.2])

/-- The body of the loop of `parsePosts` for one array element. -/
def parsePost (clock : Clock) (s : List Post × Database) (value : QJsonValue) :
    List Post × Database :=
  if ¬ value.isObject then s
  else
    let jsonObj := value.toObject
    let db := s.2
    let id := (jsonObj.value "id").toInt
    let title := ((jsonObj.value "title").toObject.value "rendered").toString
    let content := ((jsonObj.value "content").toObject.value "rendered").toString
    let excerpt := ((jsonObj.value "excerpt").toObject.value "rendered").toString
    let publishDate := clock.fromStringISODate (jsonObj.value "date").toString
    let author := (jsonObj.value "author").toString
    let status :=
      if (jsonObj.value "status").toString = "publish" then Post.Status.Published
      else Post.Status.Draft
    let post := Post.new id title content excerpt publishDate author status
    let c : TermTable × List String :=
      if jsonObj.contains "categories" && (jsonObj.value "categories").isArray then
        (jsonObj.value "categories").toArray.foldl (nameOfRemoteId "分类" db.isOpen)
          (db.categories, post.categories)
      else (db.categories, post.categories)
    let t : TermTable × List String :=
      if jsonObj.contains "tags" && (jsonObj.value "tags").isArray then
        (jsonObj.value "tags").toArray.foldl (nameOfRemoteId "标签" db.isOpen)
          (db.tags, post.tags)
      else (db.tags, post.tags)
    (s.1 ++ [{ post with categories := c.2, tags := t.2 }],
      { db with categories := c.1, tags := t.1 })

/-- The member `WordPressAPI::parsePosts`: the list returned and the database
after the calls of `saveCategory` and `saveTag` it makes. -/
def parsePosts (clock : Clock) (db : Database) (jsonArray : QJsonArray) : List Post × Database :=
  jsonArray.foldl (parsePost clock) ([], db)

/-- The private slot `WordPressAPI::onPostsReceived`: the signal and the
database afterwards. -/
def onPostsReceived (clock : Clock) (db : Database) (reply : Option QNetworkReply) :
    Option Signal × Database :=
  match reply with
  | none => (none, db)
  | some r =>
    match r.document with
    | QJsonDocument.parseError errorString =>
      (some (Signal.error ("JSON解析错误: " ++ errorString)), db)
    | QJsonDocument.array jsonArray =>
      let p := parsePosts clock db jsonArray
      (some (Signal.postsReceived p.1), p.2)
    | QJsonDocument.object errorObj =>
      if errorObj.contains "code" || errorObj.contains "message" then
        (some (Signal.error ("API错误: " ++ (errorObj.value "message").toString)), db)
      else (some (Signal.error "响应格式无效，预期是文章数组"), db)

end WordPressAPI

/-! ## The orchestrator (`src/BlogClient.cpp`) -/

/-- The three values of `QSettings` the slots read: `api/url`, `api/username`,
`api/password`. -/
structure QSettings where
  apiUrl : String
  username : String
  password : String
deriving DecidableEq, Repr

/-- The state the slots of `BlogClient` work on: the two singletons
`DatabaseManager::instance()` and `WordPressAPI::instance()`, and the members
`m_currentPost` and `m_isEditing`. -/
structure BlogClient where
  db : Database
  api : WordPressAPI
  m_currentPost : Option Post
  m_isEditing : Bool
deriving DecidableEq, Repr

/-- What `on_actionSync_triggered` does besides setting up the API: it shows a
warning and returns, or calls `updatePost`, or calls `createPost`; `post` is the
argument of the call and `issued` what the call does. -/
inductive SyncAction where
  | warning (text : String)
  | updatePost (post : Post) (issued : Issued)
  | createPost (post : Post) (issued : Issued)

namespace BlogClient

/-- The slot `BlogClient::on_actionSync_triggered`. -/
def on_actionSync_triggered (settings : QSettings) (c : BlogClient) : BlogClient × SyncAction :=
  match c.m_currentPost with
  | none => (c, SyncAction.warning "请先选择一篇文章进行同步。")
  | some m_currentPost =>
    if settings.apiUrl = "" ∨ settings.username = "" ∨ settings.password = "" then
      (c, SyncAction.warning "请先在设置中配置WordPress API信息。")
    else
      let api := (c.api.setApiUrl settings.apiUrl).setCredentials settings.username
        settings.password
      if m_currentPost.hasRemoteId && m_currentPost.status = Post.Status.Published then
        ({ c with api := api },
          SyncAction.updatePost m_currentPost (api.updatePost c.db m_currentPost))
      else
        let postCopy := m_currentPost.setStatus Post.Status.Published
        ({ c with api := api }, SyncAction.createPost postCopy (api.createPost c.db postCopy))

/-- The slot `BlogClient::onPostsReceived`: every post is saved through a copy. -/
def onPostsReceived (c : BlogClient) (posts : List Post) : BlogClient :=
  { c with db := posts.foldl (fun db post => (DatabaseManager.savePost db post).2.1) c.db }

/-- The slot `BlogClient::onPostCreated`. -/
def onPostCreated (c : BlogClient) (post : Post) : BlogClient :=
  let localPost :=
    match c.m_currentPost with
    | some m_currentPost => post.setId m_currentPost.id
    | none => post
  let saved := DatabaseManager.savePost c.db localPost
  { c with db := saved.2.1,
           m_currentPost := c.m_currentPost.map (fun p => p.setRemoteId post.remoteId) }

/-- The slot `BlogClient::onPostUpdated`; `localPost` is passed to `savePost` by
reference, so the current post receives the post as `savePost` left it. -/
def onPostUpdated (c : BlogClient) (post : Post) : BlogClient :=
  let localPost :=
    match c.m_currentPost with
    | some m_currentPost => post.setId m_currentPost.id
    | none => post
  let saved := DatabaseManager.savePost c.db localPost
  { c with db := saved.2.1,
           m_currentPost := c.m_currentPost.map (fun _ => saved.2.2) }

/-- The slot `BlogClient::onPostDeleted`, which ends in `clearEditor`. -/
def onPostDeleted (c : BlogClient) (postId : Int) : BlogClient :=
  { c with db := (DatabaseManager.deletePost c.db postId).2, m_currentPost := none,
           m_isEditing := false }

/-- The slot `BlogClient::onCategoriesReceived`. -/
def onCategoriesReceived (c : BlogClient) (categories : List Category) : BlogClient :=
  { c with db := categories.foldl (fun db category =>
      (DatabaseManager.saveCategory db category).2.1) c.db }

/-- The slot `BlogClient::onTagsReceived`. -/
def onTagsReceived (c : BlogClient) (tags : List Tag) : BlogClient :=
  { c with db := tags.foldl (fun db tag => (DatabaseManager.saveTag db tag).2.1) c.db }

/-- The slot `BlogClient::onMediaUploaded`. -/
def onMediaUploaded (c : BlogClient) (url : String) (mediaId : Int) : BlogClient :=
  if url = "" then c
  else
    match c.m_currentPost with
    | some m_currentPost =>
      let post := { m_currentPost.setFeaturedImageUrl url with featureMediaId := mediaId }
      let saved := DatabaseManager.savePost c.db post
      { c with db := saved.2.1, m_currentPost := some saved.2.2 }
    | none => c

/-- The slot `BlogClient::onApiError`: it shows a message box and nothing else. -/
def onApiError (c : BlogClient) (_errorMessage : String) : BlogClient := c

/-- The `connect` calls of the constructor of `BlogClient`: the slot each signal
of `WordPressAPI` is delivered to. -/
def deliver (c : BlogClient) : Signal → BlogClient
  | Signal.postsReceived posts => c.onPostsReceived posts
  | Signal.postCreated post => c.onPostCreated post
  | Signal.postUpdated post => c.onPostUpdated post
  | Signal.postDeleted postId => c.onPostDeleted postId
  | Signal.categoriesReceived categories => c.onCategoriesReceived categories
  | Signal.tagsReceived tags => c.onTagsReceived tags
  | Signal.mediaUploaded url mediaId => c.onMediaUploaded url mediaId
  | Signal.error errorMessage => c.onApiError errorMessage

end BlogClient

/-! ## The constraints of the schema -/

/-- The constraints `PRIMARY KEY` on `id` and `UNIQUE` on `name` of a term table. -/
def TermTable.WF (t : TermTable) : Prop :=
  (t.rows.map (fun r => r.id)).Nodup ∧ (t.rows.map (fun r => r.name)).Nodup

/-- The constraints of `createTables` on the keys of the five tables: `PRIMARY
KEY` on the id of a post, on the id of a term and on the pair of a relation
row, `UNIQUE` on the name of a term. -/
def Database.WF (db : Database) : Prop :=
  (db.posts.map (fun r => r.id)).Nodup ∧ db.categories.WF ∧ db.tags.WF ∧
    db.post_categories.Nodup ∧ db.post_tags.Nodup

/-- The state of a term table and its relation table once the loop of `savePost`
has attached the names `done` to the post `pid`: the constraints hold, every
name attached has a row, and the post is related to exactly the terms whose
name was attached. -/
def RelInv (pid : Int) (done : List String) (s : TermTable × List (Int × Int)) : Prop :=
  s.1.WF ∧ s.2.Nodup ∧ (∀ n ∈ done, n ∈ s.1.rows.map (fun r => r.name)) ∧
    (∀ cid, (pid, cid) ∈ s.2 ↔ ∃ c ∈ s.1.rows, c.id = cid ∧ c.name ∈ done)

/-! ## Lemmas on texts and on the request-issuing members -/

theorem String.append_ne_empty_of_left {s : String} (t : String) (h : s ≠ "") : s ++ t ≠ "" := by
  intro h1
  apply h
  have h2 : (s ++ t).data = [] := by rw [h1]
  rw [String.data_append] at h2
  exact String.ext (List.append_eq_nil.mp h2).1

theorem WordPressAPI.setApiUrl_ne_empty (api : WordPressAPI) (url : String) (h : url ≠ "") :
    (api.setApiUrl url).m_apiUrl ≠ "" := by
  unfold WordPressAPI.setApiUrl
  simp only []
  split_ifs <;> first | exact h | ((repeat apply String.append_ne_empty_of_left); exact h)

theorem WordPressAPI.createAuthHeader_ne_empty (api : WordPressAPI)
    (hu : api.m_username ≠ "") (hp : api.m_password ≠ "") : api.createAuthHeader ≠ "" := by
  unfold WordPressAPI.createAuthHeader
  rw [if_neg (by simp [hu, hp])]
  exact String.append_ne_empty_of_left _ (by decide)

/-- With a base URL and both credentials set, `updatePost` of a post that has a
remote id sends a PUT to the base URL followed by `posts/` and the id. -/
theorem WordPressAPI.updatePost_sent (api : WordPressAPI) (db : Database) (post : Post)
    (hurl : api.m_apiUrl ≠ "") (hu : api.m_username ≠ "") (hp : api.m_password ≠ "")
    (hr : post.hasRemoteId = true) :
    api.updatePost db post =
      Issued.sent { method := HttpMethod.PUT,
                    url := api.m_apiUrl ++ "posts/" ++ QString.number post.remoteId,
                    authorization := some api.createAuthHeader,
                    body := some (WordPressAPI.postObject db post),
                    finished := FinishedSlot.onPostUpdated } := by
  unfold WordPressAPI.updatePost
  rw [if_neg (by simp [hurl, hr])]
  simp only []
  rw [if_neg (WordPressAPI.createAuthHeader_ne_empty api hu hp)]

/-- With a base URL and both credentials set, `createPost` sends a POST to the
base URL followed by `posts`. -/
theorem WordPressAPI.createPost_sent (api : WordPressAPI) (db : Database) (post : Post)
    (hurl : api.m_apiUrl ≠ "") (hu : api.m_username ≠ "") (hp : api.m_password ≠ "") :
    ∃ req, api.createPost db post = Issued.sent req ∧ req.method = HttpMethod.POST ∧
      req.url = api.m_apiUrl ++ "posts" ∧ req.finished = FinishedSlot.onPostCreated := by
  unfold WordPressAPI.createPost
  rw [if_neg hurl]
  simp only []
  rw [if_neg (WordPressAPI.createAuthHeader_ne_empty api hu hp)]
  exact ⟨_, rfl, rfl, rfl, rfl⟩

/-- The sync slot on a current post, with all three settings present. -/
theorem BlogClient.on_actionSync_triggered_eq (settings : QSettings) (c : BlogClient) (p : Post)
    (hcur : c.m_currentPost = some p)
    (hu : settings.apiUrl ≠ "") (hn : settings.username ≠ "") (hp : settings.password ≠ "") :
    (c.on_actionSync_triggered settings).2 =
      (let api := (c.api.setApiUrl settings.apiUrl).setCredentials settings.username
          settings.password
       if p.hasRemoteId = true ∧ p.status = Post.Status.Published then
         SyncAction.updatePost p (api.updatePost c.db p)
       else
         SyncAction.createPost (p.setStatus Post.Status.Published)
           (api.createPost c.db (p.setStatus Post.Status.Published))) := by
  unfold BlogClient.on_actionSync_triggered
  rw [hcur]
  simp only []
  rw [if_neg (by simp [hu, hn, hp])]
  by_cases h : p.hasRemoteId = true ∧ p.status = Post.Status.Published
  · rw [if_pos h, if_pos (by simp [h.1, h.2])]
  · rw [if_neg h, if_neg (by simpa using h)]

/-! ## C1: the decision between update and create -/

/-- C1. With the API settings present, the sync slot calls `updatePost` on the
current post, and that call sends a PUT to the base URL followed by `posts/` and
the decimal remote id, exactly when the post has a remote id and is Published;
in every other case it calls `createPost` (which sends a POST to the base URL
followed by `posts`) and does not call `updatePost`. -/
theorem C1_sync_updates_iff_remote_and_published (settings : QSettings) (c : BlogClient)
    (p : Post) (hcur : c.m_currentPost = some p)
    (hu : settings.apiUrl ≠ "") (hn : settings.username ≠ "") (hp : settings.password ≠ "") :
    ((∃ req, (c.on_actionSync_triggered settings).2 = SyncAction.updatePost p (Issued.sent req) ∧
          req.method = HttpMethod.PUT ∧
          req.url = (c.api.setApiUrl settings.apiUrl).m_apiUrl ++ "posts/" ++
            QString.number p.remoteId)
        ↔ (p.hasRemoteId = true ∧ p.status = Post.Status.Published)) ∧
    (¬ (p.hasRemoteId = true ∧ p.status = Post.Status.Published) →
      (∃ req, (c.on_actionSync_triggered settings).2 =
            SyncAction.createPost (p.setStatus Post.Status.Published) (Issued.sent req) ∧
          req.method = HttpMethod.POST ∧
          req.url = (c.api.setApiUrl settings.apiUrl).m_apiUrl ++ "posts") ∧
      ∀ q issued, (c.on_actionSync_triggered settings).2 ≠ SyncAction.updatePost q issued) := by
  have hbase := WordPressAPI.setApiUrl_ne_empty c.api settings.apiUrl hu
  rw [BlogClient.on_actionSync_triggered_eq settings c p hcur hu hn hp]
  simp only []
  refine ⟨⟨?_, ?_⟩, ?_⟩
  · rintro ⟨req, h, -, -⟩
    by_contra hne
    rw [if_neg hne] at h
    exact SyncAction.noConfusion h
  · intro h
    rw [if_pos h]
    refine ⟨_, congrArg _ (WordPressAPI.updatePost_sent _ c.db p hbase hn hp h.1), rfl, rfl⟩
  · intro hne
    rw [if_neg hne]
    obtain ⟨req, h1, h2, h3, -⟩ := WordPressAPI.createPost_sent
      ((c.api.setApiUrl settings.apiUrl).setCredentials settings.username settings.password)
      c.db (p.setStatus Post.Status.Published) hbase hn hp
    refine ⟨⟨req, congrArg _ h1, h2, h3⟩, ?_⟩
    intro q issued h
    exact SyncAction.noConfusion h

/-- C1 at a Published post with remote id 42: the request is a PUT to `.../posts/42`. -/
theorem C1_sync_updates_iff_remote_and_published_witness :
    ((∃ req, ((BlogClient.mk ⟨true, [], 0, ⟨[], 0⟩, ⟨[], 0⟩, [], []⟩ ⟨"", "", ""⟩
          (some { Post.default none with remoteId := 42, status := Post.Status.Published })
          true).on_actionSync_triggered ⟨"https://blog.example/", "u", "p"⟩).2 =
          SyncAction.updatePost
            { Post.default none with remoteId := 42, status := Post.Status.Published }
            (Issued.sent req) ∧
          req.method = HttpMethod.PUT ∧
          req.url = ((WordPressAPI.mk "" "" "").setApiUrl "https://blog.example/").m_apiUrl ++
            "posts/" ++ QString.number 42)
        ↔ ((Post.hasRemoteId
              { Post.default none with remoteId := 42, status := Post.Status.Published } = true) ∧
            Post.Status.Published = Post.Status.Published)) :=
  (C1_sync_updates_iff_remote_and_published ⟨"https://blog.example/", "u", "p"⟩
    (BlogClient.mk ⟨true, [], 0, ⟨[], 0⟩, ⟨[], 0⟩, [], []⟩ ⟨"", "", ""⟩
      (some { Post.default none with remoteId := 42, status := Post.Status.Published }) true)
    { Post.default none with remoteId := 42, status := Post.Status.Published }
    rfl (by decide) (by decide) (by decide)).1

/-! ## C7: what the response paths put into the two ids -/

/-- The post built by `onPostCreated` / `onPostUpdated` from a response object has
its local id unset and the `id` of the object as its remote id. -/
theorem WordPressAPI.postOfResponse_ids (clock : Clock) (db : Database) (jsonObj : QJsonObject) :
    (WordPressAPI.postOfResponse clock db jsonObj).id = -1 ∧
    (WordPressAPI.postOfResponse clock db jsonObj).remoteId = (jsonObj.value "id").toInt := by
  unfold WordPressAPI.postOfResponse
  simp only [Post.new, Post.setRemoteId]
  split_ifs <;> exact ⟨rfl, rfl⟩

/-- C7, at the failing input. `parsePosts` on the one-element array
`[{"id": 42}]` returns a post whose local id is 42, read from the wire, and
whose remote id is -1, although the `id` of the object is 42. -/
theorem C7_parsePosts_takes_local_id_from_wire :
    ((WordPressAPI.parsePosts ⟨some 0, fun _ => none⟩
        ⟨true, [], 0, ⟨[], 0⟩, ⟨[], 0⟩, [], []⟩
        [QJsonValue.object [("id", QJsonValue.double 42)]]).1.map
      (fun p => (p.id, p.remoteId))) = [(42, -1)] := by
  decide

/-! ## C9, C10: failed responses -/

/-- C9. For a status code outside [200,300), whatever the body, the handlers
`onPostCreated` and `onPostUpdated` emit the signal `error` (so neither
`postCreated` nor `postUpdated`), and delivering that signal to `BlogClient`
leaves its state, the store and the current post included, as it was. -/
theorem C9_http_failure_emits_error_and_changes_nothing (clock : Clock) (c : BlogClient)
    (reply : QNetworkReply) (hs : reply.statusCode < 200 ∨ reply.statusCode ≥ 300) :
    (∃ msg, WordPressAPI.onPostCreated clock c.db (some reply) = Signal.error msg) ∧
    (∃ msg, WordPressAPI.onPostUpdated clock c.db (some reply) = Signal.error msg) ∧
    c.deliver (WordPressAPI.onPostCreated clock c.db (some reply)) = c ∧
    c.deliver (WordPressAPI.onPostUpdated clock c.db (some reply)) = c := by
  have h1 : WordPressAPI.onPostCreated clock c.db (some reply) =
      Signal.error (WordPressAPI.httpErrorMessage "创建文章失败，HTTP错误: " reply) := by
    unfold WordPressAPI.onPostCreated WordPressAPI.onPostReply
    simp only []
    rw [if_pos hs]
  have h2 : WordPressAPI.onPostUpdated clock c.db (some reply) =
      Signal.error (WordPressAPI.httpErrorMessage "更新文章失败，HTTP错误: " reply) := by
    unfold WordPressAPI.onPostUpdated WordPressAPI.onPostReply
    simp only []
    rw [if_pos hs]
  rw [h1, h2]
  exact ⟨⟨_, rfl⟩, ⟨_, rfl⟩, rfl, rfl⟩

/-- C9 at status 500 with a body that does not parse, on a store holding one
synced post that is also the current post. -/
theorem C9_http_failure_emits_error_and_changes_nothing_witness :
    (∃ msg, WordPressAPI.onPostCreated ⟨some 0, fun _ => none⟩
        (BlogClient.mk
          ⟨true, [⟨1, 42, "Hello", "", "", none, "", 1, ""⟩], 1, ⟨[], 0⟩, ⟨[], 0⟩, [], []⟩
          ⟨"", "", ""⟩ (some { Post.default none with id := 1, remoteId := 42 }) true).db
        (some ⟨500, QJsonDocument.parseError "illegal value"⟩) = Signal.error msg) :=
  (C9_http_failure_emits_error_and_changes_nothing ⟨some 0, fun _ => none⟩
    (BlogClient.mk
      ⟨true, [⟨1, 42, "Hello", "", "", none, "", 1, ""⟩], 1, ⟨[], 0⟩, ⟨[], 0⟩, [], []⟩
      ⟨"", "", ""⟩ (some { Post.default none with id := 1, remoteId := 42 }) true)
    ⟨500, QJsonDocument.parseError "illegal value"⟩ (Or.inr (by decide))).1

/-- C10. For a status code in [200,300) and a body that is not valid JSON, or is
JSON but not an object, the handlers `onPostCreated` and `onPostUpdated` emit
the signal `error` (so no success signal), and delivering it to `BlogClient`
leaves its state, the store included, as it was. -/
theorem C10_malformed_body_emits_error_and_changes_nothing (clock : Clock) (c : BlogClient)
    (reply : QNetworkReply) (hs : 200 ≤ reply.statusCode ∧ reply.statusCode < 300)
    (hbody : ∀ o, reply.document ≠ QJsonDocument.object o) :
    (∃ msg, WordPressAPI.onPostCreated clock c.db (some reply) = Signal.error msg) ∧
    (∃ msg, WordPressAPI.onPostUpdated clock c.db (some reply) = Signal.error msg) ∧
    c.deliver (WordPressAPI.onPostCreated clock c.db (some reply)) = c ∧
    c.deliver (WordPressAPI.onPostUpdated clock c.db (some reply)) = c := by
  have hns : ¬ (reply.statusCode < 200 ∨ reply.statusCode ≥ 300) := by omega
  have key : ∀ (failed : String) (success : Post → Signal),
      ∃ msg, WordPressAPI.onPostReply failed success clock c.db (some reply) =
        Signal.error msg := by
    intro failed success
    unfold WordPressAPI.onPostReply
    simp only []
    rw [if_neg hns]
    cases hd : reply.document with
    | parseError e => exact ⟨_, rfl⟩
    | array a => exact ⟨_, rfl⟩
    | object o => exact absurd hd (hbody o)
  obtain ⟨m1, h1⟩ := key "创建文章失败，HTTP错误: " Signal.postCreated
  obtain ⟨m2, h2⟩ := key "更新文章失败，HTTP错误: " Signal.postUpdated
  have e1 : WordPressAPI.onPostCreated clock c.db (some reply) = Signal.error m1 := h1
  have e2 : WordPressAPI.onPostUpdated clock c.db (some reply) = Signal.error m2 := h2
  rw [e1, e2]
  exact ⟨⟨_, rfl⟩, ⟨_, rfl⟩, rfl, rfl⟩

/-- C10 at status 200 with a body that does not parse. -/
theorem C10_malformed_body_emits_error_and_changes_nothing_witness :
    (BlogClient.mk
        ⟨true, [⟨1, 42, "Hello", "", "", none, "", 1, ""⟩], 1, ⟨[], 0⟩, ⟨[], 0⟩, [], []⟩
        ⟨"", "", ""⟩ (some { Post.default none with id := 1, remoteId := 42 }) true).deliver
      (WordPressAPI.onPostCreated ⟨some 0, fun _ => none⟩
        ⟨true, [⟨1, 42, "Hello", "", "", none, "", 1, ""⟩], 1, ⟨[], 0⟩, ⟨[], 0⟩, [], []⟩
        (some ⟨200, QJsonDocument.parseError "illegal value"⟩)) =
    BlogClient.mk
        ⟨true, [⟨1, 42, "Hello", "", "", none, "", 1, ""⟩], 1, ⟨[], 0⟩, ⟨[], 0⟩, [], []⟩
        ⟨"", "", ""⟩ (some { Post.default none with id := 1, remoteId := 42 }) true :=
  (C10_malformed_body_emits_error_and_changes_nothing ⟨some 0, fun _ => none⟩
    (BlogClient.mk
      ⟨true, [⟨1, 42, "Hello", "", "", none, "", 1, ""⟩], 1, ⟨[], 0⟩, ⟨[], 0⟩, [], []⟩
      ⟨"", "", ""⟩ (some { Post.default none with id := 1, remoteId := 42 }) true)
    ⟨200, QJsonDocument.parseError "illegal value"⟩ (by decide)
    (fun o h => QJsonDocument.noConfusion h)).2.2.1

/-! ## Lemmas on the term tables -/

theorem foldl_max_ge (l : List Int) (a : Int) :
    a ≤ l.foldl max a ∧ ∀ i ∈ l, i ≤ l.foldl max a := by
  induction l generalizing a with
  | nil => simp
  | cons x xs ih =>
    simp only [List.foldl_cons, List.mem_cons, forall_eq_or_imp]
    obtain ⟨h1, h2⟩ := ih (max a x)
    exact ⟨le_trans (le_max_left a x) h1, le_trans (le_max_right a x) h1, h2⟩

theorem nextRowid_not_mem (ids : List Int) (seq : Int) : nextRowid ids seq ∉ ids := by
  intro h
  have h1 := (foldl_max_ge ids 0).2 _ h
  unfold nextRowid at h1
  have h2 := le_max_right seq (ids.foldl max 0)
  omega

theorem nextRowid_pos (ids : List Int) (seq : Int) : 1 ≤ nextRowid ids seq := by
  have h1 := (foldl_max_ge ids 0).1
  unfold nextRowid
  have h2 := le_max_right seq (ids.foldl max 0)
  omega

theorem TermTable.selectIdByName_some {t : TermTable} {name : String} {id : Int}
    (h : TermTable.selectIdByName true t name = some id) :
    (⟨id, name⟩ : Term) ∈ t.rows := by
  unfold TermTable.selectIdByName at h
  simp only [if_true, Option.map_eq_some'] at h
  obtain ⟨r, hr, rfl⟩ := h
  have h1 := List.find?_some hr
  have h2 := List.mem_of_find?_eq_some hr
  simp only [decide_eq_true_eq] at h1
  cases r
  simp only at h1
  subst h1
  exact h2

theorem TermTable.selectIdByName_none {t : TermTable} {name : String}
    (h : TermTable.selectIdByName true t name = none) :
    name ∉ t.rows.map (fun r => r.name) := by
  unfold TermTable.selectIdByName at h
  simp only [if_true, Option.map_eq_none'] at h
  rw [List.find?_eq_none] at h
  intro hm
  obtain ⟨r, hr, hn⟩ := List.mem_map.mp hm
  exact h r hr (by simpa using hn)

/-- Looking up the name of a row of a table whose names are unique finds that row. -/
theorem TermTable.selectIdByName_of_mem {t : TermTable} (hwf : t.WF) {c : Term}
    (hc : c ∈ t.rows) : TermTable.selectIdByName true t c.name = some c.id := by
  cases h : TermTable.selectIdByName true t c.name with
  | none => exact absurd (List.mem_map.mpr ⟨c, hc, rfl⟩) (TermTable.selectIdByName_none h)
  | some id =>
    have h1 := TermTable.selectIdByName_some h
    have h2 := List.inj_on_of_nodup_map hwf.2 h1 hc rfl
    rw [← h2]

/-- Inserting a name that the table does not hold succeeds, appends one row under
a fresh key and keeps the constraints. -/
theorem TermTable.insert_fresh {t : TermTable} {name : String}
    (h : name ∉ t.rows.map (fun r => r.name)) :
    TermTable.insert true t name =
      some ({ rows := t.rows ++ [⟨nextRowid (t.rows.map (fun r => r.id)) t.seq, name⟩],
              seq := nextRowid (t.rows.map (fun r => r.id)) t.seq },
            nextRowid (t.rows.map (fun r => r.id)) t.seq) := by
  unfold TermTable.insert
  rw [if_pos ⟨rfl, h⟩]

theorem TermTable.WF_append {t : TermTable} (hwf : t.WF) (seq : Int) {k : Int} {name : String}
    (hk : k ∉ t.rows.map (fun r => r.id)) (hn : name ∉ t.rows.map (fun r => r.name)) :
    TermTable.WF { rows := t.rows ++ [⟨k, name⟩], seq := seq } := by
  unfold TermTable.WF
  simp only [List.map_append, List.map_cons, List.map_nil]
  refine ⟨?_, ?_⟩
  · rw [List.nodup_append]
    refine ⟨hwf.1, List.nodup_singleton _, ?_⟩
    intro a ha hb
    rw [List.mem_singleton] at hb
    exact hk (hb ▸ ha)
  · rw [List.nodup_append]
    refine ⟨hwf.2, List.nodup_singleton _, ?_⟩
    intro a ha hb
    rw [List.mem_singleton] at hb
    exact hn (hb ▸ ha)

/-- What `save` does with a term of unset id and a name that is not empty, on an
open connection: it finds the row of that name, or appends it under a fresh key. -/
theorem TermTable.save_unset (t : TermTable) (name : String) (hne : name ≠ "") :
    (∃ id, (⟨id, name⟩ : Term) ∈ t.rows ∧
        TermTable.selectIdByName true t name = some id ∧
        TermTable.save true t ⟨-1, name⟩ = (true, t, ⟨id, name⟩)) ∨
    (name ∉ t.rows.map (fun r => r.name) ∧
        TermTable.save true t ⟨-1, name⟩ =
          (true,
           { rows := t.rows ++ [⟨nextRowid (t.rows.map (fun r => r.id)) t.seq, name⟩],
             seq := nextRowid (t.rows.map (fun r => r.id)) t.seq },
           ⟨nextRowid (t.rows.map (fun r => r.id)) t.seq, name⟩)) := by
  cases h : TermTable.selectIdByName true t name with
  | some id =>
    left
    refine ⟨id, TermTable.selectIdByName_some h, rfl, ?_⟩
    unfold TermTable.save
    simp only [hne, ne_eq, not_false_eq_true, and_self, if_true, h]
  | none =>
    right
    have hn := TermTable.selectIdByName_none h
    refine ⟨hn, ?_⟩
    unfold TermTable.save
    simp only [hne, ne_eq, not_false_eq_true, and_self, if_true, h,
      TermTable.insert_fresh hn]

theorem TermTable.save_of_select_none {t : TermTable} {name : String}
    (h : TermTable.selectIdByName true t name = none) :
    TermTable.save true t ⟨-1, name⟩ =
      (true,
       { rows := t.rows ++ [⟨nextRowid (t.rows.map (fun r => r.id)) t.seq, name⟩],
         seq := nextRowid (t.rows.map (fun r => r.id)) t.seq },
       ⟨nextRowid (t.rows.map (fun r => r.id)) t.seq, name⟩) := by
  unfold TermTable.save
  simp only [h, ite_self, if_true, TermTable.insert_fresh (TermTable.selectIdByName_none h)]

/-- Calling `save` twice with an unset id and the same non-empty name succeeds
twice with the same id and leaves one row of that name. -/
theorem TermTable.save_twice (t : TermTable) (hwf : t.WF) (name : String) (hne : name ≠ "") :
    (TermTable.save true t ⟨-1, name⟩).1 = true ∧
    (TermTable.save true (TermTable.save true t ⟨-1, name⟩).2.1 ⟨-1, name⟩).1 = true ∧
    (TermTable.save true t ⟨-1, name⟩).2.2.id =
      (TermTable.save true (TermTable.save true t ⟨-1, name⟩).2.1 ⟨-1, name⟩).2.2.id ∧
    ((TermTable.save true (TermTable.save true t ⟨-1, name⟩).2.1 ⟨-1, name⟩).2.1.rows.map
      (fun r => r.name)).count name = 1 := by
  rcases TermTable.save_unset t name hne with ⟨id, hmem, -, h1⟩ | ⟨hfresh, h1⟩
  · rw [h1]
    simp only [h1]
    exact ⟨trivial, trivial, trivial,
      List.count_eq_one_of_mem hwf.2 (List.mem_map.mpr ⟨_, hmem, rfl⟩)⟩
  · rw [h1]
    simp only []
    have hsel : TermTable.selectIdByName true
        { rows := t.rows ++ [⟨nextRowid (t.rows.map (fun r => r.id)) t.seq, name⟩],
          seq := nextRowid (t.rows.map (fun r => r.id)) t.seq } name =
        some (nextRowid (t.rows.map (fun r => r.id)) t.seq) := by
      have := TermTable.selectIdByName_of_mem
        (TermTable.WF_append hwf (nextRowid (t.rows.map (fun r => r.id)) t.seq)
          (nextRowid_not_mem _ _) hfresh)
        (c := ⟨nextRowid (t.rows.map (fun r => r.id)) t.seq, name⟩)
        (List.mem_append_right _ (List.mem_singleton.mpr rfl))
      exact this
    have h2 : TermTable.save true
        { rows := t.rows ++ [⟨nextRowid (t.rows.map (fun r => r.id)) t.seq, name⟩],
          seq := nextRowid (t.rows.map (fun r => r.id)) t.seq } ⟨-1, name⟩ =
        (true, { rows := t.rows ++ [⟨nextRowid (t.rows.map (fun r => r.id)) t.seq, name⟩],
                 seq := nextRowid (t.rows.map (fun r => r.id)) t.seq },
          ⟨nextRowid (t.rows.map (fun r => r.id)) t.seq, name⟩) := by
      unfold TermTable.save
      simp only [hne, ne_eq, not_false_eq_true, and_self, if_true, hsel]
    rw [h2]
    refine ⟨by trivial, by trivial, by trivial, ?_⟩
    simp only [List.map_append, List.map_cons, List.map_nil, List.count_append,
      List.count_eq_zero_of_not_mem hfresh, List.count_singleton_self]

/-! ## Lemmas on the relation tables -/

theorem mem_addIfAbsent {α : Type} (l : List α) (x y : α) [Decidable (x ∈ l)] :
    y ∈ (if x ∈ l then l else l ++ [x]) ↔ y ∈ l ∨ y = x := by
  by_cases h : x ∈ l
  · rw [if_pos h]
    constructor
    · exact Or.inl
    · rintro (h1 | rfl)
      · exact h1
      · exact h
  · rw [if_neg h]
    simp

theorem nodup_addIfAbsent {α : Type} (l : List α) (x : α) [Decidable (x ∈ l)]
    (h : l.Nodup) : (if x ∈ l then l else l ++ [x]).Nodup := by
  by_cases hx : x ∈ l
  · rw [if_pos hx]; exact h
  · rw [if_neg hx, List.nodup_append]
    refine ⟨h, List.nodup_singleton _, ?_⟩
    intro a ha hb
    rw [List.mem_singleton] at hb
    exact hx (hb ▸ ha)

/-- One iteration of the loop of `savePost`, on an open connection: the name is
found, or a row is appended for it under a fresh key; the post is related to it. -/
theorem attachTerm_spec (pid : Int) (t : TermTable) (rel : List (Int × Int)) (name : String) :
    ∃ cid t1, attachTerm true pid (t, rel) name =
        (t1, if (pid, cid) ∈ rel then rel else rel ++ [(pid, cid)]) ∧
      ((t1 = t ∧ (⟨cid, name⟩ : Term) ∈ t.rows) ∨
       (name ∉ t.rows.map (fun r => r.name) ∧ cid ∉ t.rows.map (fun r => r.id) ∧
          t1 = { rows := t.rows ++ [⟨cid, name⟩], seq := cid })) := by
  cases h : TermTable.selectIdByName true t name with
  | some id =>
    refine ⟨id, t, ?_, Or.inl ⟨rfl, TermTable.selectIdByName_some h⟩⟩
    unfold attachTerm
    simp only [h, addTermToPost, if_true]
  | none =>
    refine ⟨nextRowid (t.rows.map (fun r => r.id)) t.seq, _, ?_,
      Or.inr ⟨TermTable.selectIdByName_none h, nextRowid_not_mem _ _, rfl⟩⟩
    unfold attachTerm
    simp only [h, TermTable.save_of_select_none h, addTermToPost, if_true]

theorem RelInv.step {pid : Int} {done : List String} {s : TermTable × List (Int × Int)}
    (hinv : RelInv pid done s) (name : String) :
    RelInv pid (done ++ [name]) (attachTerm true pid s name) := by
  obtain ⟨t, rel⟩ := s
  obtain ⟨hwf, hnd, hrows, hrel⟩ := hinv
  obtain ⟨cid, t1, heq, hcase⟩ := attachTerm_spec pid t rel name
  rw [heq]
  unfold RelInv
  dsimp only at hwf hnd hrows hrel ⊢
  rcases hcase with ⟨rfl, hmem⟩ | ⟨hfresh, hkey, rfl⟩
  · refine ⟨hwf, nodup_addIfAbsent _ _ hnd, ?_, ?_⟩
    · intro n hn
      rcases List.mem_append.mp hn with h | h
      · exact hrows n h
      · rw [List.mem_singleton] at h
        subst h
        exact List.mem_map.mpr ⟨_, hmem, rfl⟩
    · intro c
      simp only [mem_addIfAbsent, Prod.mk.injEq, true_and, List.mem_append,
        List.mem_singleton]
      constructor
      · rintro (h | rfl)
        · obtain ⟨r, hr, h1, h2⟩ := (hrel c).mp h
          exact ⟨r, hr, h1, Or.inl h2⟩
        · exact ⟨_, hmem, rfl, Or.inr rfl⟩
      · rintro ⟨r, hr, h1, h2 | h2⟩
        · exact Or.inl ((hrel c).mpr ⟨r, hr, h1, h2⟩)
        · right
          have := List.inj_on_of_nodup_map hwf.2 hr hmem h2
          rw [← h1, this]
  · refine ⟨TermTable.WF_append hwf _ hkey hfresh, nodup_addIfAbsent _ _ hnd, ?_, ?_⟩
    · intro n hn
      simp only [List.map_append, List.map_cons, List.map_nil, List.mem_append,
        List.mem_singleton]
      rcases List.mem_append.mp hn with h | h
      · exact Or.inl (hrows n h)
      · rw [List.mem_singleton] at h
        exact Or.inr h
    · intro c
      simp only [mem_addIfAbsent, Prod.mk.injEq, true_and, List.mem_append,
        List.mem_singleton]
      constructor
      · rintro (h | rfl)
        · obtain ⟨r, hr, h1, h2⟩ := (hrel c).mp h
          exact ⟨r, Or.inl hr, h1, Or.inl h2⟩
        · exact ⟨_, Or.inr rfl, rfl, Or.inr rfl⟩
      · rintro ⟨r, hr | rfl, h1, h2 | h2⟩
        · exact Or.inl ((hrel c).mpr ⟨r, hr, h1, h2⟩)
        · exact absurd (List.mem_map.mpr ⟨r, hr, h2⟩) hfresh
        · exact Or.inr h1.symm
        · exact Or.inr h1.symm

theorem RelInv.foldl {pid : Int} (names : List String) :
    ∀ {done : List String} {s : TermTable × List (Int × Int)}, RelInv pid done s →
      RelInv pid (done ++ names) (names.foldl (attachTerm true pid) s) := by
  induction names with
  | nil => intro done s h; simpa using h
  | cons n ns ih =>
    intro done s h
    have := ih (h.step n)
    simpa [List.append_assoc] using this

/-- After the block of `savePost` that replaces the relations of one kind, the
constraints hold and the post is related to exactly the terms named. -/
theorem replaceTerms_inv (t : TermTable) (rel : List (Int × Int)) (pid : Int)
    (names : List String) (hwf : t.WF) (hnd : rel.Nodup) :
    RelInv pid names (replaceTerms true t rel pid names) := by
  unfold replaceTerms
  have h0 : RelInv pid [] (t, rel.filter (fun r => r.1 ≠ pid)) := by
    refine ⟨hwf, hnd.filter _, ?_, ?_⟩
    · intro n hn; cases hn
    · intro c
      simp
  simpa using RelInv.foldl names h0

theorem mem_termsForPost {t : TermTable} {rel : List (Int × Int)} {pid : Int} {c : Term} :
    c ∈ termsForPost true t rel pid ↔ c ∈ t.rows ∧ (pid, c.id) ∈ rel := by
  unfold termsForPost
  simp only [if_true, List.mem_flatMap, List.mem_filter, decide_eq_true_eq, Prod.exists]
  constructor
  · rintro ⟨a, b, ⟨hab, rfl⟩, hc, rfl⟩
    exact ⟨hc, hab⟩
  · rintro ⟨hc, h⟩
    exact ⟨pid, c.id, ⟨h, rfl⟩, hc, rfl⟩

/-- Under the invariant of the loop, the names the join returns for the post are
the names attached. -/
theorem RelInv.mem_names {pid : Int} {done : List String} {s : TermTable × List (Int × Int)}
    (hinv : RelInv pid done s) (n : String) :
    n ∈ (termsForPost true s.1 s.2 pid).map (fun c => c.name) ↔ n ∈ done := by
  obtain ⟨hwf, -, hrows, hrel⟩ := hinv
  simp only [List.mem_map, mem_termsForPost]
  constructor
  · rintro ⟨c, ⟨hc, hr⟩, rfl⟩
    obtain ⟨r, hrmem, h1, h2⟩ := (hrel c.id).mp hr
    have := List.inj_on_of_nodup_map hwf.1 hrmem hc h1
    rw [← this]
    exact h2
  · intro hn
    obtain ⟨c, hc, rfl⟩ := List.mem_map.mp (hrows n hn)
    exact ⟨c, ⟨hc, (hrel c.id).mpr ⟨c, hc, rfl, hn⟩⟩, rfl⟩

/-- Under the constraints, the join returns no name twice. -/
theorem nodup_names_termsForPost {t : TermTable} {rel : List (Int × Int)} (pid : Int)
    (hwf : t.WF) (hnd : rel.Nodup) :
    ((termsForPost true t rel pid).map (fun c => c.name)).Nodup := by
  have hrowsnd : t.rows.Nodup := List.Nodup.of_map _ hwf.1
  apply List.Nodup.map_on
  · intro x hx y hy hxy
    exact List.inj_on_of_nodup_map hwf.2 (mem_termsForPost.mp hx).1 (mem_termsForPost.mp hy).1 hxy
  · unfold termsForPost
    simp only [if_true]
    rw [List.nodup_flatMap]
    refine ⟨fun r _ => hrowsnd.filter _, ?_⟩
    apply List.Nodup.pairwise_of_forall_ne (hnd.filter _)
    intro a ha b hb hab
    simp only [List.mem_filter, decide_eq_true_eq] at ha hb
    intro c hca hcb
    simp only [List.mem_filter, decide_eq_true_eq] at hca hcb
    apply hab
    exact Prod.ext (ha.2.trans hb.2.symm) (hca.2.symm.trans hcb.2)

/-! ## Lemmas on `savePost` -/

theorem DatabaseManager.saveRelations_frame (db : Database) (post : Post) :
    (DatabaseManager.saveRelations db post).isOpen = db.isOpen ∧
    (DatabaseManager.saveRelations db post).posts = db.posts ∧
    (DatabaseManager.saveRelations db post).posts_seq = db.posts_seq := by
  unfold DatabaseManager.saveRelations
  split_ifs <;> exact ⟨rfl, rfl, rfl⟩

theorem DatabaseManager.saveRelations_categories (db : Database) (post : Post) :
    ((DatabaseManager.saveRelations db post).categories,
      (DatabaseManager.saveRelations db post).post_categories) =
    if post.categories ≠ [] then
      replaceTerms db.isOpen db.categories db.post_categories post.id post.categories
    else (db.categories, db.post_categories) := by
  unfold DatabaseManager.saveRelations
  split_ifs <;> rfl

theorem DatabaseManager.saveRelations_tags (db : Database) (post : Post) :
    ((DatabaseManager.saveRelations db post).tags,
      (DatabaseManager.saveRelations db post).post_tags) =
    if post.tags ≠ [] then
      replaceTerms db.isOpen db.tags db.post_tags post.id post.tags
    else (db.tags, db.post_tags) := by
  unfold DatabaseManager.saveRelations
  split_ifs <;> rfl

theorem DatabaseManager.postExists_iff (db : Database) (id : Int) :
    DatabaseManager.postExists db id = true ↔ db.isOpen = true ∧ ∃ r ∈ db.posts, r.id = id := by
  unfold DatabaseManager.postExists
  simp

/-- The three ways `savePost` can go: the connection is closed and it fails; the
row of the post exists and is updated; a row is inserted under a fresh key,
which the post takes over only if its id was -1. -/
theorem DatabaseManager.savePost_cases (db : Database) (post : Post) :
    (db.isOpen = false ∧ DatabaseManager.savePost db post = (false, db, post)) ∨
    (db.isOpen = true ∧ post.id > 0 ∧ (∃ r ∈ db.posts, r.id = post.id) ∧
      DatabaseManager.savePost db post =
        (true,
         DatabaseManager.saveRelations
           { db with posts := db.posts.map (fun r =>
               if r.id = post.id then DatabaseManager.rowOfPost r.id post else r) } post,
         post)) ∨
    (db.isOpen = true ∧ ¬ (post.id > 0 ∧ ∃ r ∈ db.posts, r.id = post.id) ∧
      DatabaseManager.savePost db post =
        (true,
         DatabaseManager.saveRelations
           { db with
               posts := db.posts ++
                 [DatabaseManager.rowOfPost (nextRowid (db.posts.map (fun r => r.id)) db.posts_seq)
                   (if post.id = -1 then
                      post.setId (nextRowid (db.posts.map (fun r => r.id)) db.posts_seq)
                    else post)],
               posts_seq := nextRowid (db.posts.map (fun r => r.id)) db.posts_seq }
           (if post.id = -1 then
              post.setId (nextRowid (db.posts.map (fun r => r.id)) db.posts_seq)
            else post),
         if post.id = -1 then post.setId (nextRowid (db.posts.map (fun r => r.id)) db.posts_seq)
         else post)) := by
  cases hopen : db.isOpen with
  | false =>
    left
    refine ⟨rfl, ?_⟩
    unfold DatabaseManager.savePost DatabaseManager.postExists DatabaseManager.updatePostRow
      DatabaseManager.insertPostRow
    simp [hopen]
  | true =>
    right
    by_cases h : post.id > 0 ∧ ∃ r ∈ db.posts, r.id = post.id
    · left
      refine ⟨rfl, h.1, h.2, ?_⟩
      have he : DatabaseManager.postExists db post.id = true :=
        (DatabaseManager.postExists_iff db post.id).mpr ⟨hopen, h.2⟩
      have hne : ¬ post.id = -1 := by omega
      unfold DatabaseManager.savePost DatabaseManager.updatePostRow
      simp only [h.1, he, hopen, if_true, Option.map_some', hne, if_false]
    · right
      refine ⟨rfl, h, ?_⟩
      have hrow : DatabaseManager.rowOfPost (nextRowid (db.posts.map (fun r => r.id)) db.posts_seq)
          (if post.id = -1 then
            post.setId (nextRowid (db.posts.map (fun r => r.id)) db.posts_seq) else post) =
          DatabaseManager.rowOfPost (nextRowid (db.posts.map (fun r => r.id)) db.posts_seq)
            post := by
        split_ifs <;> rfl
      rw [hrow]
      by_cases hpos : post.id > 0
      · have he : DatabaseManager.postExists db post.id = false := by
          rw [Bool.eq_false_iff]
          intro hc
          exact h ⟨hpos, ((DatabaseManager.postExists_iff db post.id).mp hc).2⟩
        unfold DatabaseManager.savePost DatabaseManager.insertPostRow
        simp only [hpos, he, hopen, if_true, Bool.false_eq_true, if_false]
      · unfold DatabaseManager.savePost DatabaseManager.insertPostRow
        simp only [hpos, hopen, if_true, if_false]

/-- The post `savePost` leaves differs from the post it was given in the id at
most. -/
theorem DatabaseManager.savePost_post (db : Database) (post : Post) :
    (DatabaseManager.savePost db post).2.2 = post.setId (DatabaseManager.savePost db post).2.2.id := by
  rcases DatabaseManager.savePost_cases db post with ⟨-, h⟩ | ⟨-, -, -, h⟩ | ⟨-, -, h⟩
  · rw [h]; rfl
  · rw [h]; rfl
  · rw [h]
    dsimp only
    split_ifs <;> rfl

/-- A call of `savePost` that succeeds was made on an open connection. -/
theorem DatabaseManager.savePost_isOpen (db : Database) (post : Post)
    (h : (DatabaseManager.savePost db post).1 = true) : db.isOpen = true := by
  rcases DatabaseManager.savePost_cases db post with ⟨-, h1⟩ | ⟨h1, -⟩ | ⟨h1, -⟩
  · rw [h1] at h; cases h
  · exact h1
  · exact h1

/-- What `savePost` does to a term table and its relation table: it leaves them
alone when the post names no term of the kind, and else replaces the relations
of the post (under the id the post has afterwards) by the terms named. -/
theorem DatabaseManager.savePost_categories (db : Database) (post : Post)
    (h : (DatabaseManager.savePost db post).1 = true) :
    ((DatabaseManager.savePost db post).2.1.categories,
      (DatabaseManager.savePost db post).2.1.post_categories) =
    if post.categories ≠ [] then
      replaceTerms true db.categories db.post_categories
        (DatabaseManager.savePost db post).2.2.id post.categories
    else (db.categories, db.post_categories) := by
  rcases DatabaseManager.savePost_cases db post with ⟨-, h1⟩ | ⟨ho, -, -, h1⟩ | ⟨ho, -, h1⟩
  · rw [h1] at h; cases h
  · rw [h1]
    dsimp only
    rw [DatabaseManager.saveRelations_categories, ho]
  · rw [h1]
    dsimp only
    rw [DatabaseManager.saveRelations_categories]
    dsimp only
    rw [ho]
    by_cases hid : post.id = -1
    · simp only [hid, if_true, Post.setId]
    · simp only [hid, if_false]

theorem DatabaseManager.savePost_tags (db : Database) (post : Post)
    (h : (DatabaseManager.savePost db post).1 = true) :
    ((DatabaseManager.savePost db post).2.1.tags,
      (DatabaseManager.savePost db post).2.1.post_tags) =
    if post.tags ≠ [] then
      replaceTerms true db.tags db.post_tags
        (DatabaseManager.savePost db post).2.2.id post.tags
    else (db.tags, db.post_tags) := by
  rcases DatabaseManager.savePost_cases db post with ⟨-, h1⟩ | ⟨ho, -, -, h1⟩ | ⟨ho, -, h1⟩
  · rw [h1] at h; cases h
  · rw [h1]
    dsimp only
    rw [DatabaseManager.saveRelations_tags, ho]
  · rw [h1]
    dsimp only
    rw [DatabaseManager.saveRelations_tags]
    dsimp only
    rw [ho]
    by_cases hid : post.id = -1
    · simp only [hid, if_true, Post.setId]
    · simp only [hid, if_false]

theorem DatabaseManager.savePost_isOpen_after (db : Database) (post : Post) :
    (DatabaseManager.savePost db post).2.1.isOpen = db.isOpen := by
  rcases DatabaseManager.savePost_cases db post with ⟨-, h1⟩ | ⟨-, -, -, h1⟩ | ⟨-, -, h1⟩
  · rw [h1]
  · rw [h1]; exact (DatabaseManager.saveRelations_frame _ _).1
  · rw [h1]; exact (DatabaseManager.saveRelations_frame _ _).1

/-- The table `posts` after `savePost`: as it was, or with the rows of the id of
the post overwritten, or with one row appended under a fresh key. -/
theorem DatabaseManager.savePost_posts (db : Database) (post : Post) :
    (DatabaseManager.savePost db post).2.1.posts = db.posts ∨
    (post.id > 0 ∧ (∃ r ∈ db.posts, r.id = post.id) ∧ db.isOpen = true ∧
      (DatabaseManager.savePost db post).2.2 = post ∧
      (DatabaseManager.savePost db post).2.1.posts =
        db.posts.map (fun r =>
          if r.id = post.id then DatabaseManager.rowOfPost r.id post else r)) ∨
    (¬ (post.id > 0 ∧ ∃ r ∈ db.posts, r.id = post.id) ∧ db.isOpen = true ∧
      (DatabaseManager.savePost db post).2.1.posts =
        db.posts ++ [DatabaseManager.rowOfPost
          (nextRowid (db.posts.map (fun r => r.id)) db.posts_seq) post]) := by
  rcases DatabaseManager.savePost_cases db post with ⟨-, h1⟩ | ⟨ho, hp, he, h1⟩ | ⟨ho, hn, h1⟩
  · left; rw [h1]
  · right; left
    refine ⟨hp, he, ho, by rw [h1], ?_⟩
    rw [h1]
    exact (DatabaseManager.saveRelations_frame _ _).2.1
  · right; right
    refine ⟨hn, ho, ?_⟩
    rw [h1]
    dsimp only
    rw [(DatabaseManager.saveRelations_frame _ _).2.1]
    dsimp only
    split_ifs <;> rfl

/-- A stored post whose remote id is present keeps a present remote id under
`savePost` of a post that carries a present remote id. -/
theorem DatabaseManager.savePost_keeps_remote (db : Database) (post : Post)
    (hr : post.remoteId > 0) (i : Int)
    (h : ∃ r ∈ db.posts, r.id = i ∧ r.remote_id > 0) :
    ∃ r ∈ (DatabaseManager.savePost db post).2.1.posts, r.id = i ∧ r.remote_id > 0 := by
  obtain ⟨r, hmem, hid, hrem⟩ := h
  rcases DatabaseManager.savePost_posts db post with h1 | ⟨-, -, -, -, h1⟩ | ⟨-, -, h1⟩
  · rw [h1]; exact ⟨r, hmem, hid, hrem⟩
  · rw [h1]
    by_cases hri : r.id = post.id
    · refine ⟨DatabaseManager.rowOfPost r.id post, ?_, hid, hr⟩
      exact List.mem_map.mpr ⟨r, hmem, by rw [if_pos hri]⟩
    · exact ⟨r, List.mem_map.mpr ⟨r, hmem, by rw [if_neg hri]⟩, hid, hrem⟩
  · rw [h1]
    exact ⟨r, List.mem_append_left _ hmem, hid, hrem⟩

/-- The loop of `savePost` only appends rows to the term table. -/
theorem foldl_attachTerm_rows (pid : Int) (names : List String) :
    ∀ (s : TermTable × List (Int × Int)) (c : Term), c ∈ s.1.rows →
      c ∈ (names.foldl (attachTerm true pid) s).1.rows := by
  induction names with
  | nil => intro s c h; exact h
  | cons n ns ih =>
    intro s c h
    rw [List.foldl_cons]
    apply ih
    obtain ⟨t, rel⟩ := s
    obtain ⟨cid, t1, heq, hcase⟩ := attachTerm_spec pid t rel n
    rw [heq]
    rcases hcase with ⟨rfl, -⟩ | ⟨-, -, rfl⟩
    · exact h
    · exact List.mem_append_left _ h

theorem replaceTerms_rows (t : TermTable) (rel : List (Int × Int)) (pid : Int)
    (names : List String) (c : Term) (h : c ∈ t.rows) :
    c ∈ (replaceTerms true t rel pid names).1.rows := by
  unfold replaceTerms
  exact foldl_attachTerm_rows pid names _ c h

/-! ## C2: resolving a name twice -/

/-- C2, counterexample. On the open, empty store, `saveCategory` with unset id and
the empty name succeeds the first time and fails the second time. -/
theorem C2_empty_name_second_call_fails :
    (DatabaseManager.saveCategory ⟨true, [], 0, ⟨[], 0⟩, ⟨[], 0⟩, [], []⟩ ⟨-1, ""⟩).1 = true ∧
    (DatabaseManager.saveCategory
      (DatabaseManager.saveCategory ⟨true, [], 0, ⟨[], 0⟩, ⟨[], 0⟩, [], []⟩ ⟨-1, ""⟩).2.1
      ⟨-1, ""⟩).1 = false := by
  decide

/-- C2, amended. On an open store that satisfies the constraints of the schema,
for every name that is not empty, calling `saveCategory` twice with a term of
unset id and that name succeeds both times, yields the same id both times and
leaves exactly one row of that name in `categories`; and the same holds for
`saveTag` and `tags`. -/
theorem C2_resolve_twice_same_id_one_row (db : Database) (hopen : db.isOpen = true)
    (hwf : db.WF) (n : String) (hn : n ≠ "") :
    ((DatabaseManager.saveCategory db ⟨-1, n⟩).1 = true ∧
      (DatabaseManager.saveCategory (DatabaseManager.saveCategory db ⟨-1, n⟩).2.1 ⟨-1, n⟩).1
        = true ∧
      (DatabaseManager.saveCategory db ⟨-1, n⟩).2.2.id =
        (DatabaseManager.saveCategory (DatabaseManager.saveCategory db ⟨-1, n⟩).2.1
          ⟨-1, n⟩).2.2.id ∧
      ((DatabaseManager.saveCategory (DatabaseManager.saveCategory db ⟨-1, n⟩).2.1
          ⟨-1, n⟩).2.1.categories.rows.map (fun r => r.name)).count n = 1) ∧
    ((DatabaseManager.saveTag db ⟨-1, n⟩).1 = true ∧
      (DatabaseManager.saveTag (DatabaseManager.saveTag db ⟨-1, n⟩).2.1 ⟨-1, n⟩).1 = true ∧
      (DatabaseManager.saveTag db ⟨-1, n⟩).2.2.id =
        (DatabaseManager.saveTag (DatabaseManager.saveTag db ⟨-1, n⟩).2.1 ⟨-1, n⟩).2.2.id ∧
      ((DatabaseManager.saveTag (DatabaseManager.saveTag db ⟨-1, n⟩).2.1
          ⟨-1, n⟩).2.1.tags.rows.map (fun r => r.name)).count n = 1) := by
  obtain ⟨-, hc, ht, -, -⟩ := hwf
  unfold DatabaseManager.saveCategory DatabaseManager.saveTag
  simp only [hopen]
  exact ⟨TermTable.save_twice db.categories hc n hn, TermTable.save_twice db.tags ht n hn⟩

/-- C2 at the name `Tech` on a store that holds another category. -/
theorem C2_resolve_twice_same_id_one_row_witness :
    (DatabaseManager.saveCategory ⟨true, [], 0, ⟨[⟨1, "News"⟩], 1⟩, ⟨[], 0⟩, [], []⟩
        ⟨-1, "Tech"⟩).2.2.id =
      (DatabaseManager.saveCategory
        (DatabaseManager.saveCategory ⟨true, [], 0, ⟨[⟨1, "News"⟩], 1⟩, ⟨[], 0⟩, [], []⟩
          ⟨-1, "Tech"⟩).2.1 ⟨-1, "Tech"⟩).2.2.id :=
  (C2_resolve_twice_same_id_one_row ⟨true, [], 0, ⟨[⟨1, "News"⟩], 1⟩, ⟨[], 0⟩, [], []⟩ rfl
    ⟨by decide, ⟨by decide, by decide⟩, ⟨by decide, by decide⟩, by decide, by decide⟩
    "Tech" (by decide)).1.2.2.1

/-! ## C3, C4: the relations of a post after `savePost` -/

/-- C3, counterexample. Post 1 is related to category `A`; saving it with an
empty list of categories succeeds and leaves it related to `A`. -/
theorem C3_empty_list_keeps_old_relations :
    (DatabaseManager.savePost
        ⟨true, [⟨1, -1, "Hello", "", "", none, "", 0, ""⟩], 1, ⟨[⟨1, "A"⟩], 1⟩, ⟨[], 0⟩,
          [(1, 1)], []⟩
        { Post.default none with id := 1, title := "Hello", categories := [] }).1 = true ∧
    (DatabaseManager.getCategoriesForPost
        (DatabaseManager.savePost
          ⟨true, [⟨1, -1, "Hello", "", "", none, "", 0, ""⟩], 1, ⟨[⟨1, "A"⟩], 1⟩, ⟨[], 0⟩,
            [(1, 1)], []⟩
          { Post.default none with id := 1, title := "Hello", categories := [] }).2.1 1).map
      (fun c => c.name) = ["A"] := by
  decide

/-- C3, amended. On a store that satisfies the constraints of the schema, after a
successful `savePost`: when the list of category names of the post is not
empty, the names of the categories related to the post are exactly the names
of that list; when it is empty, the tables `categories` and `post_categories`
are as they were. The same holds for tags. -/
theorem C3_savePost_replaces_relations_of_nonempty_lists (db : Database) (post : Post)
    (hwf : db.WF) (hok : (DatabaseManager.savePost db post).1 = true) :
    (post.categories ≠ [] → ∀ n,
      n ∈ (DatabaseManager.getCategoriesForPost (DatabaseManager.savePost db post).2.1
            (DatabaseManager.savePost db post).2.2.id).map (fun c => c.name)
        ↔ n ∈ post.categories) ∧
    (post.categories = [] →
      (DatabaseManager.savePost db post).2.1.categories = db.categories ∧
      (DatabaseManager.savePost db post).2.1.post_categories = db.post_categories) ∧
    (post.tags ≠ [] → ∀ n,
      n ∈ (DatabaseManager.getTagsForPost (DatabaseManager.savePost db post).2.1
            (DatabaseManager.savePost db post).2.2.id).map (fun c => c.name)
        ↔ n ∈ post.tags) ∧
    (post.tags = [] →
      (DatabaseManager.savePost db post).2.1.tags = db.tags ∧
      (DatabaseManager.savePost db post).2.1.post_tags = db.post_tags) := by
  obtain ⟨-, hc, ht, hpc, hpt⟩ := hwf
  have hopen : (DatabaseManager.savePost db post).2.1.isOpen = true := by
    rw [DatabaseManager.savePost_isOpen_after]
    exact DatabaseManager.savePost_isOpen db post hok
  have hcat := DatabaseManager.savePost_categories db post hok
  have htag := DatabaseManager.savePost_tags db post hok
  refine ⟨?_, ?_, ?_, ?_⟩
  · intro hne n
    rw [if_pos hne] at hcat
    have hinv := replaceTerms_inv db.categories db.post_categories
      (DatabaseManager.savePost db post).2.2.id post.categories hc hpc
    rw [← hcat] at hinv
    unfold DatabaseManager.getCategoriesForPost
    rw [hopen]
    exact hinv.mem_names n
  · intro he
    rw [if_neg (by simp [he])] at hcat
    exact ⟨congrArg Prod.fst hcat, congrArg Prod.snd hcat⟩
  · intro hne n
    rw [if_pos hne] at htag
    have hinv := replaceTerms_inv db.tags db.post_tags
      (DatabaseManager.savePost db post).2.2.id post.tags ht hpt
    rw [← htag] at hinv
    unfold DatabaseManager.getTagsForPost
    rw [hopen]
    exact hinv.mem_names n
  · intro he
    rw [if_neg (by simp [he])] at htag
    exact ⟨congrArg Prod.fst htag, congrArg Prod.snd htag⟩

/-- C3 at a post related to `A` that is saved with the categories `B`, `C`. -/
theorem C3_savePost_replaces_relations_of_nonempty_lists_witness :
    ("B" ∈ (DatabaseManager.getCategoriesForPost
            (DatabaseManager.savePost
              ⟨true, [⟨1, -1, "Hello", "", "", none, "", 0, ""⟩], 1, ⟨[⟨1, "A"⟩], 1⟩, ⟨[], 0⟩,
                [(1, 1)], []⟩
              { Post.default none with id := 1, title := "Hello", categories := ["B", "C"] }).2.1
            (DatabaseManager.savePost
              ⟨true, [⟨1, -1, "Hello", "", "", none, "", 0, ""⟩], 1, ⟨[⟨1, "A"⟩], 1⟩, ⟨[], 0⟩,
                [(1, 1)], []⟩
              { Post.default none with id := 1, title := "Hello",
                                         categories := ["B", "C"] }).2.2.id).map
          (fun c => c.name))
        ↔ "B" ∈ ["B", "C"] :=
  (C3_savePost_replaces_relations_of_nonempty_lists
    ⟨true, [⟨1, -1, "Hello", "", "", none, "", 0, ""⟩], 1, ⟨[⟨1, "A"⟩], 1⟩, ⟨[], 0⟩,
      [(1, 1)], []⟩
    { Post.default none with id := 1, title := "Hello", categories := ["B", "C"] }
    ⟨by decide, ⟨by decide, by decide⟩, ⟨by decide, by decide⟩, by decide, by decide⟩
    (by decide)).1 (by decide) "B"

theorem count_pair_eq_one {l : List (Int × Int)} {x : Int × Int} (hnd : l.Nodup) (hx : x ∈ l) :
    l.count x = 1 := by
  induction l with
  | nil => cases hx
  | cons y ys ih =>
    rw [List.nodup_cons] at hnd
    rw [List.count_cons]
    by_cases h : y = x
    · subst h
      simp [List.count_eq_zero_of_not_mem hnd.1]
    · have hmem : x ∈ ys := by
        rcases List.mem_cons.mp hx with h1 | h1
        · exact absurd h1.symm h
        · exact h1
      simp [ih hnd.2 hmem, h]

/-- C4. On a store that satisfies the constraints of the schema, for every post
and all distinct names `A`, `B`, `C`: when the post is saved with the
categories `[A, B]` and saved again with `[B, C]`, both times with success,
then afterwards the categories related to the post are `B` and `C`, each once;
the category `A` exists and is not related to the post, the category `B` has
exactly one relation row with the post, and the local id of the post is the
one it had after the first save. -/
theorem C4_resave_replaces_category_set (db : Database) (hwf : db.WF) (post : Post)
    (A B C : String) (hAB : A ≠ B) (hBC : B ≠ C) (hAC : A ≠ C)
    (hok1 : (DatabaseManager.savePost db (post.setCategories [A, B])).1 = true)
    (hok2 : (DatabaseManager.savePost
      (DatabaseManager.savePost db (post.setCategories [A, B])).2.1
      ((DatabaseManager.savePost db (post.setCategories [A, B])).2.2.setCategories [B, C])).1
        = true) :
    ((DatabaseManager.getCategoriesForPost
        (DatabaseManager.savePost (DatabaseManager.savePost db (post.setCategories [A, B])).2.1
          ((DatabaseManager.savePost db (post.setCategories [A, B])).2.2.setCategories
            [B, C])).2.1
        (DatabaseManager.savePost (DatabaseManager.savePost db (post.setCategories [A, B])).2.1
          ((DatabaseManager.savePost db (post.setCategories [A, B])).2.2.setCategories
            [B, C])).2.2.id).map (fun c => c.name)).Perm [B, C] ∧
    (∃ a ∈ (DatabaseManager.savePost
          (DatabaseManager.savePost db (post.setCategories [A, B])).2.1
          ((DatabaseManager.savePost db (post.setCategories [A, B])).2.2.setCategories
            [B, C])).2.1.categories.rows,
      a.name = A ∧
      ((DatabaseManager.savePost (DatabaseManager.savePost db (post.setCategories [A, B])).2.1
          ((DatabaseManager.savePost db (post.setCategories [A, B])).2.2.setCategories
            [B, C])).2.2.id, a.id) ∉
        (DatabaseManager.savePost (DatabaseManager.savePost db (post.setCategories [A, B])).2.1
          ((DatabaseManager.savePost db (post.setCategories [A, B])).2.2.setCategories
            [B, C])).2.1.post_categories) ∧
    (∃ b ∈ (DatabaseManager.savePost
          (DatabaseManager.savePost db (post.setCategories [A, B])).2.1
          ((DatabaseManager.savePost db (post.setCategories [A, B])).2.2.setCategories
            [B, C])).2.1.categories.rows,
      b.name = B ∧
      (DatabaseManager.savePost (DatabaseManager.savePost db (post.setCategories [A, B])).2.1
          ((DatabaseManager.savePost db (post.setCategories [A, B])).2.2.setCategories
            [B, C])).2.1.post_categories.count
        ((DatabaseManager.savePost (DatabaseManager.savePost db (post.setCategories [A, B])).2.1
          ((DatabaseManager.savePost db (post.setCategories [A, B])).2.2.setCategories
            [B, C])).2.2.id, b.id) = 1) ∧
    (DatabaseManager.savePost (DatabaseManager.savePost db (post.setCategories [A, B])).2.1
        ((DatabaseManager.savePost db (post.setCategories [A, B])).2.2.setCategories
          [B, C])).2.2.id =
      (DatabaseManager.savePost db (post.setCategories [A, B])).2.2.id := by
  obtain ⟨-, hc, -, hpc, -⟩ := hwf
  -- the first save
  have hopen := DatabaseManager.savePost_isOpen db (post.setCategories [A, B]) hok1
  have hcat1 := DatabaseManager.savePost_categories db (post.setCategories [A, B]) hok1
  have hinv1 := replaceTerms_inv db.categories db.post_categories
    (DatabaseManager.savePost db (post.setCategories [A, B])).2.2.id [A, B] hc hpc
  have hopen1 : (DatabaseManager.savePost db (post.setCategories [A, B])).2.1.isOpen = true := by
    rw [DatabaseManager.savePost_isOpen_after]; exact hopen
  have hne1 : (post.setCategories [A, B]).categories ≠ [] := by simp [Post.setCategories]
  rw [if_pos hne1] at hcat1
  have hcats1 : (post.setCategories [A, B]).categories = [A, B] := rfl
  rw [hcats1] at hcat1
  rw [← hcat1] at hinv1
  obtain ⟨hwf1, hnd1, hrows1, -⟩ := hinv1
  dsimp only at hwf1 hnd1 hrows1
  -- the id after the first save is not -1
  have hid1 : (DatabaseManager.savePost db (post.setCategories [A, B])).2.2.id ≠ -1 := by
    rcases DatabaseManager.savePost_cases db (post.setCategories [A, B]) with
      ⟨h0, -⟩ | ⟨-, hp, -, h1⟩ | ⟨-, -, h1⟩
    · rw [hopen] at h0; cases h0
    · rw [h1]; dsimp only; omega
    · rw [h1]
      dsimp only
      have hk := nextRowid_pos (db.posts.map (fun r => r.id)) db.posts_seq
      split_ifs with hm
      · simp only [Post.setId]; omega
      · exact hm
  generalize DatabaseManager.savePost db (post.setCategories [A, B]) = s1 at *
  obtain ⟨ok1, db1, p1⟩ := s1
  dsimp only at hopen1 hwf1 hnd1 hrows1 hid1 hok2 ⊢
  -- the second save
  have hcat2 := DatabaseManager.savePost_categories db1 (p1.setCategories [B, C]) hok2
  have hinv2 := replaceTerms_inv db1.categories db1.post_categories
    (DatabaseManager.savePost db1 (p1.setCategories [B, C])).2.2.id [B, C] hwf1 hnd1
  have hopen2 : (DatabaseManager.savePost db1 (p1.setCategories [B, C])).2.1.isOpen = true := by
    rw [DatabaseManager.savePost_isOpen_after]; exact hopen1
  have hne2 : (p1.setCategories [B, C]).categories ≠ [] := by simp [Post.setCategories]
  rw [if_pos hne2] at hcat2
  have hcats2 : (p1.setCategories [B, C]).categories = [B, C] := rfl
  rw [hcats2] at hcat2
  have hsub : ∀ c ∈ db1.categories.rows,
      c ∈ (DatabaseManager.savePost db1 (p1.setCategories [B, C])).2.1.categories.rows := by
    intro c hmem
    have := replaceTerms_rows db1.categories db1.post_categories
      (DatabaseManager.savePost db1 (p1.setCategories [B, C])).2.2.id [B, C] c hmem
    rw [← hcat2] at this
    exact this
  have hid2 : (DatabaseManager.savePost db1 (p1.setCategories [B, C])).2.2.id = p1.id := by
    rcases DatabaseManager.savePost_cases db1 (p1.setCategories [B, C]) with
      ⟨-, h1⟩ | ⟨-, -, -, h1⟩ | ⟨-, -, h1⟩
    · rw [h1]; rfl
    · rw [h1]; rfl
    · rw [h1]
      dsimp only
      rw [if_neg (by simpa [Post.setCategories] using hid1)]
      rfl
  rw [← hcat2] at hinv2
  have hmemnames := hinv2.mem_names
  obtain ⟨hwf2, hnd2, hrows2, hrel2⟩ := hinv2
  dsimp only at hwf2 hnd2 hrows2 hrel2 hmemnames
  refine ⟨?_, ?_, ?_, hid2⟩
  · unfold DatabaseManager.getCategoriesForPost
    rw [hopen2]
    rw [List.perm_ext_iff_of_nodup (nodup_names_termsForPost _ hwf2 hnd2)
      (by simp [hBC] : [B, C].Nodup)]
    exact hmemnames
  · obtain ⟨a, ha, han⟩ := List.mem_map.mp (hrows1 A (by simp))
    refine ⟨a, hsub a ha, han, ?_⟩
    intro hmem
    obtain ⟨c, hcm, hci, hcn⟩ := (hrel2 a.id).mp hmem
    have hca := List.inj_on_of_nodup_map hwf2.1 hcm (hsub a ha) hci
    rw [hca, han] at hcn
    simp only [List.mem_cons, List.mem_singleton, List.not_mem_nil, or_false] at hcn
    rcases hcn with h | h
    · exact hAB h
    · exact hAC h
  · obtain ⟨b, hb, hbn⟩ := List.mem_map.mp (hrows2 B (by simp))
    refine ⟨b, hb, hbn, count_pair_eq_one hnd2 ?_⟩
    exact (hrel2 b.id).mpr ⟨b, hb, rfl, by simp [hbn]⟩

/-- C4 on the open, empty store with a fresh post titled `Hello` and the names
`A`, `B`, `C`. -/
theorem C4_resave_replaces_category_set_witness :
    ((DatabaseManager.getCategoriesForPost
        (DatabaseManager.savePost
          (DatabaseManager.savePost ⟨true, [], 0, ⟨[], 0⟩, ⟨[], 0⟩, [], []⟩
            (Post.setCategories { Post.default none with title := "Hello" } ["A", "B"])).2.1
          ((DatabaseManager.savePost ⟨true, [], 0, ⟨[], 0⟩, ⟨[], 0⟩, [], []⟩
            (Post.setCategories { Post.default none with title := "Hello" }
              ["A", "B"])).2.2.setCategories ["B", "C"])).2.1
        (DatabaseManager.savePost
          (DatabaseManager.savePost ⟨true, [], 0, ⟨[], 0⟩, ⟨[], 0⟩, [], []⟩
            (Post.setCategories { Post.default none with title := "Hello" } ["A", "B"])).2.1
          ((DatabaseManager.savePost ⟨true, [], 0, ⟨[], 0⟩, ⟨[], 0⟩, [], []⟩
            (Post.setCategories { Post.default none with title := "Hello" }
              ["A", "B"])).2.2.setCategories ["B", "C"])).2.2.id).map
      (fun c => c.name)).Perm ["B", "C"] :=
  (C4_resave_replaces_category_set ⟨true, [], 0, ⟨[], 0⟩, ⟨[], 0⟩, [], []⟩
    ⟨by decide, ⟨by decide, by decide⟩, ⟨by decide, by decide⟩, by decide, by decide⟩
    { Post.default none with title := "Hello" } "A" "B" "C" (by decide) (by decide) (by decide)
    (by decide) (by decide)).1

/-! ## C5: insert or update -/

/-- The path of `savePost` for a post whose id is unset: when the call succeeds,
one row is appended under a fresh key, which is at least 1 and becomes the id
of the post. -/
theorem DatabaseManager.savePost_of_unset_id (db : Database) (post : Post)
    (hok : (DatabaseManager.savePost db post).1 = true) (hid : post.id = -1) :
    (DatabaseManager.savePost db post).2.2.id =
      nextRowid (db.posts.map (fun r => r.id)) db.posts_seq ∧
    1 ≤ (DatabaseManager.savePost db post).2.2.id ∧
    (DatabaseManager.savePost db post).2.1.posts =
      db.posts ++ [DatabaseManager.rowOfPost (DatabaseManager.savePost db post).2.2.id post] := by
  rcases DatabaseManager.savePost_cases db post with ⟨-, h0⟩ | ⟨-, hp, -, -⟩ | ⟨-, -, h1⟩
  · rw [h0] at hok; cases hok
  · omega
  · rw [h1]
    dsimp only
    rw [(DatabaseManager.saveRelations_frame _ _).2.1]
    simp only [hid, if_true, Post.setId]
    exact ⟨trivial, nextRowid_pos _ _, rfl⟩

/-- C5, at the failing input. On the open, empty store, `savePost` of a post with
local id 7, title `Hello` and the category `News` succeeds and inserts one row,
whose key is 1; the local id of the post is still 7, no row has that key, and
the relation row of the post is attached to 7, not to the key of the new row. -/
theorem C5_insert_for_unknown_id_does_not_assign_key :
    (DatabaseManager.savePost ⟨true, [], 0, ⟨[], 0⟩, ⟨[], 0⟩, [], []⟩
        { Post.default none with id := 7, title := "Hello", categories := ["News"] }).1 = true ∧
    (DatabaseManager.savePost ⟨true, [], 0, ⟨[], 0⟩, ⟨[], 0⟩, [], []⟩
        { Post.default none with id := 7, title := "Hello", categories := ["News"] }).2.1.posts.map
      (fun r => r.id) = [1] ∧
    (DatabaseManager.savePost ⟨true, [], 0, ⟨[], 0⟩, ⟨[], 0⟩, [], []⟩
        { Post.default none with id := 7, title := "Hello", categories := ["News"] }).2.2.id = 7 ∧
    (DatabaseManager.savePost ⟨true, [], 0, ⟨[], 0⟩, ⟨[], 0⟩, [], []⟩
        { Post.default none with id := 7, title := "Hello",
                                   categories := ["News"] }).2.1.post_categories = [(7, 1)] := by
  decide

/-! ## C6: the remote id of a stored post -/

/-- C6, counterexample. The store holds post 1 with remote id 42; `savePost` of a
post with local id 1 and remote id -1 succeeds and leaves the row with remote
id -1. -/
theorem C6_savePost_overwrites_remote_id :
    (DatabaseManager.savePost
        ⟨true, [⟨1, 42, "Hello", "", "", none, "", 1, ""⟩], 1, ⟨[], 0⟩, ⟨[], 0⟩, [], []⟩
        { Post.default none with id := 1, title := "Hello" }).1 = true ∧
    (DatabaseManager.savePost
        ⟨true, [⟨1, 42, "Hello", "", "", none, "", 1, ""⟩], 1, ⟨[], 0⟩, ⟨[], 0⟩, [], []⟩
        { Post.default none with id := 1, title := "Hello" }).2.1.posts.map
      (fun r => (r.id, r.remote_id)) = [(1, -1)] := by
  decide

/-- C6, amended. `savePost` writes the remote id the post carries. So when the
post written carries a present remote id, a stored post whose remote id is
present before `savePost` has a present remote id after it; and the same holds
for `BlogClient::onPostCreated` and `BlogClient::onPostUpdated` when the
response carries a present remote id. -/
theorem C6_remote_id_stays_present_when_written_post_has_one (db : Database) (c : BlogClient)
    (post : Post) (hr : post.remoteId > 0) (i : Int) :
    ((∃ r ∈ db.posts, r.id = i ∧ r.remote_id > 0) →
      ∃ r ∈ (DatabaseManager.savePost db post).2.1.posts, r.id = i ∧ r.remote_id > 0) ∧
    ((∃ r ∈ c.db.posts, r.id = i ∧ r.remote_id > 0) →
      (∃ r ∈ (c.onPostCreated post).db.posts, r.id = i ∧ r.remote_id > 0) ∧
      (∃ r ∈ (c.onPostUpdated post).db.posts, r.id = i ∧ r.remote_id > 0)) := by
  refine ⟨DatabaseManager.savePost_keeps_remote db post hr i, ?_⟩
  intro h
  unfold BlogClient.onPostCreated BlogClient.onPostUpdated
  dsimp only
  cases c.m_currentPost with
  | none =>
    exact ⟨DatabaseManager.savePost_keeps_remote c.db post hr i h,
      DatabaseManager.savePost_keeps_remote c.db post hr i h⟩
  | some cur =>
    exact ⟨DatabaseManager.savePost_keeps_remote c.db (post.setId cur.id) hr i h,
      DatabaseManager.savePost_keeps_remote c.db (post.setId cur.id) hr i h⟩

/-- C6 at a store that holds post 1 with remote id 42, written with remote id 43. -/
theorem C6_remote_id_stays_present_when_written_post_has_one_witness :
    ∃ r ∈ (DatabaseManager.savePost
        ⟨true, [⟨1, 42, "Hello", "", "", none, "", 1, ""⟩], 1, ⟨[], 0⟩, ⟨[], 0⟩, [], []⟩
        { Post.default none with id := 1, remoteId := 43, title := "Hello" }).2.1.posts,
      r.id = 1 ∧ r.remote_id > 0 :=
  (C6_remote_id_stays_present_when_written_post_has_one
    ⟨true, [⟨1, 42, "Hello", "", "", none, "", 1, ""⟩], 1, ⟨[], 0⟩, ⟨[], 0⟩, [], []⟩
    ⟨⟨true, [], 0, ⟨[], 0⟩, ⟨[], 0⟩, [], []⟩, ⟨"", "", ""⟩, none, false⟩
    { Post.default none with id := 1, remoteId := 43, title := "Hello" } (by decide) 1).1
    ⟨⟨1, 42, "Hello", "", "", none, "", 1, ""⟩, by decide, by decide, by decide⟩

/-! ## C8: reconciliation of a create response -/

/-- C8, counterexample. The current post was never saved (its local id is -1) and
the store is open and empty. After `onPostCreated` with a response of remote id
42 the local id of the current post is still -1, and the only row of the store
has key 1: the store holds no row under the local id of the current post. -/
theorem C8_unsaved_current_post_gets_no_row :
    ((BlogClient.mk ⟨true, [], 0, ⟨[], 0⟩, ⟨[], 0⟩, [], []⟩ ⟨"", "", ""⟩
        (some (Post.default none)) false).onPostCreated
      ((Post.new (-1) "Hello" "" "" none "" Post.Status.Published).setRemoteId 42)).m_currentPost.map
        (fun p => (p.id, p.remoteId)) = some (-1, 42) ∧
    ((BlogClient.mk ⟨true, [], 0, ⟨[], 0⟩, ⟨[], 0⟩, [], []⟩ ⟨"", "", ""⟩
        (some (Post.default none)) false).onPostCreated
      ((Post.new (-1) "Hello" "" "" none "" Post.Status.Published).setRemoteId 42)).db.posts.map
        (fun r => (r.id, r.remote_id)) = [(1, 42)] := by
  decide

/-- With the API settings present, the sync of a current post that has a remote
id and is Published calls `updatePost`, which sends a PUT to the base URL
followed by `posts/` and the decimal remote id. -/
theorem BlogClient.sync_issues_update (settings : QSettings) (c : BlogClient) (p : Post)
    (hcur : c.m_currentPost = some p)
    (hu : settings.apiUrl ≠ "") (hn : settings.username ≠ "") (hp : settings.password ≠ "")
    (h : p.hasRemoteId = true ∧ p.status = Post.Status.Published) :
    ∃ req, (c.on_actionSync_triggered settings).2 = SyncAction.updatePost p (Issued.sent req) ∧
      req.method = HttpMethod.PUT ∧
      req.url = (c.api.setApiUrl settings.apiUrl).m_apiUrl ++ "posts/" ++
        QString.number p.remoteId := by
  rw [BlogClient.on_actionSync_triggered_eq settings c p hcur hu hn hp]
  dsimp only
  rw [if_pos h]
  exact ⟨_, congrArg _ (WordPressAPI.updatePost_sent _ c.db p
    (WordPressAPI.setApiUrl_ne_empty c.api settings.apiUrl hu) hn hp h.1), rfl, rfl⟩

/-- C8, amended. Let the create response carry the remote id `r > 0`. After
`onPostCreated` the current post is the one before with remote id `r` (so
`hasRemoteId` holds and the local id is unchanged); when the post keys of the
store are unique, the current post has a row in it and the write of
`onPostCreated` succeeds, the store holds exactly one row under that local
id, and the remote id of that row is `r`; and when the
current post is Published, a following sync with the API settings present
calls `updatePost`, which sends a PUT to the base URL followed by `posts/` and
the decimal `r`. -/
theorem C8_create_response_reconciles_persisted_post (c : BlogClient) (cur post : Post)
    (settings : QSettings) (hcur : c.m_currentPost = some cur) (hr : post.remoteId > 0)
    (hu : settings.apiUrl ≠ "") (hn : settings.username ≠ "") (hp : settings.password ≠ "") :
    (c.onPostCreated post).m_currentPost = some (cur.setRemoteId post.remoteId) ∧
    (cur.setRemoteId post.remoteId).hasRemoteId = true ∧
    (cur.setRemoteId post.remoteId).id = cur.id ∧
    ((DatabaseManager.savePost c.db (post.setId cur.id)).1 = true →
      (c.db.posts.map (fun r => r.id)).Nodup → cur.id > 0 →
      (∃ r ∈ c.db.posts, r.id = cur.id) →
      ((c.onPostCreated post).db.posts.map (fun r => r.id)).count cur.id = 1 ∧
      (∀ r ∈ (c.onPostCreated post).db.posts, r.id = cur.id → r.remote_id = post.remoteId)) ∧
    (cur.status = Post.Status.Published →
      ∃ req, ((c.onPostCreated post).on_actionSync_triggered settings).2 =
          SyncAction.updatePost (cur.setRemoteId post.remoteId) (Issued.sent req) ∧
        req.method = HttpMethod.PUT ∧
        req.url = ((c.onPostCreated post).api.setApiUrl settings.apiUrl).m_apiUrl ++ "posts/" ++
          QString.number post.remoteId) := by
  have hcur2 : (c.onPostCreated post).m_currentPost = some (cur.setRemoteId post.remoteId) := by
    unfold BlogClient.onPostCreated
    rw [hcur]
    rfl
  have hhas : (cur.setRemoteId post.remoteId).hasRemoteId = true := by
    simp [Post.hasRemoteId, Post.setRemoteId, hr]
  refine ⟨hcur2, hhas, rfl, ?_, ?_⟩
  · intro hok hkeys hpos hrow
    have hdb : (c.onPostCreated post).db.posts =
        c.db.posts.map (fun r =>
          if r.id = cur.id then DatabaseManager.rowOfPost r.id (post.setId cur.id) else r) := by
      unfold BlogClient.onPostCreated
      rw [hcur]
      dsimp only
      rcases DatabaseManager.savePost_cases c.db (post.setId cur.id) with
        ⟨-, h0⟩ | ⟨-, -, -, h2⟩ | ⟨-, hne, -⟩
      · rw [h0] at hok; cases hok
      · rw [h2]
        exact (DatabaseManager.saveRelations_frame _ _).2.1
      · exact absurd ⟨hpos, hrow⟩ hne
    have hids : (c.onPostCreated post).db.posts.map (fun r => r.id) =
        c.db.posts.map (fun r => r.id) := by
      rw [hdb, List.map_map]
      apply List.map_congr_left
      intro r _
      simp only [Function.comp]
      split_ifs <;> rfl
    refine ⟨?_, ?_⟩
    · rw [hids]
      obtain ⟨r, hmem, hid⟩ := hrow
      exact List.count_eq_one_of_mem hkeys (List.mem_map.mpr ⟨r, hmem, hid⟩)
    · intro r hmem hid
      rw [hdb] at hmem
      obtain ⟨r0, -, hr0⟩ := List.mem_map.mp hmem
      by_cases h0 : r0.id = cur.id
      · rw [if_pos h0] at hr0
        rw [← hr0]
        rfl
      · rw [if_neg h0] at hr0
        rw [hr0] at h0
        exact absurd hid h0
  · intro hpub
    exact BlogClient.sync_issues_update settings (c.onPostCreated post)
      (cur.setRemoteId post.remoteId) hcur2 hu hn hp ⟨hhas, hpub⟩

/-- C8 at a store that holds the current post under key 1 and a response with
remote id 42. -/
theorem C8_create_response_reconciles_persisted_post_witness :
    (((BlogClient.mk
          ⟨true, [⟨1, -1, "Hello", "", "", none, "", 1, ""⟩], 1, ⟨[], 0⟩, ⟨[], 0⟩, [], []⟩
          ⟨"", "", ""⟩
          (some { Post.default none with id := 1, title := "Hello",
                                           status := Post.Status.Published })
          true).onPostCreated
        ((Post.new (-1) "Hello" "" "" none "" Post.Status.Published).setRemoteId
          42)).db.posts.map (fun r => r.id)).count 1 = 1 :=
  ((C8_create_response_reconciles_persisted_post
    (BlogClient.mk
      ⟨true, [⟨1, -1, "Hello", "", "", none, "", 1, ""⟩], 1, ⟨[], 0⟩, ⟨[], 0⟩, [], []⟩
      ⟨"", "", ""⟩
      (some { Post.default none with id := 1, title := "Hello",
                                       status := Post.Status.Published })
      true)
    { Post.default none with id := 1, title := "Hello", status := Post.Status.Published }
    ((Post.new (-1) "Hello" "" "" none "" Post.Status.Published).setRemoteId 42)
    ⟨"https://blog.example/", "u", "p"⟩
    rfl (by decide) (by decide) (by decide) (by decide)).2.2.2.1
    (by decide) (by decide) (by decide)
    ⟨⟨1, -1, "Hello", "", "", none, "", 1, ""⟩, by decide, by decide⟩).1

/-! ## Lemmas on the response handlers -/

/-- For a status code in [200,300) and a body that is a JSON object, the shared
body of the two handlers emits the success signal for the post built from the
object. -/
theorem WordPressAPI.onPostReply_object (failed : String) (success : Post → Signal)
    (clock : Clock) (db : Database) (reply : QNetworkReply) (jsonObj : QJsonObject)
    (hs : 200 ≤ reply.statusCode ∧ reply.statusCode < 300)
    (hd : reply.document = QJsonDocument.object jsonObj) :
    WordPressAPI.onPostReply failed success clock db (some reply) =
      success (WordPressAPI.postOfResponse clock db jsonObj) := by
  have hns : ¬ (reply.statusCode < 200 ∨ reply.statusCode ≥ 300) := by omega
  unfold WordPressAPI.onPostReply
  simp only []
  rw [if_neg hns, hd]

/-- For a status code outside [200,300) the shared body of the two handlers emits
`error` with the text of the HTTP failure. -/
theorem WordPressAPI.onPostReply_http_failure (failed : String) (success : Post → Signal)
    (clock : Clock) (db : Database) (reply : QNetworkReply)
    (hs : reply.statusCode < 200 ∨ reply.statusCode ≥ 300) :
    WordPressAPI.onPostReply failed success clock db (some reply) =
      Signal.error (WordPressAPI.httpErrorMessage failed reply) := by
  unfold WordPressAPI.onPostReply
  simp only []
  rw [if_pos hs]

/-- The fields of the post built from a response object that do not depend on
the term tables. -/
theorem WordPressAPI.postOfResponse_fields (clock : Clock) (db : Database)
    (jsonObj : QJsonObject) :
    (WordPressAPI.postOfResponse clock db jsonObj).title =
      (if jsonObj.contains "title" && (jsonObj.value "title").isObject then
        ((jsonObj.value "title").toObject.value "rendered").toString
       else "未知标题") ∧
    (WordPressAPI.postOfResponse clock db jsonObj).content =
      (if jsonObj.contains "content" && (jsonObj.value "content").isObject then
        ((jsonObj.value "content").toObject.value "rendered").toString
       else "") ∧
    (WordPressAPI.postOfResponse clock db jsonObj).excerpt =
      (if jsonObj.contains "excerpt" && (jsonObj.value "excerpt").isObject then
        ((jsonObj.value "excerpt").toObject.value "rendered").toString
       else "") ∧
    (WordPressAPI.postOfResponse clock db jsonObj).publishDate =
      (if jsonObj.contains "date" then clock.fromStringISODate (jsonObj.value "date").toString
       else clock.currentDateTime) ∧
    (WordPressAPI.postOfResponse clock db jsonObj).author = (jsonObj.value "author").toString ∧
    (WordPressAPI.postOfResponse clock db jsonObj).status =
      (if (jsonObj.value "status").toString = "publish" then Post.Status.Published
       else Post.Status.Draft) ∧
    (WordPressAPI.postOfResponse clock db jsonObj).featuredImageUrl = "" ∧
    (WordPressAPI.postOfResponse clock db jsonObj).featureMediaId = -1 := by
  unfold WordPressAPI.postOfResponse
  simp only [Post.new, Post.setRemoteId]
  split_ifs <;> exact ⟨rfl, rfl, rfl, rfl, rfl, rfl, rfl, rfl⟩

theorem QJsonObject.value_of_not_contains (o : QJsonObject) (key : String)
    (h : o.contains key = false) : o.value key = QJsonValue.undefined := by
  unfold QJsonObject.value
  unfold QJsonObject.contains at h
  have hn : o.find? (fun kv => decide (kv.1 = key)) = none := by
    rw [List.find?_eq_none]
    intro x hx hk
    have : o.any (fun kv => decide (kv.1 = key)) = true := List.any_eq_true.mpr ⟨x, hx, hk⟩
    rw [h] at this
    cases this
  rw [hn]

/-! ## C11: a response object that lacks fields -/

/-- C11, counterexample. For status 200 and the body `{}`, which has no `id`,
`onPostCreated` emits `postCreated` and `onPostUpdated` emits `postUpdated`,
with a post whose remote id is 0 and whose title is the fixed fallback; no
error is emitted. -/
theorem C11_empty_object_is_accepted :
    WordPressAPI.onPostCreated ⟨some 1000, fun _ => none⟩
        ⟨true, [], 0, ⟨[], 0⟩, ⟨[], 0⟩, [], []⟩ (some ⟨200, QJsonDocument.object []⟩) =
      Signal.postCreated ((Post.new (-1) "未知标题" "" "" (some 1000) ""
        Post.Status.Draft).setRemoteId 0) ∧
    WordPressAPI.onPostUpdated ⟨some 1000, fun _ => none⟩
        ⟨true, [], 0, ⟨[], 0⟩, ⟨[], 0⟩, [], []⟩ (some ⟨200, QJsonDocument.object []⟩) =
      Signal.postUpdated ((Post.new (-1) "未知标题" "" "" (some 1000) ""
        Post.Status.Draft).setRemoteId 0) := by
  constructor <;> rfl

/-- C11, amended. For a status code in [200,300) and a body that is a JSON
object, the handlers `onPostCreated` and `onPostUpdated` emit the success
signal, whatever the object lacks: without an `id` the post has remote id 0,
so `hasRemoteId` is false, and without a `title` its title is the fixed
fallback text. -/
theorem C11_object_response_is_never_rejected (clock : Clock) (db : Database)
    (reply : QNetworkReply) (jsonObj : QJsonObject)
    (hs : 200 ≤ reply.statusCode ∧ reply.statusCode < 300)
    (hd : reply.document = QJsonDocument.object jsonObj) :
    WordPressAPI.onPostCreated clock db (some reply) =
      Signal.postCreated (WordPressAPI.postOfResponse clock db jsonObj) ∧
    WordPressAPI.onPostUpdated clock db (some reply) =
      Signal.postUpdated (WordPressAPI.postOfResponse clock db jsonObj) ∧
    (jsonObj.contains "id" = false →
      (WordPressAPI.postOfResponse clock db jsonObj).remoteId = 0 ∧
      (WordPressAPI.postOfResponse clock db jsonObj).hasRemoteId = false) ∧
    (jsonObj.contains "title" = false →
      (WordPressAPI.postOfResponse clock db jsonObj).title = "未知标题") := by
  refine ⟨WordPressAPI.onPostReply_object _ _ clock db reply jsonObj hs hd,
    WordPressAPI.onPostReply_object _ _ clock db reply jsonObj hs hd, ?_, ?_⟩
  · intro hid
    have h0 : (WordPressAPI.postOfResponse clock db jsonObj).remoteId = 0 := by
      rw [(WordPressAPI.postOfResponse_ids clock db jsonObj).2,
        QJsonObject.value_of_not_contains jsonObj "id" hid]
      rfl
    refine ⟨h0, ?_⟩
    unfold Post.hasRemoteId
    rw [h0]
    rfl
  · intro ht
    rw [(WordPressAPI.postOfResponse_fields clock db jsonObj).1, ht]
    rfl

/-- C11 at status 201 and a body that has a title and no id. -/
theorem C11_object_response_is_never_rejected_witness :
    WordPressAPI.onPostCreated ⟨some 1000, fun _ => none⟩
        ⟨true, [], 0, ⟨[], 0⟩, ⟨[], 0⟩, [], []⟩
        (some ⟨201, QJsonDocument.object
          [("title", QJsonValue.object [("rendered", QJsonValue.string "Hello")])]⟩) =
      Signal.postCreated (WordPressAPI.postOfResponse ⟨some 1000, fun _ => none⟩
        ⟨true, [], 0, ⟨[], 0⟩, ⟨[], 0⟩, [], []⟩
        [("title", QJsonValue.object [("rendered", QJsonValue.string "Hello")])]) :=
  (C11_object_response_is_never_rejected ⟨some 1000, fun _ => none⟩
    ⟨true, [], 0, ⟨[], 0⟩, ⟨[], 0⟩, [], []⟩
    ⟨201, QJsonDocument.object
      [("title", QJsonValue.object [("rendered", QJsonValue.string "Hello")])]⟩
    [("title", QJsonValue.object [("rendered", QJsonValue.string "Hello")])]
    (by decide) rfl).1

/-! ## C12: the text of an HTTP failure -/

/-- The text of an HTTP failure, by cases on the body: with a `message` key the
text of the message follows the status code, otherwise nothing does. -/
theorem WordPressAPI.httpErrorMessage_cases (failed : String) (reply : QNetworkReply) :
    (∀ o, reply.document = QJsonDocument.object o → o.contains "message" = true →
      WordPressAPI.httpErrorMessage failed reply =
        failed ++ QString.number reply.statusCode ++ "\n错误信息: " ++
          (o.value "message").toString) ∧
    ((∀ o, reply.document = QJsonDocument.object o → o.contains "message" = false) →
      WordPressAPI.httpErrorMessage failed reply = failed ++ QString.number reply.statusCode) := by
  unfold WordPressAPI.httpErrorMessage
  refine ⟨?_, ?_⟩
  · intro o hd hm
    simp only [hd, hm, if_true]
  · intro h
    cases hd : reply.document with
    | parseError e => rfl
    | array a => rfl
    | object o => simp only [h o hd, Bool.false_eq_true, if_false]

/-- The decimal text of the status code is part of the text of an HTTP failure. -/
theorem WordPressAPI.httpErrorMessage_has_status (failed : String) (reply : QNetworkReply) :
    (QString.number reply.statusCode).data <:+:
      (WordPressAPI.httpErrorMessage failed reply).data := by
  unfold WordPressAPI.httpErrorMessage
  cases reply.document with
  | parseError e =>
    simp only [String.data_append]
    exact (List.suffix_append _ _).isInfix
  | array a =>
    simp only [String.data_append]
    exact (List.suffix_append _ _).isInfix
  | object o =>
    simp only []
    split_ifs
    · refine ⟨failed.data, ("\n错误信息: " ++ (o.value "message").toString).data, ?_⟩
      simp only [String.data_append, List.append_assoc]
    · simp only [String.data_append]
      exact (List.suffix_append _ _).isInfix

/-- C12. For a status code `s` outside [200,300) and every body, `onPostCreated`
and `onPostUpdated` emit `error` with a text that contains the decimal text of
`s`; when the body is a JSON object with a `message` key the text is the fixed
text, the decimal `s`, a label and the text of the message, which it therefore
contains; in every other case the text is the fixed text followed by the
decimal `s` and carries nothing of the body. -/
theorem C12_error_text_has_status_and_message (clock : Clock) (db : Database)
    (reply : QNetworkReply) (hs : reply.statusCode < 200 ∨ reply.statusCode ≥ 300) :
    (∃ msg, WordPressAPI.onPostCreated clock db (some reply) = Signal.error msg ∧
      (QString.number reply.statusCode).data <:+: msg.data) ∧
    (∃ msg, WordPressAPI.onPostUpdated clock db (some reply) = Signal.error msg ∧
      (QString.number reply.statusCode).data <:+: msg.data) ∧
    (∀ o, reply.document = QJsonDocument.object o → o.contains "message" = true →
      (∃ msg, WordPressAPI.onPostCreated clock db (some reply) = Signal.error msg ∧
        msg = "创建文章失败，HTTP错误: " ++ QString.number reply.statusCode ++ "\n错误信息: " ++
          (o.value "message").toString ∧
        (o.value "message").toString.data <:+ msg.data) ∧
      (∃ msg, WordPressAPI.onPostUpdated clock db (some reply) = Signal.error msg ∧
        msg = "更新文章失败，HTTP错误: " ++ QString.number reply.statusCode ++ "\n错误信息: " ++
          (o.value "message").toString ∧
        (o.value "message").toString.data <:+ msg.data)) ∧
    ((∀ o, reply.document = QJsonDocument.object o → o.contains "message" = false) →
      WordPressAPI.onPostCreated clock db (some reply) =
        Signal.error ("创建文章失败，HTTP错误: " ++ QString.number reply.statusCode) ∧
      WordPressAPI.onPostUpdated clock db (some reply) =
        Signal.error ("更新文章失败，HTTP错误: " ++ QString.number reply.statusCode)) := by
  have h1 : WordPressAPI.onPostCreated clock db (some reply) =
      Signal.error (WordPressAPI.httpErrorMessage "创建文章失败，HTTP错误: " reply) :=
    WordPressAPI.onPostReply_http_failure _ _ clock db reply hs
  have h2 : WordPressAPI.onPostUpdated clock db (some reply) =
      Signal.error (WordPressAPI.httpErrorMessage "更新文章失败，HTTP错误: " reply) :=
    WordPressAPI.onPostReply_http_failure _ _ clock db reply hs
  rw [h1, h2]
  refine ⟨⟨_, rfl, WordPressAPI.httpErrorMessage_has_status _ reply⟩,
    ⟨_, rfl, WordPressAPI.httpErrorMessage_has_status _ reply⟩, ?_, ?_⟩
  · intro o hd hm
    have e1 := (WordPressAPI.httpErrorMessage_cases "创建文章失败，HTTP错误: " reply).1 o hd hm
    have e2 := (WordPressAPI.httpErrorMessage_cases "更新文章失败，HTTP错误: " reply).1 o hd hm
    refine ⟨⟨_, rfl, e1, ?_⟩, ⟨_, rfl, e2, ?_⟩⟩
    · rw [e1, String.data_append]
      exact List.suffix_append _ _
    · rw [e2, String.data_append]
      exact List.suffix_append _ _
  · intro h
    rw [(WordPressAPI.httpErrorMessage_cases "创建文章失败，HTTP错误: " reply).2 h,
      (WordPressAPI.httpErrorMessage_cases "更新文章失败，HTTP错误: " reply).2 h]
    exact ⟨rfl, rfl⟩

/-- C12 at status 403 with the body `{"message": "Forbidden"}`. -/
theorem C12_error_text_has_status_and_message_witness :
    WordPressAPI.onPostCreated ⟨some 1000, fun _ => none⟩
        ⟨true, [], 0, ⟨[], 0⟩, ⟨[], 0⟩, [], []⟩
        (some ⟨403, QJsonDocument.object [("message", QJsonValue.string "Forbidden")]⟩) =
      Signal.error "创建文章失败，HTTP错误: 403\n错误信息: Forbidden" := by
  obtain ⟨msg, h1, h2, -⟩ := ((C12_error_text_has_status_and_message ⟨some 1000, fun _ => none⟩
    ⟨true, [], 0, ⟨[], 0⟩, ⟨[], 0⟩, [], []⟩
    ⟨403, QJsonDocument.object [("message", QJsonValue.string "Forbidden")]⟩
    (Or.inr (by decide))).2.2.1 [("message", QJsonValue.string "Forbidden")] rfl rfl).1
  rw [h1, h2]
  decide

/-! ## C13, C14, C15: reconciliation of a response into the store -/

/-- A successful `savePost` of a post whose id is positive and has a row
overwrites the rows of that id, leaves every other row and the post as they
are, and adds no row. -/
theorem DatabaseManager.savePost_update_posts (db : Database) (post : Post)
    (hpos : post.id > 0) (hrow : ∃ r ∈ db.posts, r.id = post.id)
    (hok : (DatabaseManager.savePost db post).1 = true) :
    (DatabaseManager.savePost db post).2.1.posts =
      db.posts.map (fun r =>
        if r.id = post.id then DatabaseManager.rowOfPost r.id post else r) ∧
    (DatabaseManager.savePost db post).2.2 = post := by
  rcases DatabaseManager.savePost_cases db post with ⟨-, h0⟩ | ⟨-, -, -, h2⟩ | ⟨-, hne, -⟩
  · rw [h0] at hok; cases hok
  · rw [h2]
    exact ⟨(DatabaseManager.saveRelations_frame _ _).2.1, rfl⟩
  · exact absurd ⟨hpos, hrow⟩ hne

/-- C13, counterexample. The store holds row 1 (title `Old`, remote id -1), the
current post is the post of that row, and the connection is closed, so that
every statement fails. In `onPostUpdated` with the response post (title `New`,
remote id 42) the write of `savePost` fails: the store is as it was, row 1
still has the title `Old` and the remote id -1, not those of the response,
while the current post has become the response post under local id 1. -/
theorem C13_row_is_not_overwritten_when_the_write_fails :
    (DatabaseManager.savePost
        ⟨false, [⟨1, -1, "Old", "", "", none, "me", 1, ""⟩], 1, ⟨[], 0⟩, ⟨[], 0⟩, [], []⟩
        (((Post.new (-1) "New" "body" "" none "" Post.Status.Published).setRemoteId 42).setId
          1)).1 = false ∧
    ((BlogClient.mk
        ⟨false, [⟨1, -1, "Old", "", "", none, "me", 1, ""⟩], 1, ⟨[], 0⟩, ⟨[], 0⟩, [], []⟩
        ⟨"", "", ""⟩
        (some { Post.default none with id := 1, title := "Old",
                                         status := Post.Status.Published })
        true).onPostUpdated
      ((Post.new (-1) "New" "body" "" none "" Post.Status.Published).setRemoteId 42)).db.posts =
      [⟨1, -1, "Old", "", "", none, "me", 1, ""⟩] ∧
    ((BlogClient.mk
        ⟨false, [⟨1, -1, "Old", "", "", none, "me", 1, ""⟩], 1, ⟨[], 0⟩, ⟨[], 0⟩, [], []⟩
        ⟨"", "", ""⟩
        (some { Post.default none with id := 1, title := "Old",
                                         status := Post.Status.Published })
        true).onPostUpdated
      ((Post.new (-1) "New" "body" "" none "" Post.Status.Published).setRemoteId
        42)).m_currentPost =
      some (((Post.new (-1) "New" "body" "" none "" Post.Status.Published).setRemoteId
        42).setId 1) := by
  decide

/-- C13, amended. Let the current post have the positive local id `L` and a row
in the store, and let the write made by `onPostUpdated` succeed. After
`onPostUpdated` with a response post the local id of the current post is still
`L`, the table `posts` has as many rows as before, every row of id `L` carries
the title, content, excerpt, status and remote id of the response, such a row
exists, and every row of another id is as it was. -/
theorem C13_update_response_overwrites_row_of_current_post (c : BlogClient) (cur post : Post)
    (hcur : c.m_currentPost = some cur) (hpos : cur.id > 0)
    (hrow : ∃ r ∈ c.db.posts, r.id = cur.id)
    (hok : (DatabaseManager.savePost c.db (post.setId cur.id)).1 = true) :
    (c.onPostUpdated post).m_currentPost.map (fun p => p.id) = some cur.id ∧
    (c.onPostUpdated post).db.posts.length = c.db.posts.length ∧
    (c.onPostUpdated post).db.posts =
      c.db.posts.map (fun r =>
        if r.id = cur.id then DatabaseManager.rowOfPost r.id (post.setId cur.id) else r) ∧
    (∃ r ∈ (c.onPostUpdated post).db.posts, r.id = cur.id) ∧
    (∀ r ∈ (c.onPostUpdated post).db.posts, r.id = cur.id →
      r.title = post.title ∧ r.content = post.content ∧ r.excerpt = post.excerpt ∧
      r.status = post.status.toInt ∧ r.remote_id = post.remoteId) ∧
    (∀ r, r.id ≠ cur.id → (r ∈ (c.onPostUpdated post).db.posts ↔ r ∈ c.db.posts)) := by
  obtain ⟨hposts, hpost⟩ := DatabaseManager.savePost_update_posts c.db (post.setId cur.id)
    hpos hrow hok
  have hdb : (c.onPostUpdated post).db.posts =
      c.db.posts.map (fun r =>
        if r.id = cur.id then DatabaseManager.rowOfPost r.id (post.setId cur.id) else r) := by
    unfold BlogClient.onPostUpdated
    rw [hcur]
    exact hposts
  have hmc : (c.onPostUpdated post).m_currentPost = some (post.setId cur.id) := by
    unfold BlogClient.onPostUpdated
    rw [hcur]
    dsimp only
    rw [hpost]
    rfl
  refine ⟨by rw [hmc]; rfl, by rw [hdb, List.length_map], hdb, ?_, ?_, ?_⟩
  · obtain ⟨r, hmem, hid⟩ := hrow
    rw [hdb]
    refine ⟨DatabaseManager.rowOfPost r.id (post.setId cur.id), ?_, hid⟩
    exact List.mem_map.mpr ⟨r, hmem, by rw [if_pos hid]⟩
  · intro r hmem hid
    rw [hdb] at hmem
    obtain ⟨r0, -, hr0⟩ := List.mem_map.mp hmem
    by_cases h0 : r0.id = cur.id
    · rw [if_pos h0] at hr0
      rw [← hr0]
      exact ⟨rfl, rfl, rfl, rfl, rfl⟩
    · rw [if_neg h0] at hr0
      rw [hr0] at h0
      exact absurd hid h0
  · intro r hne
    rw [hdb, List.mem_map]
    constructor
    · rintro ⟨r0, hmem, hr0⟩
      by_cases h0 : r0.id = cur.id
      · rw [if_pos h0] at hr0
        rw [← hr0] at hne
        exact absurd h0 hne
      · rw [if_neg h0] at hr0
        rw [← hr0]
        exact hmem
    · intro hmem
      exact ⟨r, hmem, by rw [if_neg hne]⟩

/-- C13 at a store with the rows 1 and 2, the current post being the one of row 1. -/
theorem C13_update_response_overwrites_row_of_current_post_witness :
    ((BlogClient.mk
        ⟨true, [⟨1, 42, "Old", "", "", none, "me", 1, ""⟩,
                ⟨2, -1, "Other", "", "", none, "me", 0, ""⟩], 2, ⟨[], 0⟩, ⟨[], 0⟩, [], []⟩
        ⟨"", "", ""⟩
        (some { Post.default none with id := 1, remoteId := 42, title := "Old",
                                         status := Post.Status.Published })
        true).onPostUpdated
      ((Post.new (-1) "New" "body" "" none "" Post.Status.Published).setRemoteId
        42)).db.posts.length = 2 :=
  (C13_update_response_overwrites_row_of_current_post
    (BlogClient.mk
      ⟨true, [⟨1, 42, "Old", "", "", none, "me", 1, ""⟩,
              ⟨2, -1, "Other", "", "", none, "me", 0, ""⟩], 2, ⟨[], 0⟩, ⟨[], 0⟩, [], []⟩
      ⟨"", "", ""⟩
      (some { Post.default none with id := 1, remoteId := 42, title := "Old",
                                       status := Post.Status.Published })
      true)
    { Post.default none with id := 1, remoteId := 42, title := "Old",
                               status := Post.Status.Published }
    ((Post.new (-1) "New" "body" "" none "" Post.Status.Published).setRemoteId 42)
    rfl (by decide)
    ⟨⟨1, 42, "Old", "", "", none, "me", 1, ""⟩, by decide, by decide⟩
    (by decide)).2.1

/-- C14, counterexample. Row 1 has the author `me` and the featured-image URL
`https://blog.example/a.png`, and is the row of the current post. After
`onPostCreated`, and also after `onPostUpdated`, with the post built from the
response `{"id": 42, "title": {"rendered": "Hello"}, "author": 1}` the row has
an empty author and an empty featured-image URL. -/
theorem C14_reconciliation_blanks_author_and_image_url :
    ((BlogClient.mk
        ⟨true, [⟨1, -1, "Hello", "", "", none, "me", 1, "https://blog.example/a.png"⟩], 1,
          ⟨[], 0⟩, ⟨[], 0⟩, [], []⟩
        ⟨"", "", ""⟩
        (some { Post.default none with id := 1, title := "Hello", author := "me",
                                         featuredImageUrl := "https://blog.example/a.png" })
        true).onPostCreated
      (WordPressAPI.postOfResponse ⟨some 1000, fun _ => none⟩
        ⟨true, [⟨1, -1, "Hello", "", "", none, "me", 1, "https://blog.example/a.png"⟩], 1,
          ⟨[], 0⟩, ⟨[], 0⟩, [], []⟩
        [("id", QJsonValue.double 42),
         ("title", QJsonValue.object [("rendered", QJsonValue.string "Hello")]),
         ("author", QJsonValue.double 1)])).db.posts.map
      (fun r => (r.id, r.remote_id, r.author, r.featured_image_url)) = [(1, 42, "", "")] ∧
    ((BlogClient.mk
        ⟨true, [⟨1, -1, "Hello", "", "", none, "me", 1, "https://blog.example/a.png"⟩], 1,
          ⟨[], 0⟩, ⟨[], 0⟩, [], []⟩
        ⟨"", "", ""⟩
        (some { Post.default none with id := 1, title := "Hello", author := "me",
                                         featuredImageUrl := "https://blog.example/a.png" })
        true).onPostUpdated
      (WordPressAPI.postOfResponse ⟨some 1000, fun _ => none⟩
        ⟨true, [⟨1, -1, "Hello", "", "", none, "me", 1, "https://blog.example/a.png"⟩], 1,
          ⟨[], 0⟩, ⟨[], 0⟩, [], []⟩
        [("id", QJsonValue.double 42),
         ("title", QJsonValue.object [("rendered", QJsonValue.string "Hello")]),
         ("author", QJsonValue.double 1)])).db.posts.map
      (fun r => (r.id, r.remote_id, r.author, r.featured_image_url)) = [(1, 42, "", "")] := by
  decide

/-- C14, amended. Let the current post have a positive local id and a row in
the store, and let the write made by the slot succeed. After `onPostCreated`,
and after `onPostUpdated`, with the post built from a response object, every
row of that id has an empty featured-image URL and, as author, the text of the
`author` of the response (empty when that is not a string). In memory,
`onPostCreated` leaves the featured-image URL and the author of the current
post as they were, and `onPostUpdated` replaces them in the same way as in the
store. -/
theorem C14_reconciliation_overwrites_author_and_image_url (clock : Clock) (c : BlogClient)
    (cur : Post) (jsonObj : QJsonObject)
    (hcur : c.m_currentPost = some cur) (hpos : cur.id > 0)
    (hrow : ∃ r ∈ c.db.posts, r.id = cur.id)
    (hok : (DatabaseManager.savePost c.db
      ((WordPressAPI.postOfResponse clock c.db jsonObj).setId cur.id)).1 = true) :
    (∀ r ∈ (c.onPostCreated (WordPressAPI.postOfResponse clock c.db jsonObj)).db.posts,
      r.id = cur.id →
      r.featured_image_url = "" ∧ r.author = (jsonObj.value "author").toString) ∧
    (∀ r ∈ (c.onPostUpdated (WordPressAPI.postOfResponse clock c.db jsonObj)).db.posts,
      r.id = cur.id →
      r.featured_image_url = "" ∧ r.author = (jsonObj.value "author").toString) ∧
    (c.onPostCreated (WordPressAPI.postOfResponse clock c.db jsonObj)).m_currentPost.map
      (fun p => (p.featuredImageUrl, p.author)) = some (cur.featuredImageUrl, cur.author) ∧
    (c.onPostUpdated (WordPressAPI.postOfResponse clock c.db jsonObj)).m_currentPost.map
      (fun p => (p.featuredImageUrl, p.author)) =
        some ("", (jsonObj.value "author").toString) := by
  obtain ⟨hposts, hpost⟩ := DatabaseManager.savePost_update_posts c.db
    ((WordPressAPI.postOfResponse clock c.db jsonObj).setId cur.id) hpos hrow hok
  obtain ⟨-, -, -, -, hauthor, -, hurl, -⟩ :=
    WordPressAPI.postOfResponse_fields clock c.db jsonObj
  have hrows : ∀ r ∈ c.db.posts.map (fun r =>
      if r.id = cur.id then
        DatabaseManager.rowOfPost r.id
          ((WordPressAPI.postOfResponse clock c.db jsonObj).setId cur.id)
      else r),
      r.id = cur.id →
      r.featured_image_url = "" ∧ r.author = (jsonObj.value "author").toString := by
    intro r hmem hid
    obtain ⟨r0, -, hr0⟩ := List.mem_map.mp hmem
    by_cases h0 : r0.id = cur.id
    · rw [if_pos h0] at hr0
      rw [← hr0]
      exact ⟨hurl, hauthor⟩
    · rw [if_neg h0] at hr0
      rw [hr0] at h0
      exact absurd hid h0
  refine ⟨?_, ?_, ?_, ?_⟩
  · have hdb : (c.onPostCreated (WordPressAPI.postOfResponse clock c.db jsonObj)).db.posts =
        c.db.posts.map (fun r =>
          if r.id = cur.id then
            DatabaseManager.rowOfPost r.id
              ((WordPressAPI.postOfResponse clock c.db jsonObj).setId cur.id)
          else r) := by
      unfold BlogClient.onPostCreated
      rw [hcur]
      exact hposts
    rw [hdb]
    exact hrows
  · have hdb : (c.onPostUpdated (WordPressAPI.postOfResponse clock c.db jsonObj)).db.posts =
        c.db.posts.map (fun r =>
          if r.id = cur.id then
            DatabaseManager.rowOfPost r.id
              ((WordPressAPI.postOfResponse clock c.db jsonObj).setId cur.id)
          else r) := by
      unfold BlogClient.onPostUpdated
      rw [hcur]
      exact hposts
    rw [hdb]
    exact hrows
  · unfold BlogClient.onPostCreated
    rw [hcur]
    rfl
  · unfold BlogClient.onPostUpdated
    rw [hcur]
    dsimp only
    rw [hpost]
    simp only [Option.map_some', Post.setId, hurl, hauthor]

/-- C14 at the store and the response of the counterexample. -/
theorem C14_reconciliation_overwrites_author_and_image_url_witness :
    ((BlogClient.mk
        ⟨true, [⟨1, -1, "Hello", "", "", none, "me", 1, "https://blog.example/a.png"⟩], 1,
          ⟨[], 0⟩, ⟨[], 0⟩, [], []⟩
        ⟨"", "", ""⟩
        (some { Post.default none with id := 1, title := "Hello", author := "me",
                                         featuredImageUrl := "https://blog.example/a.png" })
        true).onPostCreated
      (WordPressAPI.postOfResponse ⟨some 1000, fun _ => none⟩
        ⟨true, [⟨1, -1, "Hello", "", "", none, "me", 1, "https://blog.example/a.png"⟩], 1,
          ⟨[], 0⟩, ⟨[], 0⟩, [], []⟩
        [("id", QJsonValue.double 42),
         ("title", QJsonValue.object [("rendered", QJsonValue.string "Hello")]),
         ("author", QJsonValue.double 1)])).m_currentPost.map
      (fun p => (p.featuredImageUrl, p.author)) = some ("https://blog.example/a.png", "me") :=
  (C14_reconciliation_overwrites_author_and_image_url ⟨some 1000, fun _ => none⟩
    (BlogClient.mk
      ⟨true, [⟨1, -1, "Hello", "", "", none, "me", 1, "https://blog.example/a.png"⟩], 1,
        ⟨[], 0⟩, ⟨[], 0⟩, [], []⟩
      ⟨"", "", ""⟩
      (some { Post.default none with id := 1, title := "Hello", author := "me",
                                       featuredImageUrl := "https://blog.example/a.png" })
      true)
    { Post.default none with id := 1, title := "Hello", author := "me",
                               featuredImageUrl := "https://blog.example/a.png" }
    [("id", QJsonValue.double 42),
     ("title", QJsonValue.object [("rendered", QJsonValue.string "Hello")]),
     ("author", QJsonValue.double 1)]
    rfl (by decide)
    ⟨⟨1, -1, "Hello", "", "", none, "me", 1, "https://blog.example/a.png"⟩,
      by decide, by decide⟩
    (by decide)).2.2.1

/-- C15, at the failing input. The connection is closed (the state after a failed
`initialize`) and the current post was never saved: local id -1, remote id -1,
title `Draft one`. For a response post with remote id 42 and title `Hello`,
`savePost` fails; all the same `onPostCreated` leaves the current post with
remote id 42, and `onPostUpdated` leaves the response post as current post. -/
theorem C15_failed_save_does_not_stop_the_slot :
    (DatabaseManager.savePost ⟨false, [], 0, ⟨[], 0⟩, ⟨[], 0⟩, [], []⟩
      (((Post.new (-1) "Hello" "" "" none "" Post.Status.Published).setRemoteId 42).setId
        (-1))).1 = false ∧
    ((BlogClient.mk ⟨false, [], 0, ⟨[], 0⟩, ⟨[], 0⟩, [], []⟩ ⟨"", "", ""⟩
        (some { Post.default none with title := "Draft one" }) false).onPostCreated
      ((Post.new (-1) "Hello" "" "" none "" Post.Status.Published).setRemoteId
        42)).m_currentPost.map (fun p => (p.remoteId, p.title)) = some (42, "Draft one") ∧
    ((BlogClient.mk ⟨false, [], 0, ⟨[], 0⟩, ⟨[], 0⟩, [], []⟩ ⟨"", "", ""⟩
        (some { Post.default none with title := "Draft one" }) false).onPostUpdated
      ((Post.new (-1) "Hello" "" "" none "" Post.Status.Published).setRemoteId
        42)).m_currentPost.map (fun p => (p.remoteId, p.title)) = some (42, "Hello") := by
  decide

/-! ## Lemmas on the request bodies -/

/-- The array of ids of `createPost` / `updatePost` is the list of the ids found
for the names, in the order of the names, each as a JSON number. -/
theorem WordPressAPI.termIdsArray_eq (isOpen : Bool) (t : TermTable) (names : List String) :
    WordPressAPI.termIdsArray isOpen t names =
      (names.filterMap (fun name => TermTable.selectIdByName isOpen t name)).map
        (fun id => QJsonValue.double id) := by
  unfold WordPressAPI.termIdsArray
  rw [List.map_filterMap]

/-- The body built alike by `createPost` and `updatePost`, entry by entry. -/
theorem WordPressAPI.postObject_eq (db : Database) (post : Post) :
    WordPressAPI.postObject db post =
      [("title", QJsonValue.object [("raw", QJsonValue.string post.title)]),
       ("content", QJsonValue.object [("raw", QJsonValue.string post.content)]),
       ("excerpt", QJsonValue.object [("raw", QJsonValue.string post.excerpt)]),
       ("status", QJsonValue.string
          (if post.status = Post.Status.Published then "publish" else "draft"))] ++
      (if (WordPressAPI.termIdsArray db.isOpen db.categories post.categories).isEmpty then []
       else [("categories", QJsonValue.array
          (WordPressAPI.termIdsArray db.isOpen db.categories post.categories))]) ++
      (if (WordPressAPI.termIdsArray db.isOpen db.tags post.tags).isEmpty then []
       else [("tags", QJsonValue.array
          (WordPressAPI.termIdsArray db.isOpen db.tags post.tags))]) := by
  have hnil : ∀ (t : TermTable), WordPressAPI.termIdsArray db.isOpen t [] = [] := fun _ => rfl
  unfold WordPressAPI.postObject
  by_cases hc : post.categories = []
  · by_cases ht : post.tags = []
    · simp [hc, ht, hnil, QJsonObject.insert, QJsonObject.contains]
    · by_cases ht2 : (WordPressAPI.termIdsArray db.isOpen db.tags post.tags).isEmpty = true
      · simp [hc, ht, ht2, hnil, QJsonObject.insert, QJsonObject.contains]
      · simp [hc, ht, ht2, hnil, QJsonObject.insert, QJsonObject.contains]
  · by_cases hc2 : (WordPressAPI.termIdsArray db.isOpen db.categories post.categories).isEmpty
        = true
    · by_cases ht : post.tags = []
      · simp [hc, ht, hc2, hnil, QJsonObject.insert, QJsonObject.contains]
      · by_cases ht2 : (WordPressAPI.termIdsArray db.isOpen db.tags post.tags).isEmpty = true
        · simp [hc, ht, hc2, ht2, hnil, QJsonObject.insert, QJsonObject.contains]
        · simp [hc, ht, hc2, ht2, hnil, QJsonObject.insert, QJsonObject.contains]
    · by_cases ht : post.tags = []
      · simp [hc, ht, hc2, hnil, QJsonObject.insert, QJsonObject.contains]
      · by_cases ht2 : (WordPressAPI.termIdsArray db.isOpen db.tags post.tags).isEmpty = true
        · simp [hc, ht, hc2, ht2, hnil, QJsonObject.insert, QJsonObject.contains]
        · simp [hc, ht, hc2, ht2, hnil, QJsonObject.insert, QJsonObject.contains]

/-- The entries of the shared body that every request carries. -/
theorem WordPressAPI.postObject_fixed_entries (db : Database) (post : Post)
    (tail : QJsonObject) :
    QJsonObject.value (WordPressAPI.postObject db post ++ tail) "title" =
      QJsonValue.object [("raw", QJsonValue.string post.title)] ∧
    QJsonObject.value (WordPressAPI.postObject db post ++ tail) "content" =
      QJsonValue.object [("raw", QJsonValue.string post.content)] ∧
    QJsonObject.value (WordPressAPI.postObject db post ++ tail) "excerpt" =
      QJsonValue.object [("raw", QJsonValue.string post.excerpt)] ∧
    QJsonObject.value (WordPressAPI.postObject db post ++ tail) "status" =
      QJsonValue.string (if post.status = Post.Status.Published then "publish" else "draft") := by
  rw [WordPressAPI.postObject_eq]
  refine ⟨?_, ?_, ?_, ?_⟩ <;> simp [QJsonObject.value, List.find?]

/-- The shared body has no `featured_media` key. -/
theorem WordPressAPI.postObject_no_featured_media (db : Database) (post : Post) :
    (WordPressAPI.postObject db post).contains "featured_media" = false := by
  rw [WordPressAPI.postObject_eq]
  unfold QJsonObject.contains
  split_ifs <;> simp

/-- The `categories` entry of the shared body: absent when the array of ids is
empty, and else that array. -/
theorem WordPressAPI.postObject_categories (db : Database) (post : Post) (tail : QJsonObject)
    (htail : QJsonObject.contains tail "categories" = false) :
    ((WordPressAPI.termIdsArray db.isOpen db.categories post.categories).isEmpty = true →
      QJsonObject.contains (WordPressAPI.postObject db post ++ tail) "categories" = false) ∧
    ((WordPressAPI.termIdsArray db.isOpen db.categories post.categories).isEmpty = false →
      QJsonObject.contains (WordPressAPI.postObject db post ++ tail) "categories" = true ∧
      QJsonObject.value (WordPressAPI.postObject db post ++ tail) "categories" =
        QJsonValue.array (WordPressAPI.termIdsArray db.isOpen db.categories post.categories)) := by
  rw [WordPressAPI.postObject_eq]
  unfold QJsonObject.contains at htail ⊢
  refine ⟨?_, ?_⟩
  · intro h
    rw [if_pos h]
    split_ifs <;> simp [htail]
  · intro h
    have hne : ¬ ((WordPressAPI.termIdsArray db.isOpen db.categories post.categories).isEmpty
        = true) := by rw [h]; decide
    rw [if_neg hne]
    refine ⟨by simp, ?_⟩
    simp [QJsonObject.value, List.find?]

/-- The `tags` entry of the shared body: absent when the array of ids is empty,
and else that array. -/
theorem WordPressAPI.postObject_tags (db : Database) (post : Post) (tail : QJsonObject)
    (htail : QJsonObject.contains tail "tags" = false) :
    ((WordPressAPI.termIdsArray db.isOpen db.tags post.tags).isEmpty = true →
      QJsonObject.contains (WordPressAPI.postObject db post ++ tail) "tags" = false) ∧
    ((WordPressAPI.termIdsArray db.isOpen db.tags post.tags).isEmpty = false →
      QJsonObject.contains (WordPressAPI.postObject db post ++ tail) "tags" = true ∧
      QJsonObject.value (WordPressAPI.postObject db post ++ tail) "tags" =
        QJsonValue.array (WordPressAPI.termIdsArray db.isOpen db.tags post.tags)) := by
  rw [WordPressAPI.postObject_eq]
  unfold QJsonObject.contains at htail ⊢
  refine ⟨?_, ?_⟩
  · intro h
    rw [if_pos h]
    split_ifs <;> simp [htail]
  · intro h
    have hne : ¬ ((WordPressAPI.termIdsArray db.isOpen db.tags post.tags).isEmpty = true) := by
      rw [h]; decide
    rw [if_neg hne]
    refine ⟨by simp, ?_⟩
    split_ifs <;> simp [QJsonObject.value, List.find?]

/-- With a base URL and both credentials set, `createPost` sends the shared body
followed by the `featured_media` entry, which is there exactly for a positive
media id. -/
theorem WordPressAPI.createPost_sent_body (api : WordPressAPI) (db : Database) (post : Post)
    (hurl : api.m_apiUrl ≠ "") (hu : api.m_username ≠ "") (hp : api.m_password ≠ "") :
    api.createPost db post =
      Issued.sent { method := HttpMethod.POST, url := api.m_apiUrl ++ "posts",
                    authorization := some api.createAuthHeader,
                    body := some (WordPressAPI.postObject db post ++
                      (if post.featureMediaId > 0 then
                        [("featured_media", QJsonValue.double post.featureMediaId)]
                       else [])),
                    finished := FinishedSlot.onPostCreated } := by
  unfold WordPressAPI.createPost
  rw [if_neg hurl]
  simp only []
  rw [if_neg (WordPressAPI.createAuthHeader_ne_empty api hu hp)]
  by_cases hm : post.featureMediaId > 0
  · rw [if_pos hm, if_pos hm]
    unfold QJsonObject.insert
    rw [WordPressAPI.postObject_no_featured_media]
    rfl
  · rw [if_neg hm, if_neg hm, List.append_nil]

theorem WordPressAPI.termIdsArray_isEmpty (isOpen : Bool) (t : TermTable)
    (names : List String) :
    (WordPressAPI.termIdsArray isOpen t names).isEmpty = true ↔
      names.filterMap (fun name => TermTable.selectIdByName isOpen t name) = [] := by
  rw [WordPressAPI.termIdsArray_eq, List.isEmpty_iff, List.map_eq_nil_iff]

/-! ## C16: the texts and the status in the request body -/

/-- C16. With a base URL and both credentials set, `createPost` sends a body
whose `title`, `content` and `excerpt` are the objects `{"raw": v}` for the
title, content and excerpt of the post, and whose `status` is `publish` for a
Published post and `draft` for a Draft; and so does `updatePost` for a post
that has a remote id. -/
theorem C16_body_wraps_texts_and_maps_status (api : WordPressAPI) (db : Database) (post : Post)
    (hurl : api.m_apiUrl ≠ "") (hu : api.m_username ≠ "") (hp : api.m_password ≠ "") :
    (∃ req body, api.createPost db post = Issued.sent req ∧ req.body = some body ∧
      QJsonObject.value body "title" = QJsonValue.object [("raw", QJsonValue.string post.title)] ∧
      QJsonObject.value body "content" =
        QJsonValue.object [("raw", QJsonValue.string post.content)] ∧
      QJsonObject.value body "excerpt" =
        QJsonValue.object [("raw", QJsonValue.string post.excerpt)] ∧
      (post.status = Post.Status.Published →
        QJsonObject.value body "status" = QJsonValue.string "publish") ∧
      (post.status = Post.Status.Draft →
        QJsonObject.value body "status" = QJsonValue.string "draft")) ∧
    (post.hasRemoteId = true →
      ∃ req body, api.updatePost db post = Issued.sent req ∧ req.body = some body ∧
        QJsonObject.value body "title" =
          QJsonValue.object [("raw", QJsonValue.string post.title)] ∧
        QJsonObject.value body "content" =
          QJsonValue.object [("raw", QJsonValue.string post.content)] ∧
        QJsonObject.value body "excerpt" =
          QJsonValue.object [("raw", QJsonValue.string post.excerpt)] ∧
        (post.status = Post.Status.Published →
          QJsonObject.value body "status" = QJsonValue.string "publish") ∧
        (post.status = Post.Status.Draft →
          QJsonObject.value body "status" = QJsonValue.string "draft")) := by
  refine ⟨?_, ?_⟩
  · obtain ⟨h1, h2, h3, h4⟩ := WordPressAPI.postObject_fixed_entries db post
      (if post.featureMediaId > 0 then
        [("featured_media", QJsonValue.double post.featureMediaId)] else [])
    refine ⟨_, _, WordPressAPI.createPost_sent_body api db post hurl hu hp, rfl, h1, h2, h3,
      ?_, ?_⟩
    · intro hs
      rw [h4, if_pos hs]
    · intro hs
      rw [h4, if_neg (by rw [hs]; decide)]
  · intro hr
    obtain ⟨h1, h2, h3, h4⟩ := WordPressAPI.postObject_fixed_entries db post []
    rw [List.append_nil] at h1 h2 h3 h4
    refine ⟨_, _, WordPressAPI.updatePost_sent api db post hurl hu hp hr, rfl, h1, h2, h3,
      ?_, ?_⟩
    · intro hs
      rw [h4, if_pos hs]
    · intro hs
      rw [h4, if_neg (by rw [hs]; decide)]

/-- C16 at a Draft titled `Hello`. -/
theorem C16_body_wraps_texts_and_maps_status_witness :
    ∃ req body, (WordPressAPI.mk "https://blog.example/wp-json/wp/v2/" "u" "p").createPost
        ⟨true, [], 0, ⟨[], 0⟩, ⟨[], 0⟩, [], []⟩
        { Post.default none with title := "Hello", content := "text" } = Issued.sent req ∧
      req.body = some body ∧
      QJsonObject.value body "title" = QJsonValue.object [("raw", QJsonValue.string "Hello")] ∧
      QJsonObject.value body "status" = QJsonValue.string "draft" := by
  obtain ⟨req, body, h1, h2, h3, -, -, -, h4⟩ := (C16_body_wraps_texts_and_maps_status
    (WordPressAPI.mk "https://blog.example/wp-json/wp/v2/" "u" "p")
    ⟨true, [], 0, ⟨[], 0⟩, ⟨[], 0⟩, [], []⟩
    { Post.default none with title := "Hello", content := "text" }
    (by decide) (by decide) (by decide)).1
  exact ⟨req, body, h1, h2, h3, h4 rfl⟩

/-! ## C17: the featured image in the request body -/

/-- The body `updatePost` sends has no `featured_media` key, whatever the media
id of the post. -/
theorem WordPressAPI.updatePost_no_featured_media (api : WordPressAPI) (db : Database)
    (post : Post) (req : QNetworkRequest) (h : api.updatePost db post = Issued.sent req) :
    req.body.map (fun o => QJsonObject.contains o "featured_media") = some false := by
  unfold WordPressAPI.updatePost at h
  dsimp only at h
  split_ifs at h
  injection h with h
  rw [← h]
  simp only [Option.map_some', WordPressAPI.postObject_no_featured_media]

/-- The body `createPost` sends has the key `featured_media` exactly for a
positive media id, and then with that id. -/
theorem WordPressAPI.createPost_featured_media (api : WordPressAPI) (db : Database)
    (post : Post) (hurl : api.m_apiUrl ≠ "") (hu : api.m_username ≠ "")
    (hp : api.m_password ≠ "") :
    ∃ req body, api.createPost db post = Issued.sent req ∧ req.body = some body ∧
      (QJsonObject.contains body "featured_media" = true ↔ post.featureMediaId > 0) ∧
      (post.featureMediaId > 0 →
        QJsonObject.value body "featured_media" = QJsonValue.double post.featureMediaId) := by
  refine ⟨_, _, WordPressAPI.createPost_sent_body api db post hurl hu hp, rfl, ?_, ?_⟩
  · have hno := WordPressAPI.postObject_no_featured_media db post
    unfold QJsonObject.contains at hno ⊢
    by_cases hm : post.featureMediaId > 0
    · simp [hm]
    · simp [hm, hno]
  · intro hm
    have hno := WordPressAPI.postObject_no_featured_media db post
    unfold QJsonObject.contains at hno
    have hnone : (WordPressAPI.postObject db post).find?
        (fun kv => decide (kv.1 = "featured_media")) = none := by
      rw [List.find?_eq_none]
      intro x hx hk
      have : (WordPressAPI.postObject db post).any
          (fun kv => decide (kv.1 = "featured_media")) = true :=
        List.any_eq_true.mpr ⟨x, hx, hk⟩
      rw [hno] at this
      cases this
    unfold QJsonObject.value
    rw [if_pos hm, List.find?_append, hnone]
    simp

/-- C17, at the failing input. The post has remote id 42 and featured-image
media id 7. The body `createPost` sends has `featured_media` equal to 7; the
body `updatePost` sends has no `featured_media` key. -/
theorem C17_update_body_lacks_featured_media :
    (∃ req body, (WordPressAPI.mk "https://blog.example/wp-json/wp/v2/" "u" "p").createPost
        ⟨true, [], 0, ⟨[], 0⟩, ⟨[], 0⟩, [], []⟩
        { Post.default none with remoteId := 42, featureMediaId := 7, title := "Hello" } =
          Issued.sent req ∧
      req.body = some body ∧
      QJsonObject.value body "featured_media" = QJsonValue.double 7) ∧
    (∃ req body, (WordPressAPI.mk "https://blog.example/wp-json/wp/v2/" "u" "p").updatePost
        ⟨true, [], 0, ⟨[], 0⟩, ⟨[], 0⟩, [], []⟩
        { Post.default none with remoteId := 42, featureMediaId := 7, title := "Hello" } =
          Issued.sent req ∧
      req.body = some body ∧
      QJsonObject.contains body "featured_media" = false) := by
  refine ⟨?_, ?_⟩
  · obtain ⟨req, body, h1, h2, -, h3⟩ := WordPressAPI.createPost_featured_media
      (WordPressAPI.mk "https://blog.example/wp-json/wp/v2/" "u" "p")
      ⟨true, [], 0, ⟨[], 0⟩, ⟨[], 0⟩, [], []⟩
      { Post.default none with remoteId := 42, featureMediaId := 7, title := "Hello" }
      (by decide) (by decide) (by decide)
    exact ⟨req, body, h1, h2, h3 (by decide)⟩
  · refine ⟨_, _, WordPressAPI.updatePost_sent
      (WordPressAPI.mk "https://blog.example/wp-json/wp/v2/" "u" "p")
      ⟨true, [], 0, ⟨[], 0⟩, ⟨[], 0⟩, [], []⟩
      { Post.default none with remoteId := 42, featureMediaId := 7, title := "Hello" }
      (by decide) (by decide) (by decide) (by decide), rfl, ?_⟩
    exact WordPressAPI.postObject_no_featured_media _ _

/-! ## C18: names that do not resolve -/

/-- The `categories` and `tags` entries of a body that is the shared body
followed by entries of other keys: the key is absent when no name resolves,
and else its value is the array of the ids found, in the order of the names. -/
theorem WordPressAPI.body_term_entries (db : Database) (post : Post) (tail : QJsonObject)
    (hc : QJsonObject.contains tail "categories" = false)
    (ht : QJsonObject.contains tail "tags" = false) :
    (post.categories.filterMap
        (fun name => TermTable.selectIdByName db.isOpen db.categories name) = [] →
      QJsonObject.contains (WordPressAPI.postObject db post ++ tail) "categories" = false) ∧
    (post.categories.filterMap
        (fun name => TermTable.selectIdByName db.isOpen db.categories name) ≠ [] →
      QJsonObject.value (WordPressAPI.postObject db post ++ tail) "categories" =
        QJsonValue.array ((post.categories.filterMap
          (fun name => TermTable.selectIdByName db.isOpen db.categories name)).map
            (fun id => QJsonValue.double id))) ∧
    (post.tags.filterMap (fun name => TermTable.selectIdByName db.isOpen db.tags name) = [] →
      QJsonObject.contains (WordPressAPI.postObject db post ++ tail) "tags" = false) ∧
    (post.tags.filterMap (fun name => TermTable.selectIdByName db.isOpen db.tags name) ≠ [] →
      QJsonObject.value (WordPressAPI.postObject db post ++ tail) "tags" =
        QJsonValue.array ((post.tags.filterMap
          (fun name => TermTable.selectIdByName db.isOpen db.tags name)).map
            (fun id => QJsonValue.double id))) := by
  obtain ⟨c1, c2⟩ := WordPressAPI.postObject_categories db post tail hc
  obtain ⟨t1, t2⟩ := WordPressAPI.postObject_tags db post tail ht
  refine ⟨?_, ?_, ?_, ?_⟩
  · intro h
    exact c1 ((WordPressAPI.termIdsArray_isEmpty _ _ _).mpr h)
  · intro h
    have hne : (WordPressAPI.termIdsArray db.isOpen db.categories post.categories).isEmpty
        = false := by
      rw [Bool.eq_false_iff]
      intro he
      exact h ((WordPressAPI.termIdsArray_isEmpty _ _ _).mp he)
    rw [(c2 hne).2, WordPressAPI.termIdsArray_eq]
  · intro h
    exact t1 ((WordPressAPI.termIdsArray_isEmpty _ _ _).mpr h)
  · intro h
    have hne : (WordPressAPI.termIdsArray db.isOpen db.tags post.tags).isEmpty = false := by
      rw [Bool.eq_false_iff]
      intro he
      exact h ((WordPressAPI.termIdsArray_isEmpty _ _ _).mp he)
    rw [(t2 hne).2, WordPressAPI.termIdsArray_eq]

/-- C18. With a base URL and both credentials set, `createPost` sends its
request whatever names resolve, and so does `updatePost` for a post that has a
remote id. In the body sent, `categories` is absent when no category name of
the post has a row in `categories`, and is otherwise the array of the ids of
the rows found, in the order of the names, a name without a row contributing
nothing; and the same holds for `tags`. -/
theorem C18_unresolved_names_are_omitted (api : WordPressAPI) (db : Database) (post : Post)
    (hurl : api.m_apiUrl ≠ "") (hu : api.m_username ≠ "") (hp : api.m_password ≠ "") :
    (∃ req body, api.createPost db post = Issued.sent req ∧ req.body = some body ∧
      (post.categories.filterMap
          (fun name => TermTable.selectIdByName db.isOpen db.categories name) = [] →
        QJsonObject.contains body "categories" = false) ∧
      (post.categories.filterMap
          (fun name => TermTable.selectIdByName db.isOpen db.categories name) ≠ [] →
        QJsonObject.value body "categories" =
          QJsonValue.array ((post.categories.filterMap
            (fun name => TermTable.selectIdByName db.isOpen db.categories name)).map
              (fun id => QJsonValue.double id))) ∧
      (post.tags.filterMap (fun name => TermTable.selectIdByName db.isOpen db.tags name) = [] →
        QJsonObject.contains body "tags" = false) ∧
      (post.tags.filterMap (fun name => TermTable.selectIdByName db.isOpen db.tags name) ≠ [] →
        QJsonObject.value body "tags" =
          QJsonValue.array ((post.tags.filterMap
            (fun name => TermTable.selectIdByName db.isOpen db.tags name)).map
              (fun id => QJsonValue.double id)))) ∧
    (post.hasRemoteId = true →
      ∃ req body, api.updatePost db post = Issued.sent req ∧ req.body = some body ∧
        (post.categories.filterMap
            (fun name => TermTable.selectIdByName db.isOpen db.categories name) = [] →
          QJsonObject.contains body "categories" = false) ∧
        (post.categories.filterMap
            (fun name => TermTable.selectIdByName db.isOpen db.categories name) ≠ [] →
          QJsonObject.value body "categories" =
            QJsonValue.array ((post.categories.filterMap
              (fun name => TermTable.selectIdByName db.isOpen db.categories name)).map
                (fun id => QJsonValue.double id))) ∧
        (post.tags.filterMap (fun name => TermTable.selectIdByName db.isOpen db.tags name) = [] →
          QJsonObject.contains body "tags" = false) ∧
        (post.tags.filterMap (fun name => TermTable.selectIdByName db.isOpen db.tags name) ≠ [] →
          QJsonObject.value body "tags" =
            QJsonValue.array ((post.tags.filterMap
              (fun name => TermTable.selectIdByName db.isOpen db.tags name)).map
                (fun id => QJsonValue.double id)))) := by
  refine ⟨?_, ?_⟩
  · have hc : QJsonObject.contains
        (if post.featureMediaId > 0 then
          [("featured_media", QJsonValue.double post.featureMediaId)] else [])
        "categories" = false := by
      unfold QJsonObject.contains
      split_ifs <;> simp
    have ht : QJsonObject.contains
        (if post.featureMediaId > 0 then
          [("featured_media", QJsonValue.double post.featureMediaId)] else [])
        "tags" = false := by
      unfold QJsonObject.contains
      split_ifs <;> simp
    exact ⟨_, _, WordPressAPI.createPost_sent_body api db post hurl hu hp, rfl,
      WordPressAPI.body_term_entries db post _ hc ht⟩
  · intro hr
    have h := WordPressAPI.body_term_entries db post [] rfl rfl
    rw [List.append_nil] at h
    exact ⟨_, _, WordPressAPI.updatePost_sent api db post hurl hu hp hr, rfl, h⟩

/-- C18 at a post with the categories `News`, `Gone`, `Tech`, of which `News`
and `Tech` have rows: the array sent is `[1, 3]`. -/
theorem C18_unresolved_names_are_omitted_witness :
    ∃ req body, (WordPressAPI.mk "https://blog.example/wp-json/wp/v2/" "u" "p").createPost
        ⟨true, [], 0, ⟨[⟨1, "News"⟩, ⟨3, "Tech"⟩], 3⟩, ⟨[], 0⟩, [], []⟩
        { Post.default none with title := "Hello", categories := ["News", "Gone", "Tech"] } =
          Issued.sent req ∧
      req.body = some body ∧
      QJsonObject.value body "categories" =
        QJsonValue.array [QJsonValue.double 1, QJsonValue.double 3] ∧
      QJsonObject.contains body "tags" = false := by
  obtain ⟨req, body, h1, h2, -, h3, h4, -⟩ := (C18_unresolved_names_are_omitted
    (WordPressAPI.mk "https://blog.example/wp-json/wp/v2/" "u" "p")
    ⟨true, [], 0, ⟨[⟨1, "News"⟩, ⟨3, "Tech"⟩], 3⟩, ⟨[], 0⟩, [], []⟩
    { Post.default none with title := "Hello", categories := ["News", "Gone", "Tech"] }
    (by decide) (by decide) (by decide)).1
  exact ⟨req, body, h1, h2, h3 (by decide), h4 (by decide)⟩

/-! ## C19: the round trip through the wire -/

/-- Whenever `createPost` sends a request, its body is the shared body followed
by the `featured_media` entry. -/
theorem WordPressAPI.createPost_body_of_sent (api : WordPressAPI) (db : Database) (post : Post)
    (req : QNetworkRequest) (h : api.createPost db post = Issued.sent req) :
    req.body = some (WordPressAPI.postObject db post ++
      (if post.featureMediaId > 0 then
        [("featured_media", QJsonValue.double post.featureMediaId)]
       else [])) := by
  have hurl : api.m_apiUrl ≠ "" := by
    intro he
    unfold WordPressAPI.createPost at h
    rw [if_pos he] at h
    cases h
  have hauth : api.createAuthHeader ≠ "" := by
    intro he
    unfold WordPressAPI.createPost at h
    rw [if_neg hurl] at h
    dsimp only at h
    rw [if_pos he] at h
    cases h
  have hu : api.m_username ≠ "" := by
    intro he
    apply hauth
    unfold WordPressAPI.createAuthHeader
    rw [if_pos (Or.inl he)]
  have hp : api.m_password ≠ "" := by
    intro he
    apply hauth
    unfold WordPressAPI.createAuthHeader
    rw [if_pos (Or.inr he)]
  rw [WordPressAPI.createPost_sent_body api db post hurl hu hp] at h
  injection h with h
  rw [← h]

/-- C19. Let `createPost` send a request with the body `body`, and let a
response object echo it: `title`, `content` and `excerpt` are objects whose
`rendered` is the `raw` sent, and `status` is the `status` sent. Then the post
`onPostCreated` builds from the response has the title, content, excerpt and
status of the post that was sent, and `onPostCreated` emits `postCreated` with
it for every status code in [200,300). -/
theorem C19_echoed_create_body_round_trips (api : WordPressAPI) (db : Database) (post : Post)
    (clock : Clock) (db2 : Database) (jsonObj : QJsonObject) (req : QNetworkRequest)
    (body : QJsonObject)
    (hsent : api.createPost db post = Issued.sent req) (hbody : req.body = some body)
    (htitle : jsonObj.contains "title" = true ∧ ∃ o, jsonObj.value "title" = QJsonValue.object o ∧
      QJsonObject.value o "rendered" =
        QJsonObject.value (QJsonObject.value body "title").toObject "raw")
    (hcontent : jsonObj.contains "content" = true ∧
      ∃ o, jsonObj.value "content" = QJsonValue.object o ∧
        QJsonObject.value o "rendered" =
          QJsonObject.value (QJsonObject.value body "content").toObject "raw")
    (hexcerpt : jsonObj.contains "excerpt" = true ∧
      ∃ o, jsonObj.value "excerpt" = QJsonValue.object o ∧
        QJsonObject.value o "rendered" =
          QJsonObject.value (QJsonObject.value body "excerpt").toObject "raw")
    (hstatus : jsonObj.value "status" = QJsonObject.value body "status") :
    (WordPressAPI.postOfResponse clock db2 jsonObj).title = post.title ∧
    (WordPressAPI.postOfResponse clock db2 jsonObj).content = post.content ∧
    (WordPressAPI.postOfResponse clock db2 jsonObj).excerpt = post.excerpt ∧
    (WordPressAPI.postOfResponse clock db2 jsonObj).status = post.status ∧
    ∀ code, 200 ≤ code ∧ code < 300 →
      WordPressAPI.onPostCreated clock db2 (some ⟨code, QJsonDocument.object jsonObj⟩) =
        Signal.postCreated (WordPressAPI.postOfResponse clock db2 jsonObj) := by
  obtain ⟨h1, h2, h3, h4⟩ := WordPressAPI.postObject_fixed_entries db post
    (if post.featureMediaId > 0 then
      [("featured_media", QJsonValue.double post.featureMediaId)] else [])
  have hb := WordPressAPI.createPost_body_of_sent api db post req hsent
  rw [hbody] at hb
  injection hb with hb
  subst hb
  obtain ⟨ct, ot, hot, hrt⟩ := htitle
  obtain ⟨cc, oc, hoc, hrc⟩ := hcontent
  obtain ⟨ce, oe, hoe, hre⟩ := hexcerpt
  rw [h1] at hrt
  rw [h2] at hrc
  rw [h3] at hre
  rw [h4] at hstatus
  obtain ⟨ft, fc, fe, -, -, fs, -, -⟩ := WordPressAPI.postOfResponse_fields clock db2 jsonObj
  refine ⟨?_, ?_, ?_, ?_, ?_⟩
  · rw [ft, ct, hot]
    simp only [QJsonValue.isObject, QJsonValue.toObject, Bool.and_self, if_true, hrt]
    rfl
  · rw [fc, cc, hoc]
    simp only [QJsonValue.isObject, QJsonValue.toObject, Bool.and_self, if_true, hrc]
    rfl
  · rw [fe, ce, hoe]
    simp only [QJsonValue.isObject, QJsonValue.toObject, Bool.and_self, if_true, hre]
    rfl
  · rw [fs, hstatus]
    cases hs : post.status <;> simp [QJsonValue.toString]
  · intro code hcode
    exact WordPressAPI.onPostReply_object _ _ clock db2 ⟨code, QJsonDocument.object jsonObj⟩
      jsonObj hcode rfl

/-- C19 at a Published post titled `Hello` and the response that echoes its body. -/
theorem C19_echoed_create_body_round_trips_witness :
    (WordPressAPI.postOfResponse ⟨some 1000, fun _ => none⟩
      ⟨true, [], 0, ⟨[], 0⟩, ⟨[], 0⟩, [], []⟩
      [("id", QJsonValue.double 42),
       ("title", QJsonValue.object [("rendered", QJsonValue.string "Hello")]),
       ("content", QJsonValue.object [("rendered", QJsonValue.string "text")]),
       ("excerpt", QJsonValue.object [("rendered", QJsonValue.string "")]),
       ("status", QJsonValue.string "publish")]).title = "Hello" :=
  (C19_echoed_create_body_round_trips
    (WordPressAPI.mk "https://blog.example/wp-json/wp/v2/" "u" "p")
    ⟨true, [], 0, ⟨[], 0⟩, ⟨[], 0⟩, [], []⟩
    { Post.default none with title := "Hello", content := "text",
                               status := Post.Status.Published }
    ⟨some 1000, fun _ => none⟩
    ⟨true, [], 0, ⟨[], 0⟩, ⟨[], 0⟩, [], []⟩
    [("id", QJsonValue.double 42),
     ("title", QJsonValue.object [("rendered", QJsonValue.string "Hello")]),
     ("content", QJsonValue.object [("rendered", QJsonValue.string "text")]),
     ("excerpt", QJsonValue.object [("rendered", QJsonValue.string "")]),
     ("status", QJsonValue.string "publish")]
    _ _
    (WordPressAPI.createPost_sent_body
      (WordPressAPI.mk "https://blog.example/wp-json/wp/v2/" "u" "p")
      ⟨true, [], 0, ⟨[], 0⟩, ⟨[], 0⟩, [], []⟩
      { Post.default none with title := "Hello", content := "text",
                                 status := Post.Status.Published }
      (by decide) (by decide) (by decide))
    rfl
    ⟨rfl, _, rfl, rfl⟩ ⟨rfl, _, rfl, rfl⟩ ⟨rfl, _, rfl, rfl⟩ rfl).1

/-! ## C20: the publish date of a response -/

/-- C20, counterexample. The current time is 1000 and the ISO parser accepts
only `2024-01-01T00:00:00`. For the response `{"id": 42, "date": "yesterday"}`
with status 200, `onPostCreated` emits `postCreated` with a post whose publish
date is the invalid date-time, not the current time. -/
theorem C20_unparsable_date_gives_invalid_date :
    WordPressAPI.onPostCreated
        ⟨some 1000, fun s => if s = "2024-01-01T00:00:00" then some 1704067200 else none⟩
        ⟨true, [], 0, ⟨[], 0⟩, ⟨[], 0⟩, [], []⟩
        (some ⟨200, QJsonDocument.object
          [("id", QJsonValue.double 42), ("date", QJsonValue.string "yesterday")]⟩) =
      Signal.postCreated
        ((Post.new (-1) "未知标题" "" "" none "" Post.Status.Draft).setRemoteId 42) ∧
    (Clock.mk (some 1000)
      (fun s => if s = "2024-01-01T00:00:00" then some 1704067200 else none)).currentDateTime =
        some 1000 := by
  constructor <;> rfl

/-- C20, amended. For every response object, the post `onPostCreated` and
`onPostUpdated` build from it has, as publish date, what the ISO parser returns
for the text of `date` when the object has a `date` (the parsed instant for a
valid timestamp, the invalid date-time otherwise), and the current time when
it has none; and for a status code in [200,300) both handlers emit their
success signal with that post, whatever the date. -/
theorem C20_publish_date_of_response (clock : Clock) (db : Database) (jsonObj : QJsonObject) :
    (jsonObj.contains "date" = true →
      (WordPressAPI.postOfResponse clock db jsonObj).publishDate =
        clock.fromStringISODate (jsonObj.value "date").toString) ∧
    (jsonObj.contains "date" = false →
      (WordPressAPI.postOfResponse clock db jsonObj).publishDate = clock.currentDateTime) ∧
    (∀ code, 200 ≤ code ∧ code < 300 →
      WordPressAPI.onPostCreated clock db (some ⟨code, QJsonDocument.object jsonObj⟩) =
        Signal.postCreated (WordPressAPI.postOfResponse clock db jsonObj) ∧
      WordPressAPI.onPostUpdated clock db (some ⟨code, QJsonDocument.object jsonObj⟩) =
        Signal.postUpdated (WordPressAPI.postOfResponse clock db jsonObj)) := by
  obtain ⟨-, -, -, hd, -⟩ := WordPressAPI.postOfResponse_fields clock db jsonObj
  refine ⟨?_, ?_, ?_⟩
  · intro h
    rw [hd, h, if_pos rfl]
  · intro h
    rw [hd, h]
    rfl
  · intro code hcode
    exact ⟨WordPressAPI.onPostReply_object _ _ clock db ⟨code, QJsonDocument.object jsonObj⟩
        jsonObj hcode rfl,
      WordPressAPI.onPostReply_object _ _ clock db ⟨code, QJsonDocument.object jsonObj⟩
        jsonObj hcode rfl⟩

/-- C20 at a response whose `date` the parser accepts. -/
theorem C20_publish_date_of_response_witness :
    (WordPressAPI.postOfResponse
      ⟨some 1000, fun s => if s = "2024-01-01T00:00:00" then some 1704067200 else none⟩
      ⟨true, [], 0, ⟨[], 0⟩, ⟨[], 0⟩, [], []⟩
      [("id", QJsonValue.double 42),
       ("date", QJsonValue.string "2024-01-01T00:00:00")]).publishDate =
      (Clock.mk (some 1000)
        (fun s => if s = "2024-01-01T00:00:00" then some 1704067200 else none)).fromStringISODate
        (QJsonObject.value
          [("id", QJsonValue.double 42), ("date", QJsonValue.string "2024-01-01T00:00:00")]
          "date").toString :=
  (C20_publish_date_of_response
    ⟨some 1000, fun s => if s = "2024-01-01T00:00:00" then some 1704067200 else none⟩
    ⟨true, [], 0, ⟨[], 0⟩, ⟨[], 0⟩, [], []⟩
    [("id", QJsonValue.double 42), ("date", QJsonValue.string "2024-01-01T00:00:00")]).1 rfl

/-! ## C21: the placeholder of a remote term id without a row -/

/-- One iteration of the loops of `parsePosts` at an id other than -1 that has no
row in the term table (on an open connection): the name is the placeholder, and
the call of `saveCategory` / `saveTag`, an `UPDATE` that matches no row, leaves
the table as it was. -/
theorem WordPressAPI.nameOfRemoteId_unknown (label : String) (t : TermTable)
    (names : List String) (k : Int) (hk : k ≠ -1)
    (hrange : -2147483648 ≤ k ∧ k ≤ 2147483647) (hnone : ∀ r ∈ t.rows, r.id ≠ k) :
    WordPressAPI.nameOfRemoteId label true (t, names) (QJsonValue.double k) =
      (t, if label ++ QString.number k ∈ names then names
          else names ++ [label ++ QString.number k]) := by
  have hint : (QJsonValue.double k).toInt = k := by
    simp only [QJsonValue.toInt, hrange, and_self, if_true]
  have hfind : t.rows.find? (fun r => decide (r.id = k)) = none := by
    rw [List.find?_eq_none]
    intro r hr
    simpa using hnone r hr
  have hsel : TermTable.selectNameById true t k = none := by
    unfold TermTable.selectNameById
    simp only [if_true, hfind, Option.map_none']
  have hmap : t.rows.map (fun r => if r.id = k then { r with name := label ++ QString.number k }
      else r) = t.rows := by
    conv_rhs => rw [← List.map_id t.rows]
    apply List.map_congr_left
    intro r hr
    rw [if_neg (hnone r hr)]
    rfl
  have hsave : (TermTable.save true t { id := k, name := label ++ QString.number k }).2.1 = t := by
    have hex : ¬ ((∃ r ∈ t.rows, r.id = k) ∧
        (∃ r ∈ t.rows, r.id ≠ k ∧ r.name = label ++ QString.number k)) := by
      rintro ⟨⟨r, hr, hrk⟩, -⟩
      exact hnone r hr hrk
    unfold TermTable.save TermTable.updateName
    simp only [hk, false_and, if_false, true_and, hex, not_false_eq_true, if_true, hmap]
  unfold WordPressAPI.nameOfRemoteId
  simp only [hint, hsel, hsave]

/-- C21, at the failing input. The store holds the category `News` under id 1 and
no tag. `parsePosts` of one post with the categories 1 and 5 and the tag 9 names
the post `News`, `分类5` and `标签9`, and the store is as it was: no term was
created for a placeholder, and the lookup of id 5 finds no row afterwards. -/
theorem C21_placeholder_is_not_persisted :
    WordPressAPI.parsePosts ⟨none, fun _ => none⟩
        ⟨true, [], 0, ⟨[⟨1, "News"⟩], 1⟩, ⟨[], 0⟩, [], []⟩
        [QJsonValue.object [("id", QJsonValue.double 1),
          ("categories", QJsonValue.array [QJsonValue.double 1, QJsonValue.double 5]),
          ("tags", QJsonValue.array [QJsonValue.double 9])]] =
      ([{ Post.new 1 "" "" "" none "" Post.Status.Draft with
            categories := ["News", "分类5"], tags := ["标签9"] }],
        ⟨true, [], 0, ⟨[⟨1, "News"⟩], 1⟩, ⟨[], 0⟩, [], []⟩) ∧
    TermTable.selectNameById true
        (WordPressAPI.parsePosts ⟨none, fun _ => none⟩
          ⟨true, [], 0, ⟨[⟨1, "News"⟩], 1⟩, ⟨[], 0⟩, [], []⟩
          [QJsonValue.object [("id", QJsonValue.double 1),
            ("categories", QJsonValue.array [QJsonValue.double 1, QJsonValue.double 5]),
            ("tags", QJsonValue.array [QJsonValue.double 9])]]).2.categories 5 = none := by
  decide

/-! ## Lemmas on `getPostById` -/

/-- The loop of `getPostById` over the categories of the post changes the list of
category names only, and adds to it exactly the names of the terms. -/
theorem Post.foldl_addCategory (l : List Term) :
    ∀ p : Post, ∃ cs : List String,
      l.foldl (fun p c => p.addCategory c.name) p = { p with categories := cs } ∧
      ∀ n, n ∈ cs ↔ n ∈ p.categories ∨ n ∈ l.map (fun c => c.name) := by
  induction l with
  | nil => intro p; exact ⟨p.categories, rfl, fun n => by simp⟩
  | cons c cs ih =>
    intro p
    have hadd : ∃ cs0 : List String, p.addCategory c.name = { p with categories := cs0 } ∧
        ∀ n, n ∈ cs0 ↔ n ∈ p.categories ∨ n = c.name := by
      unfold Post.addCategory
      split_ifs with h
      · refine ⟨p.categories, rfl, fun n => ⟨fun hn => Or.inl hn, ?_⟩⟩
        rintro (hn | rfl)
        · exact hn
        · exact h
      · exact ⟨p.categories ++ [c.name], rfl, fun n => by simp⟩
    obtain ⟨cs0, h0, hm0⟩ := hadd
    obtain ⟨cs1, h1, hm1⟩ := ih { p with categories := cs0 }
    refine ⟨cs1, ?_, ?_⟩
    · rw [List.foldl_cons, h0, h1]
    · intro n
      rw [hm1 n, List.map_cons, List.mem_cons]
      have := hm0 n
      dsimp only at this ⊢
      tauto

/-- The loop of `getPostById` over the tags of the post changes the list of tag
names only, and adds to it exactly the names of the terms. -/
theorem Post.foldl_addTag (l : List Term) :
    ∀ p : Post, ∃ ts : List String,
      l.foldl (fun p c => p.addTag c.name) p = { p with tags := ts } ∧
      ∀ n, n ∈ ts ↔ n ∈ p.tags ∨ n ∈ l.map (fun c => c.name) := by
  induction l with
  | nil => intro p; exact ⟨p.tags, rfl, fun n => by simp⟩
  | cons c cs ih =>
    intro p
    have hadd : ∃ ts0 : List String, p.addTag c.name = { p with tags := ts0 } ∧
        ∀ n, n ∈ ts0 ↔ n ∈ p.tags ∨ n = c.name := by
      unfold Post.addTag
      split_ifs with h
      · refine ⟨p.tags, rfl, fun n => ⟨fun hn => Or.inl hn, ?_⟩⟩
        rintro (hn | rfl)
        · exact hn
        · exact h
      · exact ⟨p.tags ++ [c.name], rfl, fun n => by simp⟩
    obtain ⟨ts0, h0, hm0⟩ := hadd
    obtain ⟨ts1, h1, hm1⟩ := ih { p with tags := ts0 }
    refine ⟨ts1, ?_, ?_⟩
    · rw [List.foldl_cons, h0, h1]
    · intro n
      rw [hm1 n, List.map_cons, List.mem_cons]
      have := hm0 n
      dsimp only at this ⊢
      tauto

/-- A call of `getPostById` whose query finds no row returns `Post()`. -/
theorem DatabaseManager.getPostById_of_no_row (now : QDateTime) (db : Database) (postId : Int)
    (hnone : ∀ r ∈ db.posts, r.id ≠ postId) :
    DatabaseManager.getPostById now db postId = Post.default now := by
  have hfind : db.posts.find? (fun r => decide (r.id = postId)) = none := by
    rw [List.find?_eq_none]
    intro r hr
    simpa using hnone r hr
  unfold DatabaseManager.getPostById
  cases db.isOpen <;> simp [hfind]

/-- A call of `getPostById` whose query finds the row `r`: the fields of the post
are the columns of the row, its category and tag names are the names of the
terms the two joins return. -/
theorem DatabaseManager.getPostById_of_row (now : QDateTime) (db : Database) (postId : Int)
    (r : PostRow) (hopen : db.isOpen = true)
    (hfind : db.posts.find? (fun r => decide (r.id = postId)) = some r) :
    (DatabaseManager.getPostById now db postId).id = r.id ∧
    (DatabaseManager.getPostById now db postId).remoteId = r.remote_id ∧
    (DatabaseManager.getPostById now db postId).title = r.title ∧
    (DatabaseManager.getPostById now db postId).content = r.content ∧
    (DatabaseManager.getPostById now db postId).excerpt = r.excerpt ∧
    (DatabaseManager.getPostById now db postId).publishDate = r.publish_date ∧
    (DatabaseManager.getPostById now db postId).author = r.author ∧
    (DatabaseManager.getPostById now db postId).status = Post.Status.ofInt r.status ∧
    (DatabaseManager.getPostById now db postId).featuredImageUrl = r.featured_image_url ∧
    (∀ n, n ∈ (DatabaseManager.getPostById now db postId).categories ↔
      n ∈ (DatabaseManager.getCategoriesForPost db r.id).map (fun c => c.name)) ∧
    (∀ n, n ∈ (DatabaseManager.getPostById now db postId).tags ↔
      n ∈ (DatabaseManager.getTagsForPost db r.id).map (fun c => c.name)) := by
  unfold DatabaseManager.getPostById
  simp only [hopen, if_true, hfind]
  obtain ⟨cs, hc1, hc2⟩ := Post.foldl_addCategory (DatabaseManager.getCategoriesForPost db r.id)
    (((Post.new r.id r.title r.content r.excerpt r.publish_date r.author
      (Post.Status.ofInt r.status)).setFeaturedImageUrl r.featured_image_url).setRemoteId
        r.remote_id)
  rw [hc1]
  obtain ⟨ts, ht1, ht2⟩ := Post.foldl_addTag (DatabaseManager.getTagsForPost db r.id)
    { ((Post.new r.id r.title r.content r.excerpt r.publish_date r.author
        (Post.Status.ofInt r.status)).setFeaturedImageUrl r.featured_image_url).setRemoteId
          r.remote_id with categories := cs }
  rw [ht1]
  refine ⟨rfl, rfl, rfl, rfl, rfl, rfl, rfl, rfl, rfl, ?_, ?_⟩
  · intro n
    show n ∈ cs ↔ _
    rw [hc2 n]
    simp [Post.new, Post.setFeaturedImageUrl, Post.setRemoteId]
  · intro n
    show n ∈ ts ↔ _
    rw [ht2 n]
    simp [Post.new, Post.setFeaturedImageUrl, Post.setRemoteId]

theorem Post.Status.ofInt_toInt (s : Post.Status) : Post.Status.ofInt s.toInt = s := by
  cases s <;> rfl

/-- The row `getPostById` finds after a successful `savePost` of a post whose id
was unset or was the key of a row: the row written from the post, under the id
the post has afterwards. -/
theorem DatabaseManager.savePost_find_row (db : Database) (post : Post)
    (hok : (DatabaseManager.savePost db post).1 = true)
    (hdom : post.id = -1 ∨ (post.id > 0 ∧ ∃ r ∈ db.posts, r.id = post.id)) :
    (DatabaseManager.savePost db post).2.1.posts.find?
        (fun r => decide (r.id = (DatabaseManager.savePost db post).2.2.id)) =
      some (DatabaseManager.rowOfPost (DatabaseManager.savePost db post).2.2.id post) := by
  rcases DatabaseManager.savePost_cases db post with ⟨-, h0⟩ | ⟨-, -, hex, h1⟩ | ⟨-, hn, h1⟩
  · rw [h0] at hok; cases hok
  · rw [h1]
    dsimp only
    rw [(DatabaseManager.saveRelations_frame _ _).2.1]
    dsimp only
    rw [List.find?_map]
    have hfun : ((fun r : PostRow => decide (r.id = post.id)) ∘
        fun r => if r.id = post.id then DatabaseManager.rowOfPost r.id post else r) =
        fun r => decide (r.id = post.id) := by
      funext r
      simp only [Function.comp]
      split_ifs with h
      · simp [DatabaseManager.rowOfPost, h]
      · rfl
    rw [hfun]
    obtain ⟨r, hr, hid⟩ := hex
    cases hf : db.posts.find? (fun r => decide (r.id = post.id)) with
    | none =>
      rw [List.find?_eq_none] at hf
      exact absurd (by simpa using hid) (hf r hr)
    | some r0 =>
      have h0 : r0.id = post.id := by simpa using List.find?_some hf
      simp only [Option.map_some', h0, if_true]
  · have hid : post.id = -1 := by
      rcases hdom with h | h
      · exact h
      · exact absurd h hn
    rw [h1]
    dsimp only
    rw [(DatabaseManager.saveRelations_frame _ _).2.1]
    simp only [hid, if_true, Post.setId]
    rw [List.find?_append]
    have hnot := nextRowid_not_mem (db.posts.map (fun r => r.id)) db.posts_seq
    have hf : db.posts.find?
        (fun r => decide (r.id = nextRowid (db.posts.map (fun r => r.id)) db.posts_seq)) = none := by
      rw [List.find?_eq_none]
      intro r hr hc
      apply hnot
      rw [← of_decide_eq_true hc]
      exact List.mem_map.mpr ⟨r, hr, rfl⟩
    rw [hf]
    simp [DatabaseManager.rowOfPost]

/-- The round trip through the store. On a store that satisfies the constraints
of the schema, for a post whose id is unset or is the key of a row and whose
lists of category and tag names are not empty: after a successful `savePost`,
`getPostById` on the id the post then has returns that id, the remote id, title,
content, excerpt, publish date, author, status and featured-image URL that
were saved, and as category and tag names exactly the names saved. -/
theorem DatabaseManager.getPostById_savePost (now : QDateTime) (db : Database) (post : Post)
    (hwf : db.WF) (hok : (DatabaseManager.savePost db post).1 = true)
    (hdom : post.id = -1 ∨ (post.id > 0 ∧ ∃ r ∈ db.posts, r.id = post.id))
    (hcne : post.categories ≠ []) (htne : post.tags ≠ []) :
    (DatabaseManager.getPostById now (DatabaseManager.savePost db post).2.1
        (DatabaseManager.savePost db post).2.2.id).id = (DatabaseManager.savePost db post).2.2.id ∧
    (DatabaseManager.getPostById now (DatabaseManager.savePost db post).2.1
        (DatabaseManager.savePost db post).2.2.id).remoteId = post.remoteId ∧
    (DatabaseManager.getPostById now (DatabaseManager.savePost db post).2.1
        (DatabaseManager.savePost db post).2.2.id).title = post.title ∧
    (DatabaseManager.getPostById now (DatabaseManager.savePost db post).2.1
        (DatabaseManager.savePost db post).2.2.id).content = post.content ∧
    (DatabaseManager.getPostById now (DatabaseManager.savePost db post).2.1
        (DatabaseManager.savePost db post).2.2.id).excerpt = post.excerpt ∧
    (DatabaseManager.getPostById now (DatabaseManager.savePost db post).2.1
        (DatabaseManager.savePost db post).2.2.id).publishDate = post.publishDate ∧
    (DatabaseManager.getPostById now (DatabaseManager.savePost db post).2.1
        (DatabaseManager.savePost db post).2.2.id).author = post.author ∧
    (DatabaseManager.getPostById now (DatabaseManager.savePost db post).2.1
        (DatabaseManager.savePost db post).2.2.id).status = post.status ∧
    (DatabaseManager.getPostById now (DatabaseManager.savePost db post).2.1
        (DatabaseManager.savePost db post).2.2.id).featuredImageUrl = post.featuredImageUrl ∧
    (∀ n, n ∈ (DatabaseManager.getPostById now (DatabaseManager.savePost db post).2.1
        (DatabaseManager.savePost db post).2.2.id).categories ↔ n ∈ post.categories) ∧
    (∀ n, n ∈ (DatabaseManager.getPostById now (DatabaseManager.savePost db post).2.1
        (DatabaseManager.savePost db post).2.2.id).tags ↔ n ∈ post.tags) := by
  obtain ⟨-, hc, ht, hpc, hpt⟩ := hwf
  have hopen : (DatabaseManager.savePost db post).2.1.isOpen = true := by
    rw [DatabaseManager.savePost_isOpen_after]
    exact DatabaseManager.savePost_isOpen db post hok
  have hrow := DatabaseManager.getPostById_of_row now (DatabaseManager.savePost db post).2.1
    (DatabaseManager.savePost db post).2.2.id _ hopen
    (DatabaseManager.savePost_find_row db post hok hdom)
  obtain ⟨g1, g2, g3, g4, g5, g6, g7, g8, g9, g10, g11⟩ := hrow
  have hcat := DatabaseManager.savePost_categories db post hok
  have htag := DatabaseManager.savePost_tags db post hok
  rw [if_pos hcne] at hcat
  rw [if_pos htne] at htag
  have hinvc := replaceTerms_inv db.categories db.post_categories
    (DatabaseManager.savePost db post).2.2.id post.categories hc hpc
  have hinvt := replaceTerms_inv db.tags db.post_tags
    (DatabaseManager.savePost db post).2.2.id post.tags ht hpt
  rw [← hcat] at hinvc
  rw [← htag] at hinvt
  refine ⟨g1, g2, g3, g4, g5, g6, g7, ?_, g9, ?_, ?_⟩
  · rw [g8]
    exact Post.Status.ofInt_toInt post.status
  · intro n
    rw [g10 n]
    unfold DatabaseManager.getCategoriesForPost
    rw [hopen]
    exact hinvc.mem_names n
  · intro n
    rw [g11 n]
    unfold DatabaseManager.getTagsForPost
    rw [hopen]
    exact hinvt.mem_names n

/-! ## C22: reading back a post that was saved -/

/-- C22, at the failing input. On the open, empty store, `savePost` of a post with
local id 7, remote id 42, title `Hello`, the category `News` and the tag `qt`
succeeds and leaves the local id 7; `getPostById` on 7 then returns `Post()`,
whose local id is -1, and the row that was written, under key 1, reads back
without category and tag. -/
theorem C22_saved_post_with_unknown_id_is_not_read_back :
    (DatabaseManager.savePost ⟨true, [], 0, ⟨[], 0⟩, ⟨[], 0⟩, [], []⟩
        { Post.default none with id := 7, remoteId := 42, title := "Hello",
                                   categories := ["News"], tags := ["qt"] }).1 = true ∧
    (DatabaseManager.savePost ⟨true, [], 0, ⟨[], 0⟩, ⟨[], 0⟩, [], []⟩
        { Post.default none with id := 7, remoteId := 42, title := "Hello",
                                   categories := ["News"], tags := ["qt"] }).2.2.id = 7 ∧
    DatabaseManager.getPostById (some 1000)
        (DatabaseManager.savePost ⟨true, [], 0, ⟨[], 0⟩, ⟨[], 0⟩, [], []⟩
          { Post.default none with id := 7, remoteId := 42, title := "Hello",
                                     categories := ["News"], tags := ["qt"] }).2.1 7 =
      Post.default (some 1000) ∧
    (Post.default (some 1000)).id = -1 ∧
    DatabaseManager.getPostById (some 1000)
        (DatabaseManager.savePost ⟨true, [], 0, ⟨[], 0⟩, ⟨[], 0⟩, [], []⟩
          { Post.default none with id := 7, remoteId := 42, title := "Hello",
                                     categories := ["News"], tags := ["qt"] }).2.1 1 =
      { Post.default none with id := 1, remoteId := 42, title := "Hello" } := by
  decide

/-! ## C23: reading a post that has no row -/

/-- C23. For every store and every id that no row of `posts` has, `getPostById`
returns a post (it is a total function): the post `Post()`, whose local id is
-1, whose remote id is -1, whose status is `Draft` and whose lists of
categories and tags are empty. The call only reads: the embedding of
`getPostById` has no database among its results. -/
theorem C23_getPostById_without_row_returns_sentinel (now : QDateTime) (db : Database)
    (postId : Int) (hnone : ∀ r ∈ db.posts, r.id ≠ postId) :
    DatabaseManager.getPostById now db postId = Post.default now ∧
    (DatabaseManager.getPostById now db postId).id = -1 ∧
    (DatabaseManager.getPostById now db postId).remoteId = -1 ∧
    (DatabaseManager.getPostById now db postId).status = Post.Status.Draft ∧
    (DatabaseManager.getPostById now db postId).categories = [] ∧
    (DatabaseManager.getPostById now db postId).tags = [] := by
  rw [DatabaseManager.getPostById_of_no_row now db postId hnone]
  exact ⟨rfl, rfl, rfl, rfl, rfl, rfl⟩

/-- C23 on a store that holds post 1, asked for post 2. -/
theorem C23_getPostById_without_row_returns_sentinel_witness :
    DatabaseManager.getPostById (some 1000)
        ⟨true, [⟨1, 42, "Hello", "", "", none, "", 1, ""⟩], 1, ⟨[], 0⟩, ⟨[], 0⟩, [], []⟩ 2 =
      Post.default (some 1000) :=
  (C23_getPostById_without_row_returns_sentinel (some 1000)
    ⟨true, [⟨1, 42, "Hello", "", "", none, "", 1, ""⟩], 1, ⟨[], 0⟩, ⟨[], 0⟩, [], []⟩ 2
    (by decide)).1

/-! ## C24: what `deletePost` removes -/

/-- The statement of `DatabaseManager::deletePost` works on the table `posts`
only: the term tables and the relation tables are as they were. -/
theorem DatabaseManager.deletePost_frame (db : Database) (postId : Int) :
    (DatabaseManager.deletePost db postId).2.categories = db.categories ∧
    (DatabaseManager.deletePost db postId).2.tags = db.tags ∧
    (DatabaseManager.deletePost db postId).2.post_categories = db.post_categories ∧
    (DatabaseManager.deletePost db postId).2.post_tags = db.post_tags := by
  unfold DatabaseManager.deletePost
  split_ifs <;> exact ⟨rfl, rfl, rfl, rfl⟩

/-- C24, at the failing input. The store holds post 1, related to the category
`News` and to the tag `qt`. `deletePost` of 1 succeeds and removes the row of
the post; the term rows stay, and so do the relation rows (1, 1) of both
relation tables, which still reference post 1. -/
theorem C24_deletePost_leaves_relation_rows :
    DatabaseManager.deletePost
        ⟨true, [⟨1, -1, "Hello", "", "", none, "", 0, ""⟩], 1, ⟨[⟨1, "News"⟩], 1⟩,
          ⟨[⟨1, "qt"⟩], 1⟩, [(1, 1)], [(1, 1)]⟩ 1 =
      (true, ⟨true, [], 1, ⟨[⟨1, "News"⟩], 1⟩, ⟨[⟨1, "qt"⟩], 1⟩, [(1, 1)], [(1, 1)]⟩) := by
  decide

/-! ## C25: the list of posts -/

theorem textNotBelow_total : ∀ s t : List Char,
    textNotBelow s t = true ∨ textNotBelow t s = true
  | _, [] => Or.inl (by cases ‹List Char› <;> rfl)
  | [], _ :: _ => Or.inr rfl
  | a :: s, b :: t => by
    rcases textNotBelow_total s t with h | h
    · by_cases h1 : b.toNat < a.toNat
      · left; simp [textNotBelow, h1]
      · by_cases h2 : a.toNat < b.toNat
        · right; simp [textNotBelow, h2]
        · left; simp [textNotBelow, h1, h2, h]
    · by_cases h1 : b.toNat < a.toNat
      · left; simp [textNotBelow, h1]
      · by_cases h2 : a.toNat < b.toNat
        · right; simp [textNotBelow, h2]
        · right; simp [textNotBelow, h1, h2, h]

theorem textNotBelow_trans : ∀ s t u : List Char,
    textNotBelow s t = true → textNotBelow t u = true → textNotBelow s u = true
  | s, _, [] => fun _ _ => by cases s <;> rfl
  | _, [], _ :: _ => fun _ h => by simp [textNotBelow] at h
  | [], _ :: _, _ :: _ => fun h _ => by simp [textNotBelow] at h
  | a :: s, b :: t, c :: u => by
    intro hst htu
    have ih := textNotBelow_trans s t u
    simp only [textNotBelow] at hst htu ⊢
    by_cases h1 : b.toNat < a.toNat
    · by_cases h2 : c.toNat < b.toNat
      · rw [if_pos (by omega)]
      · by_cases h3 : b.toNat < c.toNat
        · rw [if_neg h2, if_pos h3] at htu
          cases htu
        · rw [if_pos (by omega)]
    · by_cases h1' : a.toNat < b.toNat
      · rw [if_neg h1, if_pos h1'] at hst
        cases hst
      · rw [if_neg h1, if_neg h1'] at hst
        by_cases h2 : c.toNat < b.toNat
        · rw [if_pos (by omega)]
        · by_cases h3 : b.toNat < c.toNat
          · rw [if_neg h2, if_pos h3] at htu
            cases htu
          · rw [if_neg h2, if_neg h3] at htu
            rw [if_neg (by omega), if_neg (by omega)]
            exact ih hst htu

theorem storedDateNotBelow_total (calendar : Calendar) (a b : QDateTime) :
    storedDateNotBelow calendar a b = true ∨ storedDateNotBelow calendar b a = true := by
  cases a <;> cases b <;> simp only [storedDateNotBelow, true_or, or_true]
  exact textNotBelow_total _ _

theorem storedDateNotBelow_trans (calendar : Calendar) (a b c : QDateTime)
    (hab : storedDateNotBelow calendar a b = true)
    (hbc : storedDateNotBelow calendar b c = true) :
    storedDateNotBelow calendar a c = true := by
  cases a <;> cases b <;> cases c <;>
    simp only [storedDateNotBelow, Bool.false_eq_true] at hab hbc ⊢
  exact textNotBelow_trans _ _ _ hab hbc

/-- The rows of the query of `getAllPosts`: a rearrangement of the rows selected,
in which no row comes before a row whose stored date is above its own. -/
theorem DatabaseManager.selectPosts_spec (calendar : Calendar) (db : Database)
    (publishedOnly : Bool) :
    (DatabaseManager.selectPosts calendar db publishedOnly).Perm
      (if publishedOnly then db.posts.filter (fun r => r.status = 1) else db.posts) ∧
    (DatabaseManager.selectPosts calendar db publishedOnly).Pairwise
      (fun a b => storedDateNotBelow calendar a.publish_date b.publish_date = true) := by
  haveI : IsTotal PostRow
      (fun a b => storedDateNotBelow calendar a.publish_date b.publish_date = true) :=
    ⟨fun a b => storedDateNotBelow_total calendar a.publish_date b.publish_date⟩
  haveI : IsTrans PostRow
      (fun a b => storedDateNotBelow calendar a.publish_date b.publish_date = true) :=
    ⟨fun a b c => storedDateNotBelow_trans calendar a.publish_date b.publish_date
      c.publish_date⟩
  unfold DatabaseManager.selectPosts
  exact ⟨List.perm_insertionSort _ _, List.sorted_insertionSort _ _⟩

/-- The rows of the query of `getAllPosts` are rows of `posts`, and with
`publishedOnly` rows of status 1. -/
theorem DatabaseManager.selectPosts_mem (calendar : Calendar) (db : Database)
    (publishedOnly : Bool) (r : PostRow)
    (hr : r ∈ DatabaseManager.selectPosts calendar db publishedOnly) :
    r ∈ db.posts ∧ (publishedOnly = true → r.status = 1) := by
  have hp := (DatabaseManager.selectPosts_spec calendar db publishedOnly).1.subset hr
  cases publishedOnly with
  | false => exact ⟨by simpa using hp, fun h => by cases h⟩
  | true =>
    have hm : r ∈ db.posts.filter (fun r => r.status = 1) := by simpa using hp
    rw [List.mem_filter] at hm
    exact ⟨hm.1, fun _ => by simpa using hm.2⟩

/-- C25, counterexample. The store holds post 2, whose publish date is stored as
`2024-01-01T08:00:00.000Z`, and post 1, whose publish date is stored as
`2024-01-01T12:00:00.000+05:00`, which is one hour earlier. `getAllPosts` lists
post 1 before post 2: the older post comes first. -/
theorem C25_posts_are_ordered_by_stored_text_not_by_instant :
    (DatabaseManager.getAllPosts
        ⟨fun t => if t = 1 then 1704092400000 else 1704096000000,
         fun t => if t = 1 then "2024-01-01T12:00:00.000+05:00"
           else "2024-01-01T08:00:00.000Z"⟩
        ⟨true, [⟨2, -1, "Late", "", "", some 2, "", 1, ""⟩,
                ⟨1, -1, "Early", "", "", some 1, "", 1, ""⟩], 2, ⟨[], 0⟩, ⟨[], 0⟩, [], []⟩
        false).map (fun p => (p.id, p.publishDate)) = [(1, some 1), (2, some 2)] ∧
    (Calendar.mk (fun t => if t = 1 then 1704092400000 else 1704096000000)
        (fun t => if t = 1 then "2024-01-01T12:00:00.000+05:00"
          else "2024-01-01T08:00:00.000Z")).toMSecsSinceEpoch 1 <
      (Calendar.mk (fun t => if t = 1 then 1704092400000 else 1704096000000)
        (fun t => if t = 1 then "2024-01-01T12:00:00.000+05:00"
          else "2024-01-01T08:00:00.000Z")).toMSecsSinceEpoch 2 := by
  decide

/-- C25, amended. On an open store whose post keys are unique, `getAllPosts`
returns one post for each row of `posts` selected (all rows, or with
`publishedOnly` the rows whose status is 1, `Published`), in the order of the
texts stored for the publish dates, descending, rows without a valid date
last: there is a rearrangement of the selected rows, ordered that way, such
that the posts returned carry, row by row, the local id, title, content,
excerpt, publish date, author, status and featured-image URL of the row and
the names of the categories and of the tags related to it. The local ids of the
posts returned are pairwise different, and with `publishedOnly` every post
returned is `Published`. When the stored texts of the publish dates order like
their instants, no post comes before a post of a later instant, and no post
without a valid date before one with a valid date. -/
theorem C25_getAllPosts_lists_stored_posts_by_stored_date (calendar : Calendar)
    (db : Database) (hopen : db.isOpen = true) (hwf : db.WF) (publishedOnly : Bool) :
    (∃ rows : List PostRow,
      rows.Perm (if publishedOnly = true then db.posts.filter (fun r => r.status = 1)
        else db.posts) ∧
      rows.Pairwise
        (fun a b => storedDateNotBelow calendar a.publish_date b.publish_date = true) ∧
      (DatabaseManager.getAllPosts calendar db publishedOnly).map
          (fun p => (p.id, p.title, p.content, p.excerpt, p.publishDate, p.author, p.status,
            p.featuredImageUrl, p.categories, p.tags)) =
        rows.map (fun r => (r.id, r.title, r.content, r.excerpt, r.publish_date, r.author,
          Post.Status.ofInt r.status, r.featured_image_url,
          (DatabaseManager.getCategoriesForPost db r.id).map (fun c => c.name),
          (DatabaseManager.getTagsForPost db r.id).map (fun c => c.name)))) ∧
    ((DatabaseManager.getAllPosts calendar db publishedOnly).map (fun p => p.id)).Nodup ∧
    (publishedOnly = true →
      ∀ p ∈ DatabaseManager.getAllPosts calendar db publishedOnly,
        p.status = Post.Status.Published) ∧
    ((∀ x y, some x ∈ db.posts.map (fun r => r.publish_date) →
        some y ∈ db.posts.map (fun r => r.publish_date) →
        textNotBelow (calendar.toStringISODateWithMs x).data
          (calendar.toStringISODateWithMs y).data = true →
        calendar.toMSecsSinceEpoch y ≤ calendar.toMSecsSinceEpoch x) →
      (DatabaseManager.getAllPosts calendar db publishedOnly).Pairwise (fun p q =>
        (p.publishDate = none → q.publishDate = none) ∧
        ∀ x y, p.publishDate = some x → q.publishDate = some y →
          calendar.toMSecsSinceEpoch y ≤ calendar.toMSecsSinceEpoch x)) := by
  obtain ⟨hperm, hsorted⟩ := DatabaseManager.selectPosts_spec calendar db publishedOnly
  have hall : DatabaseManager.getAllPosts calendar db publishedOnly =
      (DatabaseManager.selectPosts calendar db publishedOnly).map
        (DatabaseManager.postOfListedRow db) := by
    unfold DatabaseManager.getAllPosts
    rw [if_pos hopen]
  refine ⟨⟨DatabaseManager.selectPosts calendar db publishedOnly, hperm, hsorted, ?_⟩,
    ?_, ?_, ?_⟩
  · rw [hall, List.map_map]
    rfl
  · rw [hall, List.map_map]
    have hids : ((fun p : Post => p.id) ∘ DatabaseManager.postOfListedRow db) =
        fun r => r.id := rfl
    rw [hids, (hperm.map (fun r => r.id)).nodup_iff]
    cases publishedOnly with
    | false => exact hwf.1
    | true => exact List.Nodup.sublist ((List.filter_sublist _).map _) hwf.1
  · intro hpub p hp
    rw [hall, List.mem_map] at hp
    obtain ⟨r, hr, rfl⟩ := hp
    have hst := (DatabaseManager.selectPosts_mem calendar db publishedOnly r hr).2 hpub
    show Post.Status.ofInt r.status = Post.Status.Published
    rw [hst]
    rfl
  · intro hmono
    rw [hall, List.pairwise_map]
    refine List.Pairwise.imp_of_mem ?_ hsorted
    intro a b ha hb hab
    have hma := (DatabaseManager.selectPosts_mem calendar db publishedOnly a ha).1
    have hmb := (DatabaseManager.selectPosts_mem calendar db publishedOnly b hb).1
    show (a.publish_date = none → b.publish_date = none) ∧
      ∀ x y, a.publish_date = some x → b.publish_date = some y →
        calendar.toMSecsSinceEpoch y ≤ calendar.toMSecsSinceEpoch x
    refine ⟨?_, ?_⟩
    · intro hna
      rw [hna] at hab
      cases hb' : b.publish_date with
      | none => rfl
      | some y =>
        rw [hb'] at hab
        simp [storedDateNotBelow] at hab
    · intro x y hx hy
      rw [hx, hy] at hab
      refine hmono x y ?_ ?_ hab
      · exact List.mem_map.mpr ⟨a, hma, hx⟩
      · exact List.mem_map.mpr ⟨b, hmb, hy⟩

/-- C25 on a store with a draft and two published posts, all dates stored in UTC:
the published posts are listed as 3, 2 and all posts as 1, 3, 2. -/
theorem C25_getAllPosts_lists_stored_posts_by_stored_date_witness :
    ((DatabaseManager.getAllPosts
        ⟨fun t => t,
         fun t => if t = 30 then "2024-01-03T00:00:00.000Z"
           else if t = 20 then "2024-01-02T00:00:00.000Z" else "2024-01-01T00:00:00.000Z"⟩
        ⟨true, [⟨1, -1, "Draft", "", "", some 30, "", 0, ""⟩,
                ⟨2, 42, "Old", "", "", some 10, "", 1, ""⟩,
                ⟨3, 43, "New", "", "", some 20, "", 1, ""⟩], 3, ⟨[], 0⟩, ⟨[], 0⟩, [], []⟩
        true).map (fun p => p.id)).Nodup ∧
    (DatabaseManager.getAllPosts
        ⟨fun t => t,
         fun t => if t = 30 then "2024-01-03T00:00:00.000Z"
           else if t = 20 then "2024-01-02T00:00:00.000Z" else "2024-01-01T00:00:00.000Z"⟩
        ⟨true, [⟨1, -1, "Draft", "", "", some 30, "", 0, ""⟩,
                ⟨2, 42, "Old", "", "", some 10, "", 1, ""⟩,
                ⟨3, 43, "New", "", "", some 20, "", 1, ""⟩], 3, ⟨[], 0⟩, ⟨[], 0⟩, [], []⟩
        true).map (fun p => (p.id, p.title)) = [(3, "New"), (2, "Old")] ∧
    (DatabaseManager.getAllPosts
        ⟨fun t => t,
         fun t => if t = 30 then "2024-01-03T00:00:00.000Z"
           else if t = 20 then "2024-01-02T00:00:00.000Z" else "2024-01-01T00:00:00.000Z"⟩
        ⟨true, [⟨1, -1, "Draft", "", "", some 30, "", 0, ""⟩,
                ⟨2, 42, "Old", "", "", some 10, "", 1, ""⟩,
                ⟨3, 43, "New", "", "", some 20, "", 1, ""⟩], 3, ⟨[], 0⟩, ⟨[], 0⟩, [], []⟩
        false).map (fun p => p.id) = [1, 3, 2] :=
  ⟨(C25_getAllPosts_lists_stored_posts_by_stored_date
      ⟨fun t => t,
       fun t => if t = 30 then "2024-01-03T00:00:00.000Z"
         else if t = 20 then "2024-01-02T00:00:00.000Z" else "2024-01-01T00:00:00.000Z"⟩
      ⟨true, [⟨1, -1, "Draft", "", "", some 30, "", 0, ""⟩,
              ⟨2, 42, "Old", "", "", some 10, "", 1, ""⟩,
              ⟨3, 43, "New", "", "", some 20, "", 1, ""⟩], 3, ⟨[], 0⟩, ⟨[], 0⟩, [], []⟩
      rfl ⟨by decide, ⟨by decide, by decide⟩, ⟨by decide, by decide⟩, by decide, by decide⟩
      true).2.1, by decide, by decide⟩

/-! ## C26: the value of the header `Authorization` -/

/-- C26. For all usernames `u` and passwords `p`, `createAuthHeader` returns the
empty value if and only if `u` is empty or `p` is empty; otherwise it returns
`Basic ` followed by the Base64 text of the UTF-8 bytes of `u`, a colon and
`p`. -/
theorem C26_auth_header_is_basic_base64 (api : WordPressAPI) (u p : String) :
    ((api.setCredentials u p).createAuthHeader = "" ↔ u = "" ∨ p = "") ∧
    (¬ (u = "" ∨ p = "") →
      (api.setCredentials u p).createAuthHeader =
        "Basic " ++ String.mk (toBase64 (toUtf8 (u ++ ":" ++ p)))) := by
  refine ⟨⟨?_, ?_⟩, ?_⟩
  · intro h
    by_contra hne
    rw [not_or] at hne
    exact WordPressAPI.createAuthHeader_ne_empty (api.setCredentials u p) hne.1 hne.2 h
  · intro h
    unfold WordPressAPI.createAuthHeader WordPressAPI.setCredentials
    rw [if_pos h]
  · intro h
    unfold WordPressAPI.createAuthHeader WordPressAPI.setCredentials
    rw [if_neg h]

/-- C26 at the username `user` and the password `pass`. -/
theorem C26_auth_header_is_basic_base64_witness :
    ((WordPressAPI.mk "" "" "").setCredentials "user" "pass").createAuthHeader =
      "Basic dXNlcjpwYXNz" :=
  ((C26_auth_header_is_basic_base64 (WordPressAPI.mk "" "" "") "user" "pass").2
    (by decide)).trans (by decide)

/-! ## C27: requests without credentials -/

/-- Without a username or without a password no header `Authorization` is set. -/
theorem WordPressAPI.optionalAuthorization_none (api : WordPressAPI)
    (hcred : api.m_username = "" ∨ api.m_password = "") : api.optionalAuthorization = none := by
  unfold WordPressAPI.optionalAuthorization WordPressAPI.createAuthHeader
  rw [if_pos hcred]
  rfl

/-- With a base URL but without a username or a password, `createPost` emits
`error` and sends nothing. -/
theorem WordPressAPI.createPost_refused (api : WordPressAPI) (db : Database) (post : Post)
    (hurl : api.m_apiUrl ≠ "") (hcred : api.m_username = "" ∨ api.m_password = "") :
    api.createPost db post = Issued.error "认证信息未设置，无法发布文章" := by
  unfold WordPressAPI.createPost WordPressAPI.createAuthHeader
  rw [if_neg hurl]
  simp only [hcred, if_true]

/-- With a base URL but without a username or a password, `updatePost` emits
`error` and sends nothing. -/
theorem WordPressAPI.updatePost_refused (api : WordPressAPI) (db : Database) (post : Post)
    (hurl : api.m_apiUrl ≠ "") (hcred : api.m_username = "" ∨ api.m_password = "") :
    api.updatePost db post =
      Issued.error (if post.hasRemoteId = true then "认证信息未设置，无法更新文章"
        else "API URL 没有设置或无效的远程文章ID") := by
  unfold WordPressAPI.updatePost WordPressAPI.createAuthHeader
  by_cases hr : post.hasRemoteId = true
  · rw [if_neg (by simp [hurl, hr])]
    simp only [hcred, hr, if_true]
  · rw [if_pos (Or.inr hr), if_neg hr]

/-- C27, counterexample. With the base URL set, the username empty and the
password `p`, `createPost` and `updatePost` (of a post with remote id 42) emit
`error` and hand no request to the network manager. -/
theorem C27_create_and_update_are_refused_without_credentials :
    (WordPressAPI.mk "https://blog.example/wp-json/wp/v2/" "" "p").createPost
        ⟨true, [], 0, ⟨[], 0⟩, ⟨[], 0⟩, [], []⟩
        { Post.default none with title := "Hello" } =
      Issued.error "认证信息未设置，无法发布文章" ∧
    (WordPressAPI.mk "https://blog.example/wp-json/wp/v2/" "" "p").updatePost
        ⟨true, [], 0, ⟨[], 0⟩, ⟨[], 0⟩, [], []⟩
        { Post.default none with remoteId := 42, title := "Hello" } =
      Issued.error "认证信息未设置，无法更新文章" :=
  ⟨WordPressAPI.createPost_refused _ _ _ (by decide) (Or.inl rfl),
    (WordPressAPI.updatePost_refused _ _ _ (by decide) (Or.inl rfl)).trans rfl⟩

/-- C27, amended. With the base URL set and the username or the password empty:
`fetchPosts`, `fetchCategories`, `fetchTags` and, for an id other than -1,
`deletePost` hand their request to the network manager without a header
`Authorization`; `createPost` and `updatePost` emit `error` and send nothing. -/
theorem C27_only_reads_and_delete_go_unauthenticated (api : WordPressAPI) (db : Database)
    (post : Post) (postId : Int) (hurl : api.m_apiUrl ≠ "")
    (hcred : api.m_username = "" ∨ api.m_password = "") :
    (∃ req, api.fetchPosts = Issued.sent req ∧ req.method = HttpMethod.GET ∧
      req.authorization = none) ∧
    (∃ req, api.fetchCategories = Issued.sent req ∧ req.method = HttpMethod.GET ∧
      req.url = api.m_apiUrl ++ "categories" ++ "?per_page=100" ∧ req.authorization = none) ∧
    (∃ req, api.fetchTags = Issued.sent req ∧ req.method = HttpMethod.GET ∧
      req.url = api.m_apiUrl ++ "tags" ++ "?per_page=100" ∧ req.authorization = none) ∧
    (postId ≠ -1 → ∃ req, api.deletePost postId = Issued.sent req ∧
      req.method = HttpMethod.DELETE ∧
      req.url = api.m_apiUrl ++ "posts/" ++ QString.number postId ++ "?force=true" ∧
      req.authorization = none) ∧
    api.createPost db post = Issued.error "认证信息未设置，无法发布文章" ∧
    (∃ errorMessage, api.updatePost db post = Issued.error errorMessage) := by
  have hauth := WordPressAPI.optionalAuthorization_none api hcred
  refine ⟨?_, ?_, ?_, ?_, WordPressAPI.createPost_refused api db post hurl hcred,
    ⟨_, WordPressAPI.updatePost_refused api db post hurl hcred⟩⟩
  · unfold WordPressAPI.fetchPosts
    rw [if_neg hurl]
    exact ⟨_, rfl, rfl, hauth⟩
  · unfold WordPressAPI.fetchCategories
    rw [if_neg hurl]
    exact ⟨_, rfl, rfl, rfl, hauth⟩
  · unfold WordPressAPI.fetchTags
    rw [if_neg hurl]
    exact ⟨_, rfl, rfl, rfl, hauth⟩
  · intro hid
    unfold WordPressAPI.deletePost
    rw [if_neg (by simp [hurl, hid])]
    exact ⟨_, rfl, rfl, rfl, hauth⟩

/-- C27 with the base URL set and no credentials: `fetchPosts` sends its GET
without a header `Authorization`. -/
theorem C27_only_reads_and_delete_go_unauthenticated_witness :
    ∃ req, (WordPressAPI.mk "https://blog.example/wp-json/wp/v2/" "" "").fetchPosts =
        Issued.sent req ∧ req.method = HttpMethod.GET ∧ req.authorization = none :=
  (C27_only_reads_and_delete_go_unauthenticated
    (WordPressAPI.mk "https://blog.example/wp-json/wp/v2/" "" "")
    ⟨true, [], 0, ⟨[], 0⟩, ⟨[], 0⟩, [], []⟩ (Post.default none) 5
    (by decide) (Or.inl rfl)).1

/-! ## C28: saving a term that carries an id -/

/-- The body of `saveCategory` / `saveTag` for a term whose id is not -1: the name
lookup and the `INSERT` are skipped, and the `UPDATE` either fails and leaves
the table as it was, or renames the rows of that id. -/
theorem TermTable.save_of_set_id (isOpen : Bool) (t : TermTable) (term : Term)
    (hid : term.id ≠ -1) :
    (TermTable.save isOpen t term).2.1 = t ∨
    (TermTable.save isOpen t term).2.1 =
      { t with rows := t.rows.map (fun r =>
          if r.id = term.id then { r with name := term.name } else r) } := by
  unfold TermTable.save TermTable.updateName
  simp only [hid, false_and, if_false]
  split_ifs
  · right; rfl
  · left; rfl

/-- A term whose id is not -1 leaves every row of the table in its place, with
its id; only a row of that id can differ from what it was. -/
theorem TermTable.save_of_set_id_rows (isOpen : Bool) (t : TermTable) (term : Term)
    (hid : term.id ≠ -1) :
    ∃ f : Term → Term, (TermTable.save isOpen t term).2.1.rows = t.rows.map f ∧
      ∀ r, (f r).id = r.id ∧ (r.id ≠ term.id → f r = r) ∧
        (f r = r ∨ f r = { r with name := term.name }) := by
  rcases TermTable.save_of_set_id isOpen t term hid with h | h
  · exact ⟨fun r => r, by rw [h, List.map_id'], fun r => ⟨rfl, fun _ => rfl, Or.inl rfl⟩⟩
  · refine ⟨fun r => if r.id = term.id then { r with name := term.name } else r, by rw [h],
      fun r => ?_⟩
    by_cases hr : r.id = term.id
    · simp only [hr, if_true]
      exact ⟨trivial, fun hne => absurd rfl hne, Or.inr trivial⟩
    · simp only [hr, if_false]
      exact ⟨trivial, fun _ => trivial, Or.inl trivial⟩

theorem TermTable.save_of_set_id_ids (isOpen : Bool) (t : TermTable) (term : Term)
    (hid : term.id ≠ -1) :
    (TermTable.save isOpen t term).2.1.rows.map (fun r => r.id) = t.rows.map (fun r => r.id) := by
  obtain ⟨f, hf, hspec⟩ := TermTable.save_of_set_id_rows isOpen t term hid
  rw [hf, List.map_map]
  apply List.map_congr_left
  intro r _
  exact (hspec r).1

/-- The loop of `onCategoriesReceived` over terms none of which has the id -1
leaves the ids of the rows of `categories` as they were. -/
theorem DatabaseManager.foldl_saveCategory_ids (categories : List Category)
    (hids : ∀ t ∈ categories, t.id ≠ -1) :
    ∀ db : Database,
      (categories.foldl (fun db category =>
        (DatabaseManager.saveCategory db category).2.1) db).categories.rows.map (fun r => r.id) =
      db.categories.rows.map (fun r => r.id) := by
  induction categories with
  | nil => intro db; rfl
  | cons t ts ih =>
    intro db
    rw [List.foldl_cons, ih (fun x hx => hids x (List.mem_cons_of_mem _ hx))]
    exact TermTable.save_of_set_id_ids db.isOpen db.categories t (hids t (List.mem_cons_self _ _))

/-- The loop of `onTagsReceived` over terms none of which has the id -1 leaves the
ids of the rows of `tags` as they were. -/
theorem DatabaseManager.foldl_saveTag_ids (tags : List Tag)
    (hids : ∀ t ∈ tags, t.id ≠ -1) :
    ∀ db : Database,
      (tags.foldl (fun db tag =>
        (DatabaseManager.saveTag db tag).2.1) db).tags.rows.map (fun r => r.id) =
      db.tags.rows.map (fun r => r.id) := by
  induction tags with
  | nil => intro db; rfl
  | cons t ts ih =>
    intro db
    rw [List.foldl_cons, ih (fun x hx => hids x (List.mem_cons_of_mem _ hx))]
    exact TermTable.save_of_set_id_ids db.isOpen db.tags t (hids t (List.mem_cons_self _ _))

/-- C28. For every store and every term whose id is not -1, `saveCategory` and
`saveTag` add no row: the table has as many rows afterwards as before, every
row is in its place with its id, a row of another id is as it was, and a row
of that id is as it was or has the name of the term. So `onCategoriesReceived`
and `onTagsReceived`, handed terms none of which has the id -1, leave the
number of rows and the ids of the rows of the term table as they were. -/
theorem C28_term_with_id_is_never_inserted (db : Database) (term : Term)
    (hid : term.id ≠ -1) :
    ((DatabaseManager.saveCategory db term).2.1.categories.rows.length =
        db.categories.rows.length ∧
      ∃ f : Term → Term,
        (DatabaseManager.saveCategory db term).2.1.categories.rows = db.categories.rows.map f ∧
        ∀ r, (f r).id = r.id ∧ (r.id ≠ term.id → f r = r) ∧
          (f r = r ∨ f r = { r with name := term.name })) ∧
    ((DatabaseManager.saveTag db term).2.1.tags.rows.length = db.tags.rows.length ∧
      ∃ f : Term → Term,
        (DatabaseManager.saveTag db term).2.1.tags.rows = db.tags.rows.map f ∧
        ∀ r, (f r).id = r.id ∧ (r.id ≠ term.id → f r = r) ∧
          (f r = r ∨ f r = { r with name := term.name })) ∧
    (∀ (c : BlogClient) (terms : List Term), (∀ t ∈ terms, t.id ≠ -1) →
      ((c.onCategoriesReceived terms).db.categories.rows.length =
          c.db.categories.rows.length ∧
        (c.onCategoriesReceived terms).db.categories.rows.map (fun r => r.id) =
          c.db.categories.rows.map (fun r => r.id)) ∧
      ((c.onTagsReceived terms).db.tags.rows.length = c.db.tags.rows.length ∧
        (c.onTagsReceived terms).db.tags.rows.map (fun r => r.id) =
          c.db.tags.rows.map (fun r => r.id))) := by
  refine ⟨?_, ?_, ?_⟩
  · obtain ⟨f, hf, hspec⟩ := TermTable.save_of_set_id_rows db.isOpen db.categories term hid
    have hrows : (DatabaseManager.saveCategory db term).2.1.categories.rows =
        db.categories.rows.map f := hf
    exact ⟨by rw [hrows, List.length_map], f, hrows, hspec⟩
  · obtain ⟨f, hf, hspec⟩ := TermTable.save_of_set_id_rows db.isOpen db.tags term hid
    have hrows : (DatabaseManager.saveTag db term).2.1.tags.rows = db.tags.rows.map f := hf
    exact ⟨by rw [hrows, List.length_map], f, hrows, hspec⟩
  · intro c terms hterms
    have hc : (c.onCategoriesReceived terms).db.categories.rows.map (fun r => r.id) =
        c.db.categories.rows.map (fun r => r.id) :=
      DatabaseManager.foldl_saveCategory_ids terms hterms c.db
    have ht : (c.onTagsReceived terms).db.tags.rows.map (fun r => r.id) =
        c.db.tags.rows.map (fun r => r.id) :=
      DatabaseManager.foldl_saveTag_ids terms hterms c.db
    refine ⟨⟨?_, hc⟩, ⟨?_, ht⟩⟩
    · have := congrArg List.length hc
      rwa [List.length_map, List.length_map] at this
    · have := congrArg List.length ht
      rwa [List.length_map, List.length_map] at this

/-- C28 on a store with the category `News` under id 1: `saveCategory` of the term
with remote id 5 and name `Tech` leaves the one row. -/
theorem C28_term_with_id_is_never_inserted_witness :
    (DatabaseManager.saveCategory ⟨true, [], 0, ⟨[⟨1, "News"⟩], 1⟩, ⟨[], 0⟩, [], []⟩
        ⟨5, "Tech"⟩).2.1.categories.rows.length =
      (Database.mk true [] 0 ⟨[⟨1, "News"⟩], 1⟩ ⟨[], 0⟩ [] []).categories.rows.length :=
  (C28_term_with_id_is_never_inserted ⟨true, [], 0, ⟨[⟨1, "News"⟩], 1⟩, ⟨[], 0⟩, [], []⟩
    ⟨5, "Tech"⟩ (by decide)).1.1

/-! ## C29: the status sent by the create branch of a sync -/

/-- The sync slot changes the API settings only: the current post and the store
are as they were. -/
theorem BlogClient.on_actionSync_triggered_frame (settings : QSettings) (c : BlogClient) :
    (c.on_actionSync_triggered settings).1.m_currentPost = c.m_currentPost ∧
    (c.on_actionSync_triggered settings).1.db = c.db := by
  obtain ⟨db, api, cur, editing⟩ := c
  unfold BlogClient.on_actionSync_triggered
  cases cur with
  | none => exact ⟨rfl, rfl⟩
  | some p =>
    dsimp only
    split_ifs <;> exact ⟨rfl, rfl⟩

/-- C29. With the API settings present, for every current post that does not
have both a remote id and the status `Published` (so that the sync slot takes
its create branch): the slot calls `createPost` on a copy of the post whose
status is `Published`, the call sends a request whose body has `status` equal
to `publish`, whatever the status of the current post, and the current post is
afterwards what it was, its status included. -/
theorem C29_create_branch_sends_publish_and_keeps_status (settings : QSettings)
    (c : BlogClient) (p : Post) (hcur : c.m_currentPost = some p)
    (hu : settings.apiUrl ≠ "") (hn : settings.username ≠ "") (hp : settings.password ≠ "")
    (hbranch : ¬ (p.hasRemoteId = true ∧ p.status = Post.Status.Published)) :
    (∃ req body,
      (c.on_actionSync_triggered settings).2 =
        SyncAction.createPost (p.setStatus Post.Status.Published) (Issued.sent req) ∧
      req.method = HttpMethod.POST ∧ req.body = some body ∧
      QJsonObject.value body "status" = QJsonValue.string "publish") ∧
    (c.on_actionSync_triggered settings).1.m_currentPost = some p ∧
    ((c.on_actionSync_triggered settings).1.m_currentPost.map (fun q => q.status)) =
      some p.status := by
  have hbase := WordPressAPI.setApiUrl_ne_empty c.api settings.apiUrl hu
  have hframe := (BlogClient.on_actionSync_triggered_frame settings c).1
  rw [hcur] at hframe
  refine ⟨?_, hframe, by rw [hframe]; rfl⟩
  rw [BlogClient.on_actionSync_triggered_eq settings c p hcur hu hn hp]
  simp only []
  rw [if_neg hbranch]
  refine ⟨_, _, congrArg _ (WordPressAPI.createPost_sent_body
    ((c.api.setApiUrl settings.apiUrl).setCredentials settings.username settings.password)
    c.db (p.setStatus Post.Status.Published) hbase hn hp), rfl, rfl, ?_⟩
  rw [(WordPressAPI.postObject_fixed_entries c.db (p.setStatus Post.Status.Published) _).2.2.2]
  rfl

/-- C29 at a draft without remote id. -/
theorem C29_create_branch_sends_publish_and_keeps_status_witness :
    ((BlogClient.mk ⟨true, [], 0, ⟨[], 0⟩, ⟨[], 0⟩, [], []⟩ ⟨"", "", ""⟩
        (some { Post.default none with id := 1, title := "Hello" })
        true).on_actionSync_triggered ⟨"https://blog.example/", "u", "p"⟩).1.m_currentPost.map
      (fun q => q.status) =
        some (Post.status { Post.default none with id := 1, title := "Hello" }) :=
  (C29_create_branch_sends_publish_and_keeps_status ⟨"https://blog.example/", "u", "p"⟩
    (BlogClient.mk ⟨true, [], 0, ⟨[], 0⟩, ⟨[], 0⟩, [], []⟩ ⟨"", "", ""⟩
      (some { Post.default none with id := 1, title := "Hello" }) true)
    { Post.default none with id := 1, title := "Hello" }
    rfl (by decide) (by decide) (by decide) (by decide)).2.2

/-! ## C30: the base URL -/

theorem QString.endsWith_append (s t x : String) (h : QString.endsWith t x = true) :
    QString.endsWith (s ++ t) x = true := by
  unfold QString.endsWith at h ⊢
  rw [decide_eq_true_eq] at h ⊢
  rw [String.data_append]
  exact h.trans (List.suffix_append _ _)

theorem QString.contains_append_left (s t x : String) (h : QString.contains s x = true) :
    QString.contains (s ++ t) x = true := by
  unfold QString.contains at h ⊢
  rw [decide_eq_true_eq] at h ⊢
  rw [String.data_append]
  exact h.trans (List.prefix_append _ _).isInfix

theorem QString.contains_append_right (s t x : String) (h : QString.contains t x = true) :
    QString.contains (s ++ t) x = true := by
  unfold QString.contains at h ⊢
  rw [decide_eq_true_eq] at h ⊢
  rw [String.data_append]
  exact h.trans (List.suffix_append _ _).isInfix

/-- One of the two blocks of `setApiUrl` that add a path fragment `f` to a text `x`
unless it contains it: the result ends with `/` when the text added does (or
nothing was added and `x` did), contains `f`, and contains what `x` contained. -/
theorem QString.addFragment_spec (x f t1 t2 : String)
    (he1 : QString.endsWith t1 "/" = true) (he2 : QString.endsWith t2 "/" = true)
    (hf1 : QString.contains t1 f = true) (hf2 : QString.contains t2 f = true) :
    (QString.endsWith x "/" = true →
      QString.endsWith (if ¬ QString.contains x f then
        (if QString.endsWith x "/" then x ++ t1 else x ++ t2) else x) "/" = true) ∧
    QString.contains (if ¬ QString.contains x f then
        (if QString.endsWith x "/" then x ++ t1 else x ++ t2) else x) f = true ∧
    (∀ g, QString.contains x g = true →
      QString.contains (if ¬ QString.contains x f then
        (if QString.endsWith x "/" then x ++ t1 else x ++ t2) else x) g = true) := by
  by_cases hc : QString.contains x f = true
  · rw [if_neg (not_not.mpr hc)]
    exact ⟨fun h => h, hc, fun g hg => hg⟩
  · rw [if_pos hc]
    by_cases he : QString.endsWith x "/" = true
    · rw [if_pos he]
      exact ⟨fun _ => QString.endsWith_append x t1 "/" he1,
        QString.contains_append_right x t1 f hf1,
        fun g hg => QString.contains_append_left x t1 g hg⟩
    · rw [if_neg he]
      exact ⟨fun _ => QString.endsWith_append x t2 "/" he2,
        QString.contains_append_right x t2 f hf2,
        fun g hg => QString.contains_append_left x t2 g hg⟩

/-- The base URL `setApiUrl` stores ends with `/` and contains `wp-json` and
`wp/v2`. -/
theorem WordPressAPI.setApiUrl_normal (api : WordPressAPI) (u : String) :
    QString.endsWith (api.setApiUrl u).m_apiUrl "/" = true ∧
    QString.contains (api.setApiUrl u).m_apiUrl "wp-json" = true ∧
    QString.contains (api.setApiUrl u).m_apiUrl "wp/v2" = true := by
  unfold WordPressAPI.setApiUrl
  simp only []
  have h1 : QString.endsWith (if ¬ QString.endsWith u "/" then u ++ "/" else u) "/" = true := by
    split_ifs with h
    · exact h
    · exact QString.endsWith_append u "/" "/" (by decide)
  generalize (if ¬ QString.endsWith u "/" then u ++ "/" else u) = u1 at h1 ⊢
  obtain ⟨h2e, h2j, -⟩ := QString.addFragment_spec u1 "wp-json" "wp-json/" "/wp-json/"
    (by decide) (by decide) (by decide) (by decide)
  have h2e := h2e h1
  generalize (if ¬ QString.contains u1 "wp-json" then
    (if QString.endsWith u1 "/" then u1 ++ "wp-json/" else u1 ++ "/wp-json/") else u1) = u2
    at h2e h2j ⊢
  obtain ⟨h3e, h3v, h3m⟩ := QString.addFragment_spec u2 "wp/v2" "wp/v2/" "/wp/v2/"
    (by decide) (by decide) (by decide) (by decide)
  exact ⟨h3e h2e, h3m "wp-json" h2j, h3v⟩

/-- On a text that ends with `/` and contains `wp-json` and `wp/v2`, `setApiUrl`
stores the text as it is. -/
theorem WordPressAPI.setApiUrl_of_normal (api : WordPressAPI) (u : String)
    (he : QString.endsWith u "/" = true) (hj : QString.contains u "wp-json" = true)
    (hv : QString.contains u "wp/v2" = true) :
    api.setApiUrl u = { api with m_apiUrl := u } := by
  unfold WordPressAPI.setApiUrl
  simp only [he, hj, hv, not_true_eq_false, if_false]

/-- C30. For every text `u`, the base URL `setApiUrl` stores ends with `/` and
contains `wp-json` and `wp/v2`; `setApiUrl` on the stored value leaves the
state of the API object unchanged; and for a text that ends with `/` and
contains both fragments, the stored value is that text. -/
theorem C30_setApiUrl_normalizes_and_is_idempotent (api : WordPressAPI) (u : String) :
    QString.endsWith (api.setApiUrl u).m_apiUrl "/" = true ∧
    QString.contains (api.setApiUrl u).m_apiUrl "wp-json" = true ∧
    QString.contains (api.setApiUrl u).m_apiUrl "wp/v2" = true ∧
    (api.setApiUrl u).setApiUrl (api.setApiUrl u).m_apiUrl = api.setApiUrl u ∧
    (QString.endsWith u "/" = true → QString.contains u "wp-json" = true →
      QString.contains u "wp/v2" = true → (api.setApiUrl u).m_apiUrl = u) := by
  obtain ⟨he, hj, hv⟩ := WordPressAPI.setApiUrl_normal api u
  refine ⟨he, hj, hv, ?_, ?_⟩
  · rw [WordPressAPI.setApiUrl_of_normal (api.setApiUrl u) _ he hj hv]
  · intro h1 h2 h3
    rw [WordPressAPI.setApiUrl_of_normal api u h1 h2 h3]

/-- C30 at a site address and at a base URL that is already complete. -/
theorem C30_setApiUrl_normalizes_and_is_idempotent_witness :
    ((WordPressAPI.mk "" "u" "p").setApiUrl "https://blog.example").m_apiUrl =
      "https://blog.example/wp-json/wp/v2/" ∧
    ((WordPressAPI.mk "" "u" "p").setApiUrl "https://blog.example/wp-json/wp/v2/").m_apiUrl =
      "https://blog.example/wp-json/wp/v2/" :=
  ⟨by decide,
    (C30_setApiUrl_normalizes_and_is_idempotent (WordPressAPI.mk "" "u" "p")
      "https://blog.example/wp-json/wp/v2/").2.2.2.2 (by decide) (by decide) (by decide)⟩
